import Mathlib

/-!
# kubectl-login: token cache and authentication orchestration

A shallow embedding of `pkg/types`, `pkg/config`, `pkg/cache`, the flow
selection of `pkg/auth` and the two entry points of `cmd/root.go`, followed by
the properties proved about them.

Conventions of the embedding:

* a Go `string` is a `String`; a Go `map[string]V` is a finite map with unique
  keys, `GoMap V`;
* a `time.Time` is the instant it denotes, in nanoseconds since the Unix epoch;
  a `time.Duration` is a number of nanoseconds, saturating at the `int64`
  bounds exactly where `Time.Sub` saturates;
* the file system is an explicit state; the calls whose result the operating
  system decides (`os.MkdirAll`, `os.WriteFile`, `os.Rename`) take their result
  from a `SaveOutcome` argument;
* `encoding/json` is a library, not code of this repository: its two entry
  points used by the cache are the fields of a `JSONCodec` argument;
* the flow drivers talk to an identity provider: what each of them returns when
  called is a field of a `Drivers` argument, and every call is recorded in a
  trace of `Call`s so that "no driver is invoked" can be stated;
* where the order of what an entry point does matters, its steps are listed
  as `Event`s in the order of the source, next to the `Run` that records them;
* the device flow reads a clock and sleeps: the clock is an explicit instant
  advanced by the sleeps and by the delays of a `DeviceProvider` argument, and
  its poll loop takes fuel, one unit for each evaluation of its condition.
-/

namespace KubectlLogin

/-! ## Go built-ins -/

/-- A Go `map[string]V`: finitely many entries, at most one per key. -/
abbrev GoMap (V : Type) : Type := AList (fun _ : String => V)

/-- The Go expression `m[k]` on a map of pointers: the entry, `none` for `nil`. -/
def GoMap.index {V : Type} (m : GoMap V) (k : String) : Option V :=
  AList.lookup k m

/-- The Go statement `m[k] = v`. -/
def GoMap.assign {V : Type} (m : GoMap V) (k : String) (v : V) : GoMap V :=
  AList.insert k v m

/-- The Go statement `delete(m, k)`. -/
def GoMap.delete {V : Type} (m : GoMap V) (k : String) : GoMap V :=
  AList.erase k m

/-- The Go expression `len(m)`. -/
def GoMap.len {V : Type} (m : GoMap V) : Nat :=
  m.entries.length

/-- A Go `error` value, identified with its message. -/
abbrev Error : Type := String

/-! ## package time -/

/-! A `time.Time` is an `Int`, the instant in nanoseconds since the Unix epoch;
a `time.Duration` is an `Int`, a number of nanoseconds. -/

/-- The smallest `time.Duration`, `-1 << 63`. -/
def minDuration : Int := -(2 ^ 63)

/-- The largest `time.Duration`, `1<<63 - 1`. -/
def maxDuration : Int := 2 ^ 63 - 1

/-- The constant `time.Second`. -/
def Second : Int := 1000000000

/-- The constant `time.Minute`. -/
def Minute : Int := 60 * Second

/-- The method `Time.Sub`: the duration `t - u`, or the nearest bound of the
`int64` range when the difference does not fit. -/
def timeSub (t u : Int) : Int :=
  if t - u < minDuration then minDuration
  else if maxDuration < t - u then maxDuration
  else t - u

/-- The function `time.Until(t)`, that is `t.Sub(time.Now())`, at clock reading `now`. -/
def timeUntil (now t : Int) : Int :=
  timeSub t now

/-! ## pkg/types, pkg/config -/

/-- The struct `types.TokenInfo`. -/
structure TokenInfo where
  AccessToken : String
  RefreshToken : String
  IDToken : String
  Expiry : Int
  deriving DecidableEq, Repr

/-- The struct `config.Config`. -/
structure Config where
  IssuerURL : String
  ClientID : String
  ClientSecret : String
  Headless : Bool
  Port : Int
  deriving DecidableEq, Repr

/-! ## pkg/cache -/

/-- The contents of a file. -/
abbrev Bytes : Type := List UInt8

/-- The files of the file system, by path; `none` where there is no file. -/
abbrev FileSystem : Type := String → Option Bytes

/-- The struct `cacheEntry`, the serialised form of a token. -/
structure cacheEntry where
  AccessToken : String
  RefreshToken : String
  IDToken : String
  Expiry : Int
  deriving DecidableEq, Repr

/-- The two functions of `encoding/json` the cache calls, at the type
`map[string]*cacheEntry`. `marshalIndent m` is `json.MarshalIndent(m, "", "  ")`,
`none` when it returns an error. `unmarshal data` is
`json.Unmarshal(data, &cacheData)` for a nil `cacheData`: `none` when it returns
an error, otherwise the decoded map, in which an entry may be a nil pointer. -/
structure JSONCodec where
  marshalIndent : GoMap cacheEntry → Option Bytes
  unmarshal : Bytes → Option (GoMap (Option cacheEntry))

/-- What `os.WriteFile` did. It opens the file with `O_CREATE|O_TRUNC`, writes
and closes: it can succeed, fail to open the file (nothing changes), or fail
after the file was created or truncated, leaving only the first `written`
bytes in it. -/
inductive WriteFileOutcome where
  | ok
  | openFailed
  | truncated (written : Nat)
  deriving DecidableEq, Repr

/-- The results the operating system gives to the calls of one `save`. -/
structure SaveOutcome where
  mkdirAll : Bool
  writeFile : WriteFileOutcome
  rename : Bool
  deriving DecidableEq, Repr

/-- The function `os.WriteFile(name, data, perm)`; `true` when it returns no error. -/
def osWriteFile (o : WriteFileOutcome) (fs : FileSystem) (name : String) (data : Bytes) :
    FileSystem × Bool :=
  match o with
  | .ok => (fun p => if p = name then some data else fs p, true)
  | .openFailed => (fs, false)
  | .truncated n => (fun p => if p = name then some (data.take n) else fs p, false)

/-- The function `os.Rename(oldpath, newpath)` of an existing file; when it
fails nothing changes. -/
def osRename (ok : Bool) (fs : FileSystem) (oldpath newpath : String) : FileSystem :=
  if ok then fun p => if p = newpath then fs oldpath else if p = oldpath then none else fs p
  else fs

/-- The struct `TokenCache` (its mutex is not part of the sequential state). -/
structure TokenCache where
  tokens : GoMap TokenInfo
  path : String

/-- The method `TokenCache.key`. -/
def TokenCache.key (issuerURL clientID : String) : String :=
  issuerURL ++ ":" ++ clientID

/-- The method `TokenCache.Get`. -/
def TokenCache.Get (c : TokenCache) (issuerURL clientID : String) : Option TokenInfo :=
  let key := TokenCache.key issuerURL clientID
  c.tokens.index key

/-- The serialised form `save` builds for one token. -/
def cacheEntry.ofToken (token : TokenInfo) : cacheEntry :=
  { AccessToken := token.AccessToken
    RefreshToken := token.RefreshToken
    IDToken := token.IDToken
    Expiry := token.Expiry }

/-- The token `load` builds from one serialised entry. -/
def cacheEntry.toToken (entry : cacheEntry) : TokenInfo :=
  { AccessToken := entry.AccessToken
    RefreshToken := entry.RefreshToken
    IDToken := entry.IDToken
    Expiry := entry.Expiry }

/-- The loop of `save`: `for key, token := range c.tokens { cacheData[key] = ... }`,
started from the empty map `make(map[string]*cacheEntry)`. -/
def saveCacheData (tokens : GoMap TokenInfo) : GoMap cacheEntry :=
  tokens.entries.foldl (fun cacheData e => cacheData.assign e.1 (cacheEntry.ofToken e.2)) ∅

/-- The method `TokenCache.save`. Directories are not part of the file system
state, so `os.MkdirAll` only contributes its result. -/
def TokenCache.save (codec : JSONCodec) (o : SaveOutcome) (c : TokenCache) (fs : FileSystem) :
    FileSystem :=
  if !o.mkdirAll then fs
  else
    let cacheData := saveCacheData c.tokens
    match codec.marshalIndent cacheData with
    | none => fs
    | some data =>
      let tmpPath := c.path ++ ".tmp"
      match osWriteFile o.writeFile fs tmpPath data with
      | (fs1, false) => fs1
      | (fs1, true) => osRename o.rename fs1 tmpPath c.path

/-- The method `TokenCache.Set`, for a non-nil `token`. -/
def TokenCache.Set (codec : JSONCodec) (o : SaveOutcome) (c : TokenCache) (fs : FileSystem)
    (issuerURL clientID : String) (token : TokenInfo) : TokenCache × FileSystem :=
  let key := TokenCache.key issuerURL clientID
  let c1 : TokenCache := { c with tokens := c.tokens.assign key token }
  (c1, c1.save codec o fs)

/-- The method `TokenCache.Clear`. -/
def TokenCache.Clear (codec : JSONCodec) (o : SaveOutcome) (c : TokenCache) (fs : FileSystem)
    (issuerURL clientID : String) : TokenCache × FileSystem :=
  let key := TokenCache.key issuerURL clientID
  let c1 : TokenCache := { c with tokens := c.tokens.delete key }
  (c1, c1.save codec o fs)

/-- A run-time panic of the Go program. -/
inductive Panic where
  | nilDereference
  deriving DecidableEq, Repr

/-- The loop of `load`: `for key, entry := range cacheData { c.tokens[key] = &types.TokenInfo{...} }`.
Reading a field of a nil `entry` panics. -/
def loadEntries : List (Sigma fun _ : String => Option cacheEntry) → GoMap TokenInfo →
    Except Panic (GoMap TokenInfo)
  | [], tokens => .ok tokens
  | ⟨_, none⟩ :: _, _ => .error .nilDereference
  | ⟨key, some entry⟩ :: rest, tokens => loadEntries rest (tokens.assign key entry.toToken)

/-- The method `TokenCache.load`. `os.ReadFile` fails when there is no file at the path. -/
def TokenCache.load (codec : JSONCodec) (c : TokenCache) (fs : FileSystem) :
    Except Panic TokenCache :=
  match fs c.path with
  | none => .ok c
  | some data =>
    match codec.unmarshal data with
    | none => .ok c
    | some cacheData =>
      match loadEntries cacheData.entries c.tokens with
      | .error p => .error p
      | .ok tokens => .ok { c with tokens := tokens }

/-- The function `NewTokenCache`, with `cachePath` the path it derives from the
user cache directory. -/
def NewTokenCache (codec : JSONCodec) (cachePath : String) (fs : FileSystem) :
    Except Panic TokenCache :=
  let cache : TokenCache := { tokens := ∅, path := cachePath }
  cache.load codec fs

/-- The contract of `encoding/json` at the type `map[string]*cacheEntry`:
decoding what `json.MarshalIndent` produced gives back the same keys, each with
a non-nil entry equal to the one encoded. -/
def JSONCodec.RoundTrips (codec : JSONCodec) : Prop :=
  ∀ (m : GoMap cacheEntry) (data : Bytes), codec.marshalIndent m = some data →
    ∃ m1, codec.unmarshal data = some m1 ∧ ∀ k, m1.index k = (m.index k).map some

/-- Whether `save` runs to its end with every step succeeding: the directory
is created, the map is marshalled, the temporary file is written and then
renamed over the destination. -/
def TokenCache.saveCompletes (codec : JSONCodec) (o : SaveOutcome) (c : TokenCache) : Bool :=
  o.mkdirAll && (codec.marshalIndent (saveCacheData c.tokens)).isSome &&
    decide (o.writeFile = .ok) && o.rename

/-- One call `Set(issuerURL, clientID, token)`, with what the operating system
answers to its `save`. -/
structure SetStep where
  outcome : SaveOutcome
  issuerURL : String
  clientID : String
  token : TokenInfo

/-- A sequence of `Set` calls on a store, in order. -/
def runSets (codec : JSONCodec) : List SetStep → TokenCache × FileSystem → TokenCache × FileSystem
  | [], s => s
  | step :: rest, s =>
    runSets codec rest (s.1.Set codec step.outcome s.2 step.issuerURL step.clientID step.token)

/-- Whether the `save` of every `Set` call of the sequence completes. -/
def setsComplete (codec : JSONCodec) : List SetStep → TokenCache × FileSystem → Bool
  | [], _ => true
  | step :: rest, s =>
    (s.1.Set codec step.outcome s.2 step.issuerURL step.clientID step.token).1.saveCompletes
        codec step.outcome &&
      setsComplete codec rest
        (s.1.Set codec step.outcome s.2 step.issuerURL step.clientID step.token)

/-! ## pkg/auth: the flow drivers and their selection -/

/-- What each network-facing function of `pkg/auth` returns when it is called.
`newProvider` is the error of the `oidc.NewProvider` call that opens
`authenticateHeadless`, `none` when discovery succeeds; a field named after a
method of `Authenticator` is the result of that method, `deviceFlow` by the
device-authorization URL it is given and `RefreshToken` by the refresh token. -/
structure Drivers where
  newProvider : Option Error
  authenticateBrowser : Except Error TokenInfo
  clientCredentialsFlow : Except Error TokenInfo
  deviceFlow : String → Except Error TokenInfo
  RefreshToken : String → Except Error TokenInfo

/-- One call of a driver, as recorded in the trace of an invocation. -/
inductive Call where
  | RefreshToken (refreshToken : String)
  | Authenticate
  | authenticateBrowser
  | clientCredentialsFlow
  | deviceFlow (deviceAuthURL : String)
  deriving DecidableEq, Repr

/-- The slice `deviceEndpoints` of `authenticateHeadless`. -/
def deviceEndpoints (cfg : Config) : List String :=
  [cfg.IssuerURL ++ "/device", cfg.IssuerURL ++ "/oauth2/device", cfg.IssuerURL ++ "/v1/device"]

/-- The error `authenticateHeadless` returns when no flow produced a token. -/
def headlessFailed : Error :=
  "headless authentication failed: device flow not supported or client credentials invalid. Please use browser mode or configure device flow endpoints"

/-- The loop `for _, deviceAuthURL := range deviceEndpoints` of
`authenticateHeadless` and the return that follows it. -/
def tryDeviceEndpoints (d : Drivers) : List String → Except Error TokenInfo × List Call
  | [] => (.error headlessFailed, [])
  | deviceAuthURL :: rest =>
    match d.deviceFlow deviceAuthURL with
    | .ok token => (.ok token, [.deviceFlow deviceAuthURL])
    | .error _ =>
      let r := tryDeviceEndpoints d rest
      (r.1, .deviceFlow deviceAuthURL :: r.2)

/-- Lines 237-261 of `authenticateHeadless`, the selection among the headless
flows once the provider has been discovered: its result and the drivers it ran. -/
def authenticateHeadless.selectFlow (cfg : Config) (d : Drivers) :
    Except Error TokenInfo × List Call :=
  if cfg.ClientSecret ≠ "" then
    match d.clientCredentialsFlow with
    | .ok token => (.ok token, [.clientCredentialsFlow])
    | .error _ =>
      let r := tryDeviceEndpoints d (deviceEndpoints cfg)
      (r.1, .clientCredentialsFlow :: r.2)
  else tryDeviceEndpoints d (deviceEndpoints cfg)

/-- The method `Authenticator.authenticateHeadless`: its result and the drivers it ran. -/
def authenticateHeadless (cfg : Config) (d : Drivers) : Except Error TokenInfo × List Call :=
  match d.newProvider with
  | some err => (.error ("failed to create OIDC provider: " ++ err), [])
  | none => authenticateHeadless.selectFlow cfg d

/-- The method `Authenticator.Authenticate`: its result and the drivers it ran. -/
def Authenticate (cfg : Config) (d : Drivers) : Except Error TokenInfo × List Call :=
  let r : Except Error TokenInfo × List Call :=
    if cfg.Headless then authenticateHeadless cfg d
    else (d.authenticateBrowser, [.authenticateBrowser])
  match r.1 with
  | .error err => (.error err, r.2)
  | .ok token => (.ok token, r.2)

/-! ## cmd/root.go: the two entry points -/

/-- The `TypeMeta` of an exec-credential object. -/
structure TypeMeta where
  Kind : String
  APIVersion : String
  deriving DecidableEq, Repr

/-- The struct `ExecCredentialStatus`, with the two fields the plugin fills. -/
structure ExecCredentialStatus where
  Token : String
  ExpirationTimestamp : Int
  deriving DecidableEq, Repr

/-- The struct `ExecCredential` written to standard output. -/
structure ExecCredential where
  TypeMeta : TypeMeta
  Status : ExecCredentialStatus
  deriving DecidableEq, Repr

/-- What an entry point hands to standard output on success: the encoded
response of `handleExecCredential`, or one of the three messages of `runLogin`
(the remaining lifetime they print is read from the clock afterwards and is not
recorded). -/
inductive Output where
  | response (r : ExecCredential)
  | usingCachedToken
  | tokenRefreshed
  | successfullyAuthenticated
  deriving DecidableEq, Repr

/-- Everything outside the program that an invocation depends on: the clock
reading taken by `time.Until(cached.Expiry)`, the drivers, the JSON library,
the results of the file-system calls of the one `save` an invocation can
perform, and the error of `encoder.Encode` on standard output (`none` when the
response is written). -/
structure World where
  now : Int
  drivers : Drivers
  codec : JSONCodec
  saveOutcome : SaveOutcome
  encode : Option Error

/-- One call `Set(issuerURL, clientID, token)` on the token store. -/
abbrev SetCall : Type := String × String × TokenInfo

/-- An invocation of an entry point, observed from outside: the returned error
(`none` for `nil`), the token it ended with (the one the response is built
from, or whose lifetime the success message reports), what it wrote to standard
output, the driver calls and `Set` calls it made in order, and the token store
and file system it left. -/
structure Run where
  err : Option Error
  token : Option TokenInfo
  output : Option Output
  calls : List Call
  sets : List SetCall
  cache : TokenCache
  fs : FileSystem

/-- The state of `handleExecCredential` after its cache check (line 138): the
variable `token`, and what has been called and changed so far. -/
structure CacheCheck where
  token : Option TokenInfo
  calls : List Call
  sets : List SetCall
  cache : TokenCache
  fs : FileSystem

/-- Lines 124-138 of `handleExecCredential`: the cache check and the refresh. -/
def handleExecCredential.checkCache (w : World) (cfg : Config) (tokenCache : TokenCache)
    (fs : FileSystem) : CacheCheck :=
  match tokenCache.Get cfg.IssuerURL cfg.ClientID with
  | none => { token := none, calls := [], sets := [], cache := tokenCache, fs := fs }
  | some cached =>
    if timeUntil w.now cached.Expiry > 5 * Minute then
      { token := some cached, calls := [], sets := [], cache := tokenCache, fs := fs }
    else if cached.RefreshToken ≠ "" then
      match w.drivers.RefreshToken cached.RefreshToken with
      | .ok refreshed =>
        let r := tokenCache.Set w.codec w.saveOutcome fs cfg.IssuerURL cfg.ClientID refreshed
        { token := some refreshed, calls := [.RefreshToken cached.RefreshToken],
          sets := [(cfg.IssuerURL, cfg.ClientID, refreshed)], cache := r.1, fs := r.2 }
      | .error _ =>
        { token := none, calls := [.RefreshToken cached.RefreshToken], sets := [],
          cache := tokenCache, fs := fs }
    else { token := none, calls := [], sets := [], cache := tokenCache, fs := fs }

/-- Lines 151-168 of `handleExecCredential`: the response built from `token`
and its encoding to standard output. -/
def handleExecCredential.respond (w : World) (request : TypeMeta) (token : TokenInfo)
    (calls : List Call) (sets : List SetCall) (cache : TokenCache) (fs : FileSystem) : Run :=
  let response : ExecCredential :=
    { TypeMeta := request
      Status := { Token := token.AccessToken, ExpirationTimestamp := token.Expiry } }
  match w.encode with
  | some err =>
    { err := some ("failed to encode exec credential response: " ++ err), token := some token,
      output := none, calls := calls, sets := sets, cache := cache, fs := fs }
  | none =>
    { err := none, token := some token, output := some (.response response),
      calls := calls, sets := sets, cache := cache, fs := fs }

/-- The function `handleExecCredential` from line 123 on: the request has been
decoded (`request` is its `TypeMeta`), the configuration is `cfg`, and
`tokenCache` is the store `cache.NewTokenCache()` returned. -/
def handleExecCredential (w : World) (request : TypeMeta) (cfg : Config)
    (tokenCache : TokenCache) (fs : FileSystem) : Run :=
  let s := handleExecCredential.checkCache w cfg tokenCache fs
  match s.token with
  | some token => handleExecCredential.respond w request token s.calls s.sets s.cache s.fs
  | none =>
    match Authenticate cfg w.drivers with
    | (.error err, trace) =>
      { err := some ("authentication failed: " ++ err), token := none, output := none,
        calls := s.calls ++ Call.Authenticate :: trace, sets := s.sets, cache := s.cache,
        fs := s.fs }
    | (.ok token, trace) =>
      let r := s.cache.Set w.codec w.saveOutcome s.fs cfg.IssuerURL cfg.ClientID token
      handleExecCredential.respond w request token (s.calls ++ Call.Authenticate :: trace)
        (s.sets ++ [(cfg.IssuerURL, cfg.ClientID, token)]) r.1 r.2

/-- Lines 88-101 of `runLogin`: the full authentication and the caching of its token. -/
def runLogin.authenticate (w : World) (cfg : Config) (cache : TokenCache) (fs : FileSystem)
    (calls : List Call) : Run :=
  match Authenticate cfg w.drivers with
  | (.error err, trace) =>
    { err := some ("authentication failed: " ++ err), token := none, output := none,
      calls := calls ++ Call.Authenticate :: trace, sets := [], cache := cache, fs := fs }
  | (.ok token, trace) =>
    let r := cache.Set w.codec w.saveOutcome fs cfg.IssuerURL cfg.ClientID token
    { err := none, token := some token, output := some .successfullyAuthenticated,
      calls := calls ++ Call.Authenticate :: trace,
      sets := [(cfg.IssuerURL, cfg.ClientID, token)], cache := r.1, fs := r.2 }

/-- The function `runLogin` from line 70 on, as a regular login command: the
flags have been validated, the configuration is `cfg`, and `cache` is the store
`cache.NewTokenCache()` returned. -/
def runLogin (w : World) (cfg : Config) (cache : TokenCache) (fs : FileSystem) : Run :=
  match cache.Get cfg.IssuerURL cfg.ClientID with
  | none => runLogin.authenticate w cfg cache fs []
  | some cached =>
    if timeUntil w.now cached.Expiry > 5 * Minute then
      { err := none, token := some cached, output := some .usingCachedToken, calls := [],
        sets := [], cache := cache, fs := fs }
    else if cached.RefreshToken ≠ "" then
      match w.drivers.RefreshToken cached.RefreshToken with
      | .ok refreshed =>
        let r := cache.Set w.codec w.saveOutcome fs cfg.IssuerURL cfg.ClientID refreshed
        { err := none, token := some refreshed, output := some .tokenRefreshed,
          calls := [.RefreshToken cached.RefreshToken],
          sets := [(cfg.IssuerURL, cfg.ClientID, refreshed)], cache := r.1, fs := r.2 }
      | .error _ => runLogin.authenticate w cfg cache fs [.RefreshToken cached.RefreshToken]
    else runLogin.authenticate w cfg cache fs []

/-- One step of an entry point that is visible from outside it: a call of a
driver; a call of `Set` that has returned, with the store and the file system
it left behind; the building of the exec-credential response from the variable
`token` (lines 151-159 of `handleExecCredential`); a write to standard
output. -/
inductive Event where
  | call (c : Call)
  | set (issuerURL clientID : String) (token : TokenInfo) (cache : TokenCache) (fs : FileSystem)
  | build (response : ExecCredential)
  | write (o : Output)

/-- The driver call of an event, if it is one. -/
def Event.toCall : Event → Option Call
  | .call c => some c
  | _ => none

/-- The arguments of the `Set` call of an event, if it is one. -/
def Event.toSet : Event → Option SetCall
  | .set issuerURL clientID token _ _ => some (issuerURL, clientID, token)
  | _ => none

/-- What an event writes to standard output, if it writes. -/
def Event.toOutput : Event → Option Output
  | .write o => some o
  | _ => none

/-- The steps of lines 124-138 of `handleExecCredential`, the cache check and
the refresh, in the order of the source. -/
def handleExecCredential.checkCacheEvents (w : World) (cfg : Config) (tokenCache : TokenCache)
    (fs : FileSystem) : List Event :=
  match tokenCache.Get cfg.IssuerURL cfg.ClientID with
  | none => []
  | some cached =>
    if timeUntil w.now cached.Expiry > 5 * Minute then []
    else if cached.RefreshToken ≠ "" then
      match w.drivers.RefreshToken cached.RefreshToken with
      | .ok refreshed =>
        let r := tokenCache.Set w.codec w.saveOutcome fs cfg.IssuerURL cfg.ClientID refreshed
        [.call (.RefreshToken cached.RefreshToken),
          .set cfg.IssuerURL cfg.ClientID refreshed r.1 r.2]
      | .error _ => [.call (.RefreshToken cached.RefreshToken)]
    else []

/-- The steps of lines 151-168 of `handleExecCredential`: the response is
built from `token`, then encoded to standard output. -/
def handleExecCredential.respondEvents (w : World) (request : TypeMeta) (token : TokenInfo) :
    List Event :=
  let response : ExecCredential :=
    { TypeMeta := request
      Status := { Token := token.AccessToken, ExpirationTimestamp := token.Expiry } }
  match w.encode with
  | some _ => [.build response]
  | none => [.build response, .write (.response response)]

/-- The steps of `handleExecCredential` from line 123 on, in the order of the
source. -/
def handleExecCredential.events (w : World) (request : TypeMeta) (cfg : Config)
    (tokenCache : TokenCache) (fs : FileSystem) : List Event :=
  let s := handleExecCredential.checkCache w cfg tokenCache fs
  let checked := handleExecCredential.checkCacheEvents w cfg tokenCache fs
  match s.token with
  | some token => checked ++ handleExecCredential.respondEvents w request token
  | none =>
    match Authenticate cfg w.drivers with
    | (.error _, trace) => checked ++ (Call.Authenticate :: trace).map Event.call
    | (.ok token, trace) =>
      let r := s.cache.Set w.codec w.saveOutcome s.fs cfg.IssuerURL cfg.ClientID token
      checked ++ (Call.Authenticate :: trace).map Event.call ++
        Event.set cfg.IssuerURL cfg.ClientID token r.1 r.2 ::
          handleExecCredential.respondEvents w request token

/-- The steps of lines 88-101 of `runLogin`, in the order of the source. -/
def runLogin.authenticateEvents (w : World) (cfg : Config) (cache : TokenCache)
    (fs : FileSystem) : List Event :=
  match Authenticate cfg w.drivers with
  | (.error _, trace) => (Call.Authenticate :: trace).map Event.call
  | (.ok token, trace) =>
    let r := cache.Set w.codec w.saveOutcome fs cfg.IssuerURL cfg.ClientID token
    (Call.Authenticate :: trace).map Event.call ++
      [.set cfg.IssuerURL cfg.ClientID token r.1 r.2, .write .successfullyAuthenticated]

/-- The steps of `runLogin` from line 70 on, in the order of the source. -/
def runLogin.events (w : World) (cfg : Config) (cache : TokenCache) (fs : FileSystem) :
    List Event :=
  match cache.Get cfg.IssuerURL cfg.ClientID with
  | none => runLogin.authenticateEvents w cfg cache fs
  | some cached =>
    if timeUntil w.now cached.Expiry > 5 * Minute then [.write .usingCachedToken]
    else if cached.RefreshToken ≠ "" then
      match w.drivers.RefreshToken cached.RefreshToken with
      | .ok refreshed =>
        let r := cache.Set w.codec w.saveOutcome fs cfg.IssuerURL cfg.ClientID refreshed
        [.call (.RefreshToken cached.RefreshToken),
          .set cfg.IssuerURL cfg.ClientID refreshed r.1 r.2, .write .tokenRefreshed]
      | .error _ =>
        .call (.RefreshToken cached.RefreshToken) :: runLogin.authenticateEvents w cfg cache fs
    else runLogin.authenticateEvents w cfg cache fs

/-- The states the file system goes through during `os.WriteFile(name, data, perm)`:
the file is created or truncated, then grows by prefixes of `data` up to
what gets written. -/
def osWriteFileStates (o : WriteFileOutcome) (fs : FileSystem) (name : String) (data : Bytes) :
    List FileSystem :=
  let upTo (n : Nat) : List FileSystem :=
    (List.range (n + 1)).map fun k => fun p => if p = name then some (data.take k) else fs p
  match o with
  | .ok => upTo data.length
  | .openFailed => []
  | .truncated n => upTo (min n data.length)

/-- The successive states of the file system during one `save`, from the state
it starts in to the state it leaves: the start, the states of the write of the
temporary file, and the state after `os.Rename` when `save` gets that far. -/
def TokenCache.saveStates (codec : JSONCodec) (o : SaveOutcome) (c : TokenCache)
    (fs : FileSystem) : List FileSystem :=
  if !o.mkdirAll then [fs]
  else
    let cacheData := saveCacheData c.tokens
    match codec.marshalIndent cacheData with
    | none => [fs]
    | some data =>
      let tmpPath := c.path ++ ".tmp"
      match osWriteFile o.writeFile fs tmpPath data with
      | (fs1, false) => fs :: osWriteFileStates o.writeFile fs tmpPath data ++ [fs1]
      | (fs1, true) =>
        fs :: osWriteFileStates o.writeFile fs tmpPath data ++
          [fs1, osRename o.rename fs1 tmpPath c.path]

/-! ## encoding/base64, crypto/rand and the PKCE material -/

/-- The alphabet `encodeURL` of `encoding/base64`. -/
def encodeURL : List Char :=
  "ABCDEFGHIJKLMNOPQRSTUVWXYZabcdefghijklmnopqrstuvwxyz0123456789-_".toList

/-- The character `enc.encode[i]` of the URL alphabet, for a 6-bit index `i`. -/
def base64Char (i : Nat) : Char :=
  encodeURL.getD i 'A'

/-- The method `Encoding.EncodeToString` for the URL alphabet, with padding
character `padChar` (`none` for `NoPadding`): each group of three bytes gives
four characters; a remainder of two bytes gives three characters and one
padding character, a remainder of one byte two characters and two padding
characters. -/
def base64Encode (padChar : Option Char) : List UInt8 → List Char
  | a :: b :: c :: rest =>
    let val := a.toNat * 65536 + b.toNat * 256 + c.toNat
    base64Char (val / 262144 % 64) :: base64Char (val / 4096 % 64) ::
      base64Char (val / 64 % 64) :: base64Char (val % 64) :: base64Encode padChar rest
  | [a, b] =>
    let val := a.toNat * 65536 + b.toNat * 256
    [base64Char (val / 262144 % 64), base64Char (val / 4096 % 64), base64Char (val / 64 % 64)] ++
      (match padChar with
        | some p => [p]
        | none => [])
  | [a] =>
    let val := a.toNat * 65536
    [base64Char (val / 262144 % 64), base64Char (val / 4096 % 64)] ++
      (match padChar with
        | some p => [p, p]
        | none => [])
  | [] => []

/-- The call `base64.URLEncoding.EncodeToString(b)`: URL alphabet, padded with `=`. -/
def urlEncodeToString (b : Bytes) : String :=
  String.mk (base64Encode (some '=') b)

/-- The call `base64.URLEncoding.WithPadding(base64.NoPadding).EncodeToString(b)`. -/
def rawURLEncodeToString (b : Bytes) : String :=
  String.mk (base64Encode none b)

/-- What the random source does when `rand.Read` is called: it fails with an
error, or it fills the buffer, `byte i` being what it puts at index `i`. -/
inductive RandSource where
  | failed (err : Error)
  | bytes (byte : Nat → UInt8)

/-- The call `rand.Read(b)` on a buffer `b` of length `n`: the error, or the filled buffer. -/
def randRead (src : RandSource) (n : Nat) : Except Error Bytes :=
  match src with
  | .failed err => .error err
  | .bytes byte => .ok ((List.range n).map byte)

/-- A run-time panic on a length or an index. -/
inductive BoundsPanic where
  | makeLenOutOfRange
  | sliceBoundsOutOfRange
  deriving DecidableEq, Repr

/-- The function `generateRandomString`: a panic, or its two results as an `Except`
(`("", err)` is `.error err`). `make` panics on a negative length and the slice
expression `[:length]` panics when `length` exceeds the length of the string. -/
def generateRandomString (src : RandSource) (length : Int) :
    Except BoundsPanic (Except Error String) :=
  if length < 0 then .error .makeLenOutOfRange
  else
    match randRead src length.toNat with
    | .error err => .ok (.error err)
    | .ok b =>
      let encoded := urlEncodeToString b
      if length.toNat ≤ encoded.length then .ok (.ok (String.mk (encoded.data.take length.toNat)))
      else .error .sliceBoundsOutOfRange

/-- Lines 84-89 of `authenticateBrowser`: the PKCE code verifier, from what
`rand.Read` does on the 32-byte buffer `codeVerifierBytes`. -/
def codeVerifier (src : RandSource) : Except Error String :=
  match randRead src 32 with
  | .error err => .error ("failed to generate code verifier: " ++ err)
  | .ok codeVerifierBytes => .ok (rawURLEncodeToString codeVerifierBytes)

/-! ## package fmt: a format without operands

`fmt.Errorf(errMsg)` in the callback handler passes the message as the format
and no operand, so what `fmt` does with the verbs of such a format decides the
text of the error. The definitions below follow `(*pp).doPrintf` for an empty
operand list: every verb is reported as `%!v(MISSING)`, `%!v(BADINDEX)`,
`%!(BADWIDTH)`, `%!(BADPREC)` or `%!(NOVERB)`, and `%%` gives `%`. -/

/-- The flag characters `#`, `0`, `+`, `-` and space that may follow `%`. -/
def isFlag (c : Char) : Bool :=
  c = '#' || c = '0' || c = '+' || c = '-' || c = ' '

/-- The function `tooLarge` of package fmt. -/
def tooLarge (x : Nat) : Bool :=
  decide (1000000 < x)

/-- The function `parsenum` of package fmt on the window `cs`, started with
`num` and `isnum`: whether a number was read, and what remains of the window
after its digits; `none` when the number is too large, in which case `parsenum`
reports no number and moves to the end of the window. -/
def parsenum : Nat → Bool → List Char → Bool × Option (List Char)
  | num, isnum, c :: cs =>
    if c.isDigit then
      if tooLarge num then (false, none)
      else parsenum (num * 10 + (c.toNat - '0'.toNat)) true cs
    else (isnum, some (c :: cs))
  | _, isnum, [] => (isnum, some [])

/-- The function `parseArgNumber` of package fmt on a format that starts with
`[`: the number of characters up to and including the closing bracket (`1`
when there is none) and whether a number stands between the brackets. -/
def parseArgNumber (format : List Char) : Nat × Bool :=
  if (String.mk format).utf8ByteSize < 3 then (1, false)
  else
    let inner := format.tail.takeWhile (fun c => c != ']')
    if inner.length < format.tail.length then
      match parsenum 0 false inner with
      | (true, some []) => (inner.length + 2, true)
      | _ => (inner.length + 2, false)
    else (1, false)

/-- The method `(*pp).argNumber` of package fmt when there is no operand: the
rest of the format, whether an index `[n]` was found, and the flag
`goodArgNum`, which any index clears since no operand exists. -/
def argNumber (goodArgNum : Bool) (format : List Char) : List Char × Bool × Bool :=
  match format with
  | '[' :: _ => (format.drop (parseArgNumber format).1, (parseArgNumber format).2, false)
  | _ => (format, false, goodArgNum)

/-- The width of a verb, after flags and index: what is written, the rest of
the format, `afterIndex` and `goodArgNum`. -/
def verbWidth (afterIndex goodArgNum : Bool) (format : List Char) :
    List Char × List Char × Bool × Bool :=
  match format with
  | '*' :: rest => ("%!(BADWIDTH)".toList, rest, false, goodArgNum)
  | _ =>
    match parsenum 0 false format with
    | (widPresent, some rest) => ([], rest, afterIndex, goodArgNum && !(afterIndex && widPresent))
    | (_, none) => ([], [], afterIndex, goodArgNum)

/-- The precision of a verb: what is written, the rest of the format,
`afterIndex` and `goodArgNum`. A `.` starts a precision only when a character
follows it; a `.` that ends the format is left to be read as the verb. -/
def verbPrecision (afterIndex goodArgNum : Bool) (format : List Char) :
    List Char × List Char × Bool × Bool :=
  match format with
  | '.' :: c :: rest =>
    let r := argNumber (goodArgNum && !afterIndex) (c :: rest)
    match r.1 with
    | '*' :: rest1 => ("%!(BADPREC)".toList, rest1, false, r.2.2)
    | _ =>
      match parsenum 0 false r.1 with
      | (_, some rest1) => ([], rest1, r.2.1, r.2.2)
      | (_, none) => ([], [], r.2.1, r.2.2)
  | _ => ([], format, afterIndex, goodArgNum)

/-- One verb of the format, from the character after `%`, when there is no
operand: what is written for it and the rest of the format. -/
def verbSpec (format : List Char) : List Char × List Char :=
  let index := argNumber true (format.dropWhile isFlag)
  let width := verbWidth index.2.1 index.2.2 index.1
  let precision := verbPrecision width.2.2.1 width.2.2.2 width.2.1
  let last : List Char × Bool :=
    if precision.2.2.1 then (precision.2.1, precision.2.2.2)
    else ((argNumber precision.2.2.2 precision.2.1).1, (argNumber precision.2.2.2 precision.2.1).2.2)
  match last.1 with
  | [] => (width.1 ++ precision.1 ++ "%!(NOVERB)".toList, [])
  | verb :: rest =>
    if verb = '%' then (width.1 ++ precision.1 ++ ['%'], rest)
    else if last.2 then (width.1 ++ precision.1 ++ "%!".toList ++ verb :: "(MISSING)".toList, rest)
    else (width.1 ++ precision.1 ++ "%!".toList ++ verb :: "(BADINDEX)".toList, rest)

/-- The loop of `(*pp).doPrintf` without operands: text is copied up to the
next `%`, then one verb is processed. Every round consumes a character, so
`fuel` at least the length of the format is never used up. -/
def doPrintf : Nat → List Char → List Char
  | 0, _ => []
  | _ + 1, [] => []
  | fuel + 1, c :: rest =>
    if c = '%' then (verbSpec rest).1 ++ doPrintf fuel (verbSpec rest).2
    else c :: doPrintf fuel rest

/-- The call `fmt.Sprintf(format)` with no operand, which is also the message
of the error `fmt.Errorf(format)`. -/
def Sprintf (format : String) : String :=
  String.mk (doPrintf format.length format.data)

/-! ## pkg/auth: the browser flow and its redirect listener -/

/-- A `url.Values`, the parsed query of a request. -/
abbrev Values : Type := GoMap (List String)

/-- The method `Values.Get`: the first value of the key, `""` when there is none. -/
def Values.Get (v : Values) (key : String) : String :=
  match v.index key with
  | some (value :: _) => value
  | _ => ""

/-- Line 69 of `authenticateBrowser`: `fmt.Sprintf("http://localhost:%d/callback", a.config.Port)`. -/
def redirectURL (cfg : Config) : String :=
  "http://localhost:" ++ toString cfg.Port ++ "/callback"

/-- Line 101 of `authenticateBrowser`, the `Addr` of the `http.Server`:
`fmt.Sprintf(":%d", a.config.Port)`. -/
def serverAddr (cfg : Config) : String :=
  ":" ++ toString cfg.Port

/-- The patterns `authenticateBrowser` registers on its `ServeMux` (line 105). -/
def registeredPatterns : List String :=
  ["/callback"]

/-- What the handler of `/callback` did with one request: the values it sent
on `codeChan` and on `errChan`, the status it wrote and the body it wrote. -/
structure CallbackResult where
  codeChan : List String
  errChan : List Error
  status : Nat
  body : String
  deriving DecidableEq, Repr

/-- The handler registered for `/callback` (lines 105-145), for the generated
`state` and the query of the request. Its two log lines on standard error are
not represented. -/
def callbackHandler (state : String) (query : Values) : CallbackResult :=
  let errorParam := query.Get "error"
  if errorParam ≠ "" then
    let errorDesc := query.Get "error_description"
    let errMsg := "OAuth error: " ++ errorParam
    let errMsg := if errorDesc ≠ "" then errMsg ++ (" - " ++ errorDesc) else errMsg
    { codeChan := [], errChan := [Sprintf errMsg], status := 400,
      body := "Authentication failed: " ++ errMsg }
  else
    let receivedState := query.Get "state"
    if receivedState ≠ state then
      { codeChan := [],
        errChan := ["invalid state parameter: expected " ++ state ++ ", got " ++ receivedState],
        status := 400, body := "Invalid state parameter" }
    else
      let code := query.Get "code"
      if code = "" then
        { codeChan := [], errChan := ["no authorization code received in callback"],
          status := 400, body := "No authorization code received. Please try again." }
      else
        { codeChan := [code], errChan := [], status := 200,
          body := "Authentication successful! You can close this window." }

/-- The fields of an `oauth2.Token` that `authenticateBrowser` reads; `idToken`
is `token.Extra("id_token").(string)`, `none` when the assertion fails. -/
structure OAuth2Token where
  AccessToken : String
  RefreshToken : String
  Expiry : Int
  idToken : Option String
  deriving DecidableEq, Repr

/-- What the identity provider, the libraries and the desktop answer to the
browser flow: the error of `oidc.NewProvider` and of `openBrowser` (`none` when
they succeed), the result of `oauth2Config.Exchange` by code and code verifier,
and the errors of `verifier.Verify` and `idToken.Claims` by raw ID token. -/
structure Provider where
  newProvider : Option Error
  openBrowser : Option Error
  Exchange : String → String → Except Error OAuth2Token
  Verify : String → Option Error
  Claims : String → Option Error

/-- The first thing the `select` of `authenticateBrowser` is woken by: a
request to `/callback` whose handler has sent its result, an error of
`ListenAndServe` sent on `errChan`, or the five-minute timer. -/
inductive BrowserEvent where
  | request (query : Values)
  | listenFailed (err : Error)
  | timeout

/-- A run of the browser flow from the `select` on: its result, what the
callback handler did (if a request came), and the token exchanges performed,
each with its code and code verifier. -/
structure BrowserRun where
  result : Except Error TokenInfo
  callback : Option CallbackResult
  exchanges : List (String × String)

/-- Lines 171-205 of `authenticateBrowser`: the branch of the `select` that
received `code`. -/
def authenticateBrowser.exchange (p : Provider) (codeVerifier code : String) :
    Except Error TokenInfo :=
  match p.Exchange code codeVerifier with
  | .error err => .error ("failed to exchange code for token: " ++ err)
  | .ok token =>
    match token.idToken with
    | none => .error "no id_token in token response"
    | some rawIDToken =>
      match p.Verify rawIDToken with
      | some err => .error ("failed to verify ID token: " ++ err)
      | none =>
        match p.Claims rawIDToken with
        | some err => .error ("failed to extract claims: " ++ err)
        | none =>
          .ok { AccessToken := token.AccessToken, RefreshToken := token.RefreshToken,
                IDToken := rawIDToken, Expiry := token.Expiry }

/-- Lines 168-214 of `authenticateBrowser`, the `select` and what follows it,
for the generated `state` and `codeVerifier` and the event that wakes it. A
request wakes it through the channel its handler sent on. -/
def authenticateBrowser.wait (p : Provider) (state codeVerifier : String)
    (event : BrowserEvent) : BrowserRun :=
  match event with
  | .request query =>
    let r := callbackHandler state query
    match r.codeChan, r.errChan with
    | code :: _, _ =>
      { result := authenticateBrowser.exchange p codeVerifier code, callback := some r,
        exchanges := [(code, codeVerifier)] }
    | [], err :: _ => { result := .error err, callback := some r, exchanges := [] }
    | [], [] => { result := .error "authentication timeout", callback := some r, exchanges := [] }
  | .listenFailed err => { result := .error err, callback := none, exchanges := [] }
  | .timeout => { result := .error "authentication timeout", callback := none, exchanges := [] }

/-- The method `Authenticator.authenticateBrowser`: a panic, or its run. The
two random sources are what `rand.Read` does for the state and for the code
verifier; the authorization URL handed to `openBrowser` is not represented. -/
def authenticateBrowser (p : Provider) (stateSource verifierSource : RandSource)
    (event : BrowserEvent) : Except BoundsPanic BrowserRun :=
  match p.newProvider with
  | some err =>
    .ok { result := .error ("failed to create OIDC provider: " ++ err), callback := none,
          exchanges := [] }
  | none =>
    match generateRandomString stateSource 32 with
    | .error panic => .error panic
    | .ok (.error err) =>
      .ok { result := .error ("failed to generate state: " ++ err), callback := none,
            exchanges := [] }
    | .ok (.ok state) =>
      match codeVerifier verifierSource with
      | .error err => .ok { result := .error err, callback := none, exchanges := [] }
      | .ok verifier =>
        match p.openBrowser with
        | some err =>
          .ok { result := .error ("failed to open browser: " ++ err), callback := none,
                exchanges := [] }
        | none => .ok (authenticateBrowser.wait p state verifier event)

/-! ## pkg/auth: the device flow -/

/-- The conversion of an integer to `int64`, as the multiplication of two
`time.Duration` values does with its product. -/
def wrap64 (x : Int) : Int := (x + 2 ^ 63) % 2 ^ 64 - 2 ^ 63

/-- The struct `deviceResp` that `deviceFlow` decodes the device-authorization
response into. -/
structure DeviceResponse where
  DeviceCode : String
  UserCode : String
  VerificationURI : String
  Interval : Int
  ExpiresIn : Int
  deriving DecidableEq, Repr

/-- The struct `tokenResp` that `deviceFlow` decodes a successful poll into. -/
structure TokenResponse where
  AccessToken : String
  RefreshToken : String
  IDToken : String
  ExpiresIn : Int
  deriving DecidableEq, Repr

/-- What `http.PostForm` gives: an error, or a response with its status code
and with what `json.NewDecoder(resp.Body).Decode` makes of its body should the
code decode it. -/
inductive PostResult (α : Type) where
  | failed (err : Error)
  | response (statusCode : Int) (body : Except Error α)

/-- What the identity provider, the verifier and the clock answer to the device
flow. `authorize` is the request for a device code, by URL. `token` is a poll
of the token endpoint, by URL, device code, number of the poll (from 0) and
instant at which it is sent. `Verify` and `Claims` are the errors of
`verifier.Verify` and `idToken.Claims` by raw ID token. `start` is the reading
of `time.Now()` from which `expiresAt` is computed and `entered` the time from
that reading to the first evaluation of the loop condition; `oversleep i` is
how much longer than asked the sleep of iteration `i` lasts, and `elapsed i`
the time from the sending of poll `i` to the next reading of the clock. -/
structure DeviceProvider where
  authorize : String → PostResult DeviceResponse
  token : String → String → Nat → Int → PostResult TokenResponse
  Verify : String → Option Error
  Claims : String → Option Error
  start : Int
  entered : Nat
  oversleep : Nat → Nat
  elapsed : Nat → Nat

/-- A run of the device flow: its result, and the instants at which a request
was sent to the token endpoint, in order. -/
structure DeviceRun where
  result : Except Error TokenInfo
  polls : List Int

/-- Lines 304-354 of `deviceFlow`, the poll loop, from an evaluation of its
condition at the instant `now`, before poll number `i`, with the instants
`polls` of the polls sent so far. Each evaluation of the condition takes one
unit of `fuel`; `none` says the fuel ran out. `time.Sleep` returns at once for
a duration that is not positive. -/
def deviceFlow.poll (p : DeviceProvider) (tokenURL deviceCode : String)
    (interval expiresAt : Int) : Nat → Nat → Int → List Int → Option DeviceRun
  | 0, _, _, _ => none
  | fuel + 1, i, now, polls =>
    if now < expiresAt then
      let sent := now + max interval 0 + p.oversleep i
      let next := sent + p.elapsed i
      match p.token tokenURL deviceCode i sent with
      | .failed _ =>
        deviceFlow.poll p tokenURL deviceCode interval expiresAt fuel (i + 1) next (polls ++ [sent])
      | .response statusCode body =>
        if statusCode = 200 then
          match body with
          | .error _ =>
            deviceFlow.poll p tokenURL deviceCode interval expiresAt fuel (i + 1) next
              (polls ++ [sent])
          | .ok tokenResp =>
            match p.Verify tokenResp.IDToken with
            | some err =>
              some { result := .error ("failed to verify ID token: " ++ err),
                     polls := polls ++ [sent] }
            | none =>
              match p.Claims tokenResp.IDToken with
              | some err =>
                some { result := .error ("failed to extract claims: " ++ err),
                       polls := polls ++ [sent] }
              | none =>
                some { result := .ok { AccessToken := tokenResp.AccessToken,
                                       RefreshToken := tokenResp.RefreshToken,
                                       IDToken := tokenResp.IDToken,
                                       Expiry := next + wrap64 (tokenResp.ExpiresIn * Second) },
                       polls := polls ++ [sent] }
        else
          deviceFlow.poll p tokenURL deviceCode interval expiresAt fuel (i + 1) next
            (polls ++ [sent])
    else some { result := .error "device flow authentication timeout", polls := polls }

/-- The method `Authenticator.deviceFlow`, with `fuel` for its poll loop. What
it prints on standard error is not represented. -/
def deviceFlow (p : DeviceProvider) (cfg : Config) (deviceAuthURL : String) (fuel : Nat) :
    Option DeviceRun :=
  match p.authorize deviceAuthURL with
  | .failed err =>
    some { result := .error ("failed to request device code: " ++ err), polls := [] }
  | .response statusCode body =>
    if statusCode ≠ 200 then
      some { result := .error ("device code request failed with status " ++ toString statusCode),
             polls := [] }
    else
      match body with
      | .error err => some { result := .error err, polls := [] }
      | .ok deviceResp =>
        let tokenURL := cfg.IssuerURL ++ "/token"
        let interval := wrap64 (deviceResp.Interval * Second)
        let interval := if interval = 0 then 5 * Second else interval
        let expiresAt := p.start + wrap64 (deviceResp.ExpiresIn * Second)
        deviceFlow.poll p tokenURL deviceResp.DeviceCode interval expiresAt fuel 0
          (p.start + p.entered) []

/-! ## Concrete values used in the examples below -/

/-- A token that carries no refresh token, like the ones `clientCredentialsFlow` builds. -/
def exampleToken (accessToken : String) (expiry : Int) : TokenInfo :=
  { AccessToken := accessToken, RefreshToken := "", IDToken := "", Expiry := expiry }

/-- A token that carries the refresh token `"r1"`. -/
def exampleRefreshable (accessToken : String) (expiry : Int) : TokenInfo :=
  { AccessToken := accessToken, RefreshToken := "r1", IDToken := "id1", Expiry := expiry }

/-- A browser-mode configuration. -/
def exampleConfig : Config :=
  { IssuerURL := "https://issuer.example", ClientID := "client-a", ClientSecret := "",
    Headless := false, Port := 8000 }

/-- A provider that cannot be reached for a refresh and whose flows all
produce the token `fresh`. -/
def exampleDrivers (fresh : TokenInfo) : Drivers :=
  { newProvider := none
    authenticateBrowser := .ok fresh
    clientCredentialsFlow := .ok fresh
    deviceFlow := fun _ => .ok fresh
    RefreshToken := fun _ => .error "failed to refresh token: invalid_grant" }

/-- A headless configuration with a client secret. -/
def headlessConfig : Config :=
  { IssuerURL := "https://issuer.example", ClientID := "client-a", ClientSecret := "s3cret",
    Headless := true, Port := 8000 }

/-- A provider on which every flow and every refresh fails. -/
def failingDrivers : Drivers :=
  { newProvider := none
    authenticateBrowser := .error "authentication timeout"
    clientCredentialsFlow := .error "client credentials flow failed with status 401"
    deviceFlow := fun _ => .error "device code request failed with status 404"
    RefreshToken := fun _ => .error "failed to refresh token: invalid_grant" }

/-- A store without any record. -/
def emptyCache : TokenCache :=
  { tokens := ∅, path := "/home/user/.cache/kubectl-login/tokens.json" }

/-- A JSON library that rejects every document. -/
def rejectingCodec : JSONCodec :=
  { marshalIndent := fun _ => none, unmarshal := fun _ => none }

/-- A world at clock reading `0` in which every system call succeeds. -/
def exampleWorld (drivers : Drivers) : World :=
  { now := 0, drivers := drivers, codec := rejectingCodec,
    saveOutcome := { mkdirAll := true, writeFile := .ok, rename := true }, encode := none }

/-- A store holding `token` for `exampleConfig` and nothing else. -/
def exampleCache (token : TokenInfo) : TokenCache :=
  { tokens := (∅ : GoMap TokenInfo).assign (TokenCache.key "https://issuer.example" "client-a") token
    path := "/home/user/.cache/kubectl-login/tokens.json" }

/-- A file system without any file. -/
def emptyFileSystem : FileSystem := fun _ => none

/-- The record stored for `("https://issuer.example", "client-a")` in the persistence example. -/
def recordA : TokenInfo := exampleRefreshable "access-a" 3600000000000

/-- The record stored for `("https://issuer.example", "client-b")` in the persistence example. -/
def recordB : TokenInfo := exampleToken "access-b" 7200000000000

/-- A JSON library reduced to the two documents of the persistence example:
the map holding `recordA`, and the map holding `recordA` and `recordB`. It
rejects everything else. -/
def exampleCodec : JSONCodec :=
  { marshalIndent := fun m =>
      if m.entries = [⟨"https://issuer.example:client-a", cacheEntry.ofToken recordA⟩] then
        some [0x41]
      else if m.entries = [⟨"https://issuer.example:client-a", cacheEntry.ofToken recordA⟩,
          ⟨"https://issuer.example:client-b", cacheEntry.ofToken recordB⟩] then
        some [0x41, 0x42]
      else none
    unmarshal := fun data =>
      if data = [0x41] then
        some ((∅ : GoMap (Option cacheEntry)).assign "https://issuer.example:client-a"
          (some (cacheEntry.ofToken recordA)))
      else if data = [0x41, 0x42] then
        some (((∅ : GoMap (Option cacheEntry)).assign "https://issuer.example:client-b"
          (some (cacheEntry.ofToken recordB))).assign "https://issuer.example:client-a"
          (some (cacheEntry.ofToken recordA)))
      else none }

/-- The first `Set` call of the persistence example, every system call succeeding. -/
def stepA : SetStep :=
  { outcome := { mkdirAll := true, writeFile := .ok, rename := true },
    issuerURL := "https://issuer.example", clientID := "client-a", token := recordA }

/-- The second `Set` call of the persistence example, every system call succeeding. -/
def stepB : SetStep :=
  { outcome := { mkdirAll := true, writeFile := .ok, rename := true },
    issuerURL := "https://issuer.example", clientID := "client-b", token := recordB }

/-- The two `Set` calls of the persistence example, in order. -/
def exampleSteps : List SetStep := [stepA, stepB]

/-- The bytes of the JSON document `{"a":null}`. -/
def nullEntryDocument : Bytes := [0x7b, 0x22, 0x61, 0x22, 0x3a, 0x6e, 0x75, 0x6c, 0x6c, 0x7d]

/-- The bytes of the text `invalid json`, the file of `TestTokenCache_InvalidFile`. -/
def invalidDocument : Bytes :=
  [0x69, 0x6e, 0x76, 0x61, 0x6c, 0x69, 0x64, 0x20, 0x6a, 0x73, 0x6f, 0x6e]

/-- The JSON library on the two documents above: `json.Unmarshal` into a
`map[string]*cacheEntry` decodes `{"a":null}` without error to the map whose
key `"a"` holds a nil pointer, and returns a syntax error on `invalid json`
(and, here, on everything else). -/
def nullEntryCodec : JSONCodec :=
  { marshalIndent := fun _ => none
    unmarshal := fun data =>
      if data = nullEntryDocument then some ((∅ : GoMap (Option cacheEntry)).assign "a" none)
      else none }

/-- A file system whose only file is the cache file, with the given content. -/
def cacheFileOnly (data : Bytes) : FileSystem :=
  fun p => if p = "/home/user/.cache/kubectl-login/tokens.json" then some data else none

/-- The query with the given parameters, one value each. -/
def queryOf (params : List (String × String)) : Values :=
  params.foldl (fun v param => v.assign param.1 [param.2]) ∅

/-- A provider that completes every step of the browser flow with a token
whose ID token is `"id1"`. -/
def exampleProvider : Provider :=
  { newProvider := none
    openBrowser := none
    Exchange := fun _ _ =>
      .ok { AccessToken := "access1", RefreshToken := "r1", Expiry := 3600000000000,
            idToken := some "id1" }
    Verify := fun _ => none
    Claims := fun _ => none }

/-- A provider whose device flow succeeds, with `token`, at the one
device-authorization URL `deviceAuthURL` and answers 404 everywhere else. -/
def deviceDriversAt (deviceAuthURL : String) (token : TokenInfo) : Drivers :=
  { newProvider := none
    authenticateBrowser := .error "authentication timeout"
    clientCredentialsFlow := .error "client credentials flow failed with status 401"
    deviceFlow := fun u =>
      if u = deviceAuthURL then .ok token
      else .error "device code request failed with status 404"
    RefreshToken := fun _ => .error "failed to refresh token: invalid_grant" }

/-- A store holding `recordA` for the pair `("https://idp", "8443:kubectl")` and
nothing else. -/
def collidingCache : TokenCache :=
  { tokens := (∅ : GoMap TokenInfo).assign (TokenCache.key "https://idp" "8443:kubectl") recordA
    path := "/home/user/.cache/kubectl-login/tokens.json" }

/-- A provider that issues a device code with the given `interval` and
`expires_in`, answers every poll sent before `approvedAt` with status 400 and
every poll sent from `approvedAt` on with a token; its clock starts at 0 and
nothing but the sleeps takes time. -/
def deviceProviderApprovingAt (interval expiresIn : Int) (approvedAt : Option Int) :
    DeviceProvider :=
  { authorize := fun _ =>
      .response 200 (.ok { DeviceCode := "device-code-1", UserCode := "WDJB-MJHT",
                           VerificationURI := "https://issuer.example/activate",
                           Interval := interval, ExpiresIn := expiresIn })
    token := fun _ _ _ sent =>
      match approvedAt with
      | none => .response 400 (.error "authorization_pending")
      | some t =>
        if t ≤ sent then
          .response 200 (.ok { AccessToken := "access-1", RefreshToken := "refresh-1",
                               IDToken := "id-1", ExpiresIn := 3600 })
        else .response 400 (.error "authorization_pending")
    Verify := fun _ => none
    Claims := fun _ => none
    start := 0
    entered := 0
    oversleep := fun _ => 0
    elapsed := fun _ => 0 }

/-- A record whose expiry is 31 December of the year 10000 (UTC), in
nanoseconds since the Unix epoch. `json.MarshalIndent` returns an error on it:
`Time.MarshalJSON` accepts only the years 0 to 9999. -/
def recordFar : TokenInfo := exampleToken "access-c" 253433836800000000000

/-- A third `Set` call after the two of the persistence example, storing
`recordFar`, every system call succeeding. -/
def stepFar : SetStep :=
  { outcome := { mkdirAll := true, writeFile := .ok, rename := true },
    issuerURL := "https://issuer.example", clientID := "client-c", token := recordFar }

/-- A world at clock reading `0` whose JSON library is `exampleCodec` and in
which every system call succeeds. -/
def persistingWorld (drivers : Drivers) : World :=
  { now := 0, drivers := drivers, codec := exampleCodec,
    saveOutcome := { mkdirAll := true, writeFile := .ok, rename := true }, encode := none }

/-- A world like `persistingWorld` in which the cache directory cannot be
created: `os.MkdirAll` returns an error. -/
def readOnlyWorld (drivers : Drivers) : World :=
  { now := 0, drivers := drivers, codec := exampleCodec,
    saveOutcome := { mkdirAll := false, writeFile := .ok, rename := true }, encode := none }

/-! # Properties

## The token store: Get, Set, Clear and key -/

theorem GoMap.index_assign {V : Type} (m : GoMap V) (k : String) (v : V) :
    (m.assign k v).index k = some v := by
  unfold GoMap.index GoMap.assign
  exact AList.lookup_insert m

theorem GoMap.index_assign_ne {V : Type} (m : GoMap V) {k k1 : String} (v : V) (h : k1 ≠ k) :
    (m.assign k v).index k1 = m.index k1 := by
  unfold GoMap.index GoMap.assign
  exact AList.lookup_insert_ne h

theorem GoMap.index_delete {V : Type} (m : GoMap V) (k : String) :
    (m.delete k).index k = none := by
  unfold GoMap.index GoMap.delete
  exact AList.lookup_erase k m

theorem GoMap.count_keys_assign {V : Type} (m : GoMap V) (k : String) (v : V) :
    (m.assign k v).keys.count k = 1 := by
  apply List.count_eq_one_of_mem (AList.keys_nodup _)
  rw [← AList.mem_keys]
  exact (AList.mem_insert m).2 (Or.inl rfl)

theorem GoMap.len_assign {V : Type} (m : GoMap V) (k : String) (v : V) :
    (m.assign k v).len = if (m.index k).isSome then m.len else m.len + 1 := by
  unfold GoMap.len GoMap.assign GoMap.index
  rw [AList.insert_entries, List.length_cons]
  by_cases hk : k ∈ m
  · have hs : (AList.lookup k m).isSome = true := AList.lookup_isSome.2 hk
    rw [if_pos hs]
    have hlen : (List.kerase k m.entries).keys.length + 1 = m.entries.keys.length := by
      rw [List.keys_kerase]
      have hmem : k ∈ m.entries.keys := hk
      rw [List.length_erase_of_mem hmem]
      have hpos : 0 < m.entries.keys.length := List.length_pos_of_mem hmem
      omega
    simpa [List.keys] using hlen
  · have hs : ¬ (AList.lookup k m).isSome = true := fun h => hk (AList.lookup_isSome.1 h)
    rw [if_neg hs, List.kerase_of_not_mem_keys hk]

theorem Get_Set_same (codec : JSONCodec) (o : SaveOutcome) (c : TokenCache)
    (fs : FileSystem) (issuerURL clientID : String) (token : TokenInfo) :
    (c.Set codec o fs issuerURL clientID token).1.Get issuerURL clientID = some token :=
  GoMap.index_assign _ _ _

theorem key_data (issuerURL clientID : String) :
    (TokenCache.key issuerURL clientID).data = issuerURL.data ++ ':' :: clientID.data := by
  simp [TokenCache.key, String.data_append]

/-- C6: for every prior store state (whatever it holds for the key), every
outcome of the save and every record, `Get(issuer, client)` right after
`Set(issuer, client, record)` returns exactly `record` (all four fields); the
store then has exactly one entry with that key, and `Set` replaced rather than
added: the number of entries is unchanged when the key was present and grows
by one otherwise. -/
theorem get_after_set (codec : JSONCodec) (o : SaveOutcome) (c : TokenCache) (fs : FileSystem)
    (issuerURL clientID : String) (record : TokenInfo) :
    (c.Set codec o fs issuerURL clientID record).1.Get issuerURL clientID = some record ∧
    (c.Set codec o fs issuerURL clientID record).1.tokens.keys.count
      (TokenCache.key issuerURL clientID) = 1 ∧
    (c.Set codec o fs issuerURL clientID record).1.tokens.len =
      if (c.Get issuerURL clientID).isSome then c.tokens.len else c.tokens.len + 1 := by
  refine ⟨?_, ?_, ?_⟩
  · exact GoMap.index_assign _ _ _
  · exact GoMap.count_keys_assign _ _ _
  · exact GoMap.len_assign _ _ _

/-- C7: for every prior store state and every outcome of the save,
`Get(issuer, client)` right after `Clear(issuer, client)` returns nil, whether
or not the key was present. -/
theorem get_after_clear (codec : JSONCodec) (o : SaveOutcome) (c : TokenCache) (fs : FileSystem)
    (issuerURL clientID : String) :
    (c.Clear codec o fs issuerURL clientID).1.Get issuerURL clientID = none := by
  exact GoMap.index_delete _ _

/-- C8: the key function is not injective. The pairs
`("https://idp", "8443:kubectl")` and `("https://idp:8443", "kubectl")` differ
in both fields and have the same key, so a record stored for the first pair is
what `Get` returns for the second. -/
theorem key_collision :
    TokenCache.key "https://idp" "8443:kubectl" = TokenCache.key "https://idp:8443" "kubectl" ∧
    ("https://idp", "8443:kubectl") ≠ ("https://idp:8443", "kubectl") ∧
    ∀ (codec : JSONCodec) (o : SaveOutcome) (c : TokenCache) (fs : FileSystem)
      (record : TokenInfo),
      (c.Set codec o fs "https://idp" "8443:kubectl" record).1.Get "https://idp:8443" "kubectl"
        = some record := by
  refine ⟨by decide, by decide, ?_⟩
  intro codec o c fs record
  have h : TokenCache.key "https://idp:8443" "kubectl"
      = TokenCache.key "https://idp" "8443:kubectl" := by decide
  show GoMap.index _ (TokenCache.key "https://idp:8443" "kubectl") = some record
  rw [h]
  exact GoMap.index_assign _ _ _

/-- C9: when exactly one field differs the keys differ: two issuers `i1 ≠ i2`
with the same client, and two clients `c1 ≠ c2` with the same issuer, give
different keys. -/
theorem key_differs_when_one_field_differs (i1 i2 c1 c2 : String) :
    (i1 ≠ i2 → TokenCache.key i1 c1 ≠ TokenCache.key i2 c1) ∧
    (c1 ≠ c2 → TokenCache.key i1 c1 ≠ TokenCache.key i1 c2) := by
  constructor
  · intro hne heq
    apply hne
    have hd := congrArg String.data heq
    rw [key_data, key_data] at hd
    have hcancel := List.append_cancel_right hd
    exact String.ext hcancel
  · intro hne heq
    apply hne
    have hd := congrArg String.data heq
    rw [key_data, key_data] at hd
    have hcancel := List.append_cancel_left hd
    exact String.ext (List.cons.inj hcancel).2

/-- C9 at the issuers and clients of `TestTokenCache_KeyGeneration`. -/
theorem key_differs_when_one_field_differs_witness :
    TokenCache.key "https://issuer1.com" "client1" ≠ TokenCache.key "https://issuer2.com" "client1" ∧
    TokenCache.key "https://issuer1.com" "client1" ≠ TokenCache.key "https://issuer1.com" "client2" :=
  ⟨(key_differs_when_one_field_differs "https://issuer1.com" "https://issuer2.com" "client1"
      "client2").1 (by decide),
   (key_differs_when_one_field_differs "https://issuer1.com" "https://issuer2.com" "client1"
      "client2").2 (by decide)⟩

/-! ## The orchestrator: cache check, refresh, full flow -/

theorem timeUntil_gt_five_minutes (now t : Int) :
    timeUntil now t > 5 * Minute ↔ 5 * Minute < t - now := by
  simp only [timeUntil, timeSub, minDuration, maxDuration, Minute, Second]
  norm_num
  split_ifs <;> omega

/-- The cache check when the record is found and fresh. -/
theorem checkCache_fresh (w : World) (cfg : Config) (tokenCache : TokenCache) (fs : FileSystem)
    (cached : TokenInfo) (hget : tokenCache.Get cfg.IssuerURL cfg.ClientID = some cached)
    (hfresh : 5 * Minute < cached.Expiry - w.now) :
    handleExecCredential.checkCache w cfg tokenCache fs =
      { token := some cached, calls := [], sets := [], cache := tokenCache, fs := fs } := by
  have h := (timeUntil_gt_five_minutes w.now cached.Expiry).2 hfresh
  simp only [handleExecCredential.checkCache, hget]
  rw [if_pos h]

/-- The cache check when the record is stale and its refresh succeeds. -/
theorem checkCache_refreshed (w : World) (cfg : Config) (tokenCache : TokenCache)
    (fs : FileSystem) (cached refreshed : TokenInfo)
    (hget : tokenCache.Get cfg.IssuerURL cfg.ClientID = some cached)
    (hstale : ¬ 5 * Minute < cached.Expiry - w.now) (hrt : cached.RefreshToken ≠ "")
    (hok : w.drivers.RefreshToken cached.RefreshToken = .ok refreshed) :
    handleExecCredential.checkCache w cfg tokenCache fs =
      { token := some refreshed, calls := [.RefreshToken cached.RefreshToken],
        sets := [(cfg.IssuerURL, cfg.ClientID, refreshed)],
        cache := (tokenCache.Set w.codec w.saveOutcome fs cfg.IssuerURL cfg.ClientID refreshed).1,
        fs := (tokenCache.Set w.codec w.saveOutcome fs cfg.IssuerURL cfg.ClientID refreshed).2 } := by
  have h : ¬ timeUntil w.now cached.Expiry > 5 * Minute :=
    fun h => hstale ((timeUntil_gt_five_minutes w.now cached.Expiry).1 h)
  simp only [handleExecCredential.checkCache, hget]
  rw [if_neg h, if_pos hrt, hok]

/-- The cache check when the record is stale and its refresh fails. -/
theorem checkCache_refresh_failed (w : World) (cfg : Config) (tokenCache : TokenCache)
    (fs : FileSystem) (cached : TokenInfo) (e : Error)
    (hget : tokenCache.Get cfg.IssuerURL cfg.ClientID = some cached)
    (hstale : ¬ 5 * Minute < cached.Expiry - w.now) (hrt : cached.RefreshToken ≠ "")
    (herr : w.drivers.RefreshToken cached.RefreshToken = .error e) :
    handleExecCredential.checkCache w cfg tokenCache fs =
      { token := none, calls := [.RefreshToken cached.RefreshToken], sets := [],
        cache := tokenCache, fs := fs } := by
  have h : ¬ timeUntil w.now cached.Expiry > 5 * Minute :=
    fun h => hstale ((timeUntil_gt_five_minutes w.now cached.Expiry).1 h)
  simp only [handleExecCredential.checkCache, hget]
  rw [if_neg h, if_pos hrt, herr]

/-- The cache check when the record is stale and has no refresh token. -/
theorem checkCache_no_refresh_token (w : World) (cfg : Config) (tokenCache : TokenCache)
    (fs : FileSystem) (cached : TokenInfo)
    (hget : tokenCache.Get cfg.IssuerURL cfg.ClientID = some cached)
    (hstale : ¬ 5 * Minute < cached.Expiry - w.now) (hrt : cached.RefreshToken = "") :
    handleExecCredential.checkCache w cfg tokenCache fs =
      { token := none, calls := [], sets := [], cache := tokenCache, fs := fs } := by
  have h : ¬ timeUntil w.now cached.Expiry > 5 * Minute :=
    fun h => hstale ((timeUntil_gt_five_minutes w.now cached.Expiry).1 h)
  simp only [handleExecCredential.checkCache, hget]
  rw [if_neg h, if_neg (not_not.2 hrt)]

/-- The cache check when no record is found. -/
theorem checkCache_missing (w : World) (cfg : Config) (tokenCache : TokenCache)
    (fs : FileSystem) (hget : tokenCache.Get cfg.IssuerURL cfg.ClientID = none) :
    handleExecCredential.checkCache w cfg tokenCache fs =
      { token := none, calls := [], sets := [], cache := tokenCache, fs := fs } := by
  simp only [handleExecCredential.checkCache, hget]

theorem respond_calls (w : World) (request : TypeMeta) (token : TokenInfo) (calls : List Call)
    (sets : List SetCall) (cache : TokenCache) (fs : FileSystem) :
    (handleExecCredential.respond w request token calls sets cache fs).calls = calls := by
  unfold handleExecCredential.respond
  cases w.encode <;> rfl

theorem respond_sets (w : World) (request : TypeMeta) (token : TokenInfo) (calls : List Call)
    (sets : List SetCall) (cache : TokenCache) (fs : FileSystem) :
    (handleExecCredential.respond w request token calls sets cache fs).sets = sets := by
  unfold handleExecCredential.respond
  cases w.encode <;> rfl

theorem respond_cache (w : World) (request : TypeMeta) (token : TokenInfo) (calls : List Call)
    (sets : List SetCall) (cache : TokenCache) (fs : FileSystem) :
    (handleExecCredential.respond w request token calls sets cache fs).cache = cache := by
  unfold handleExecCredential.respond
  cases w.encode <;> rfl

theorem respond_fs (w : World) (request : TypeMeta) (token : TokenInfo) (calls : List Call)
    (sets : List SetCall) (cache : TokenCache) (fs : FileSystem) :
    (handleExecCredential.respond w request token calls sets cache fs).fs = fs := by
  unfold handleExecCredential.respond
  cases w.encode <;> rfl

theorem respond_token (w : World) (request : TypeMeta) (token : TokenInfo) (calls : List Call)
    (sets : List SetCall) (cache : TokenCache) (fs : FileSystem) :
    (handleExecCredential.respond w request token calls sets cache fs).token = some token := by
  unfold handleExecCredential.respond
  cases w.encode <;> rfl

theorem respond_err (w : World) (request : TypeMeta) (token : TokenInfo) (calls : List Call)
    (sets : List SetCall) (cache : TokenCache) (fs : FileSystem) :
    (handleExecCredential.respond w request token calls sets cache fs).err =
      w.encode.map (fun err => "failed to encode exec credential response: " ++ err) := by
  unfold handleExecCredential.respond
  cases w.encode <;> rfl

theorem respond_output (w : World) (request : TypeMeta) (token : TokenInfo) (calls : List Call)
    (sets : List SetCall) (cache : TokenCache) (fs : FileSystem) (hen : w.encode = none) :
    (handleExecCredential.respond w request token calls sets cache fs).output =
      some (.response { TypeMeta := request,
                        Status := { Token := token.AccessToken,
                                    ExpirationTimestamp := token.Expiry } }) := by
  unfold handleExecCredential.respond
  rw [hen]

/-- The run of `handleExecCredential` when the cache check produced a token. -/
theorem handleExecCredential_of_token (w : World) (request : TypeMeta) (cfg : Config)
    (tokenCache : TokenCache) (fs : FileSystem) (s : CacheCheck) (token : TokenInfo)
    (hs : handleExecCredential.checkCache w cfg tokenCache fs = s) (ht : s.token = some token) :
    handleExecCredential w request cfg tokenCache fs =
      handleExecCredential.respond w request token s.calls s.sets s.cache s.fs := by
  unfold handleExecCredential
  simp only [hs, ht]

/-- The run of `handleExecCredential` when the full flow is run and fails. -/
theorem handleExecCredential_authenticate_failed (w : World) (request : TypeMeta) (cfg : Config)
    (tokenCache : TokenCache) (fs : FileSystem) (s : CacheCheck) (e : Error) (trace : List Call)
    (hs : handleExecCredential.checkCache w cfg tokenCache fs = s) (ht : s.token = none)
    (ha : Authenticate cfg w.drivers = (.error e, trace)) :
    handleExecCredential w request cfg tokenCache fs =
      { err := some ("authentication failed: " ++ e), token := none, output := none,
        calls := s.calls ++ Call.Authenticate :: trace, sets := s.sets, cache := s.cache,
        fs := s.fs } := by
  unfold handleExecCredential
  simp only [hs, ht, ha]

/-- The run of `handleExecCredential` when the full flow is run and succeeds. -/
theorem handleExecCredential_authenticated (w : World) (request : TypeMeta) (cfg : Config)
    (tokenCache : TokenCache) (fs : FileSystem) (s : CacheCheck) (token : TokenInfo)
    (trace : List Call)
    (hs : handleExecCredential.checkCache w cfg tokenCache fs = s) (ht : s.token = none)
    (ha : Authenticate cfg w.drivers = (.ok token, trace)) :
    handleExecCredential w request cfg tokenCache fs =
      handleExecCredential.respond w request token (s.calls ++ Call.Authenticate :: trace)
        (s.sets ++ [(cfg.IssuerURL, cfg.ClientID, token)])
        (s.cache.Set w.codec w.saveOutcome s.fs cfg.IssuerURL cfg.ClientID token).1
        (s.cache.Set w.codec w.saveOutcome s.fs cfg.IssuerURL cfg.ClientID token).2 := by
  unfold handleExecCredential
  simp only [hs, ht, ha]

/-- The run of `runLogin` when the record is found and fresh. -/
theorem runLogin_fresh (w : World) (cfg : Config) (cache : TokenCache) (fs : FileSystem)
    (cached : TokenInfo) (hget : cache.Get cfg.IssuerURL cfg.ClientID = some cached)
    (hfresh : 5 * Minute < cached.Expiry - w.now) :
    runLogin w cfg cache fs =
      { err := none, token := some cached, output := some .usingCachedToken, calls := [],
        sets := [], cache := cache, fs := fs } := by
  have h := (timeUntil_gt_five_minutes w.now cached.Expiry).2 hfresh
  simp only [runLogin, hget]
  rw [if_pos h]

/-- The run of `runLogin` when the record is stale and its refresh succeeds. -/
theorem runLogin_refreshed (w : World) (cfg : Config) (cache : TokenCache) (fs : FileSystem)
    (cached refreshed : TokenInfo) (hget : cache.Get cfg.IssuerURL cfg.ClientID = some cached)
    (hstale : ¬ 5 * Minute < cached.Expiry - w.now) (hrt : cached.RefreshToken ≠ "")
    (hok : w.drivers.RefreshToken cached.RefreshToken = .ok refreshed) :
    runLogin w cfg cache fs =
      { err := none, token := some refreshed, output := some .tokenRefreshed,
        calls := [.RefreshToken cached.RefreshToken],
        sets := [(cfg.IssuerURL, cfg.ClientID, refreshed)],
        cache := (cache.Set w.codec w.saveOutcome fs cfg.IssuerURL cfg.ClientID refreshed).1,
        fs := (cache.Set w.codec w.saveOutcome fs cfg.IssuerURL cfg.ClientID refreshed).2 } := by
  have h : ¬ timeUntil w.now cached.Expiry > 5 * Minute :=
    fun h => hstale ((timeUntil_gt_five_minutes w.now cached.Expiry).1 h)
  simp only [runLogin, hget]
  rw [if_neg h, if_pos hrt, hok]

/-- The run of `runLogin` when the record is stale and its refresh fails. -/
theorem runLogin_refresh_failed (w : World) (cfg : Config) (cache : TokenCache)
    (fs : FileSystem) (cached : TokenInfo) (e : Error)
    (hget : cache.Get cfg.IssuerURL cfg.ClientID = some cached)
    (hstale : ¬ 5 * Minute < cached.Expiry - w.now) (hrt : cached.RefreshToken ≠ "")
    (herr : w.drivers.RefreshToken cached.RefreshToken = .error e) :
    runLogin w cfg cache fs =
      runLogin.authenticate w cfg cache fs [.RefreshToken cached.RefreshToken] := by
  have h : ¬ timeUntil w.now cached.Expiry > 5 * Minute :=
    fun h => hstale ((timeUntil_gt_five_minutes w.now cached.Expiry).1 h)
  simp only [runLogin, hget]
  rw [if_neg h, if_pos hrt, herr]

/-- The run of `runLogin` when the record is stale and has no refresh token. -/
theorem runLogin_no_refresh_token (w : World) (cfg : Config) (cache : TokenCache)
    (fs : FileSystem) (cached : TokenInfo)
    (hget : cache.Get cfg.IssuerURL cfg.ClientID = some cached)
    (hstale : ¬ 5 * Minute < cached.Expiry - w.now) (hrt : cached.RefreshToken = "") :
    runLogin w cfg cache fs = runLogin.authenticate w cfg cache fs [] := by
  have h : ¬ timeUntil w.now cached.Expiry > 5 * Minute :=
    fun h => hstale ((timeUntil_gt_five_minutes w.now cached.Expiry).1 h)
  simp only [runLogin, hget]
  rw [if_neg h, if_neg (not_not.2 hrt)]

/-- The run of `runLogin` when no record is found. -/
theorem runLogin_missing (w : World) (cfg : Config) (cache : TokenCache) (fs : FileSystem)
    (hget : cache.Get cfg.IssuerURL cfg.ClientID = none) :
    runLogin w cfg cache fs = runLogin.authenticate w cfg cache fs [] := by
  simp only [runLogin, hget]

theorem runLogin_authenticate_failed (w : World) (cfg : Config) (cache : TokenCache)
    (fs : FileSystem) (calls : List Call) (e : Error) (trace : List Call)
    (ha : Authenticate cfg w.drivers = (.error e, trace)) :
    runLogin.authenticate w cfg cache fs calls =
      { err := some ("authentication failed: " ++ e), token := none, output := none,
        calls := calls ++ Call.Authenticate :: trace, sets := [], cache := cache, fs := fs } := by
  simp only [runLogin.authenticate, ha]

theorem runLogin_authenticated (w : World) (cfg : Config) (cache : TokenCache)
    (fs : FileSystem) (calls : List Call) (token : TokenInfo) (trace : List Call)
    (ha : Authenticate cfg w.drivers = (.ok token, trace)) :
    runLogin.authenticate w cfg cache fs calls =
      { err := none, token := some token, output := some .successfullyAuthenticated,
        calls := calls ++ Call.Authenticate :: trace,
        sets := [(cfg.IssuerURL, cfg.ClientID, token)],
        cache := (cache.Set w.codec w.saveOutcome fs cfg.IssuerURL cfg.ClientID token).1,
        fs := (cache.Set w.codec w.saveOutcome fs cfg.IssuerURL cfg.ClientID token).2 } := by
  simp only [runLogin.authenticate, ha]

/-- The full flow, whenever `runLogin` reaches it, is recorded in the trace. -/
theorem runLogin_authenticate_calls_ne_nil (w : World) (cfg : Config) (cache : TokenCache)
    (fs : FileSystem) (calls : List Call) :
    (runLogin.authenticate w cfg cache fs calls).calls ≠ [] := by
  unfold runLogin.authenticate
  rcases ha : Authenticate cfg w.drivers with ⟨r, trace⟩
  cases r <;> simp

/-- The full flow, whenever `handleExecCredential` reaches it, is recorded in the trace. -/
theorem handleExecCredential_calls_ne_nil (w : World) (request : TypeMeta) (cfg : Config)
    (tokenCache : TokenCache) (fs : FileSystem) (s : CacheCheck)
    (hs : handleExecCredential.checkCache w cfg tokenCache fs = s) (ht : s.token = none) :
    (handleExecCredential w request cfg tokenCache fs).calls ≠ [] := by
  rcases ha : Authenticate cfg w.drivers with ⟨r, trace⟩
  cases r with
  | error e =>
    rw [handleExecCredential_authenticate_failed w request cfg tokenCache fs s e trace hs ht ha]
    simp
  | ok token =>
    rw [handleExecCredential_authenticated w request cfg tokenCache fs s token trace hs ht ha,
      respond_calls]
    simp

/-- The three ways an invocation can go, for both entry points at once: the
cached record is fresh; it is stale and refreshed; or the full flow is run,
after no driver call or after a failed refresh. -/
theorem entry_points_cases (w : World) (request : TypeMeta) (cfg : Config)
    (tokenCache : TokenCache) (fs : FileSystem) :
    (∃ cached, tokenCache.Get cfg.IssuerURL cfg.ClientID = some cached ∧
      5 * Minute < cached.Expiry - w.now ∧
      handleExecCredential w request cfg tokenCache fs =
        handleExecCredential.respond w request cached [] [] tokenCache fs ∧
      runLogin w cfg tokenCache fs =
        { err := none, token := some cached, output := some .usingCachedToken, calls := [],
          sets := [], cache := tokenCache, fs := fs }) ∨
    (∃ cached refreshed, tokenCache.Get cfg.IssuerURL cfg.ClientID = some cached ∧
      ¬ 5 * Minute < cached.Expiry - w.now ∧ cached.RefreshToken ≠ "" ∧
      w.drivers.RefreshToken cached.RefreshToken = .ok refreshed ∧
      handleExecCredential w request cfg tokenCache fs =
        handleExecCredential.respond w request refreshed [.RefreshToken cached.RefreshToken]
          [(cfg.IssuerURL, cfg.ClientID, refreshed)]
          (tokenCache.Set w.codec w.saveOutcome fs cfg.IssuerURL cfg.ClientID refreshed).1
          (tokenCache.Set w.codec w.saveOutcome fs cfg.IssuerURL cfg.ClientID refreshed).2 ∧
      runLogin w cfg tokenCache fs =
        { err := none, token := some refreshed, output := some .tokenRefreshed,
          calls := [.RefreshToken cached.RefreshToken],
          sets := [(cfg.IssuerURL, cfg.ClientID, refreshed)],
          cache := (tokenCache.Set w.codec w.saveOutcome fs cfg.IssuerURL cfg.ClientID
            refreshed).1,
          fs := (tokenCache.Set w.codec w.saveOutcome fs cfg.IssuerURL cfg.ClientID
            refreshed).2 }) ∨
    (∃ before : List Call,
      (before = [] ∨ ∃ refreshToken, before = [.RefreshToken refreshToken]) ∧
      handleExecCredential.checkCache w cfg tokenCache fs =
        { token := none, calls := before, sets := [], cache := tokenCache, fs := fs } ∧
      runLogin w cfg tokenCache fs = runLogin.authenticate w cfg tokenCache fs before) := by
  rcases hget : tokenCache.Get cfg.IssuerURL cfg.ClientID with _ | cached
  · exact Or.inr (Or.inr ⟨[], Or.inl rfl, checkCache_missing w cfg tokenCache fs hget,
      runLogin_missing w cfg tokenCache fs hget⟩)
  · by_cases hfresh : 5 * Minute < cached.Expiry - w.now
    · exact Or.inl ⟨cached, rfl, hfresh,
        handleExecCredential_of_token w request cfg tokenCache fs _ cached
          (checkCache_fresh w cfg tokenCache fs cached hget hfresh) rfl,
        runLogin_fresh w cfg tokenCache fs cached hget hfresh⟩
    · by_cases hrt : cached.RefreshToken = ""
      · exact Or.inr (Or.inr ⟨[], Or.inl rfl,
          checkCache_no_refresh_token w cfg tokenCache fs cached hget hfresh hrt,
          runLogin_no_refresh_token w cfg tokenCache fs cached hget hfresh hrt⟩)
      · rcases hr : w.drivers.RefreshToken cached.RefreshToken with e | refreshed
        · exact Or.inr (Or.inr ⟨[.RefreshToken cached.RefreshToken], Or.inr ⟨_, rfl⟩,
            checkCache_refresh_failed w cfg tokenCache fs cached e hget hfresh hrt hr,
            runLogin_refresh_failed w cfg tokenCache fs cached e hget hfresh hrt hr⟩)
        · exact Or.inr (Or.inl ⟨cached, refreshed, rfl, hfresh, hrt, hr,
            handleExecCredential_of_token w request cfg tokenCache fs _ refreshed
              (checkCache_refreshed w cfg tokenCache fs cached refreshed hget hfresh hrt hr) rfl,
            runLogin_refreshed w cfg tokenCache fs cached refreshed hget hfresh hrt hr⟩)

/-- C1: both entry points invoke no driver exactly when a record is found for
(issuer, client) whose expiry is more than 5 minutes after the clock reading;
in that case the cached record is the token they end with, nothing is stored
and the store and the files are unchanged (`handleExecCredential` builds its
response from the cached record, and the only error it can return is the
failure to write that response). A record with expiry `now + 10m` is returned
with no driver call, and a record with expiry exactly `now + 5m` is not fresh:
a driver is called. -/
theorem cached_token_returned_iff_fresh (w : World) (request : TypeMeta) (cfg : Config)
    (tokenCache : TokenCache) (fs : FileSystem) :
    ((handleExecCredential w request cfg tokenCache fs).calls = [] ↔
      ∃ cached, tokenCache.Get cfg.IssuerURL cfg.ClientID = some cached ∧
        5 * Minute < cached.Expiry - w.now) ∧
    ((runLogin w cfg tokenCache fs).calls = [] ↔
      ∃ cached, tokenCache.Get cfg.IssuerURL cfg.ClientID = some cached ∧
        5 * Minute < cached.Expiry - w.now) ∧
    (∀ cached, tokenCache.Get cfg.IssuerURL cfg.ClientID = some cached →
      5 * Minute < cached.Expiry - w.now →
      (handleExecCredential w request cfg tokenCache fs).token = some cached ∧
      (handleExecCredential w request cfg tokenCache fs).sets = [] ∧
      (handleExecCredential w request cfg tokenCache fs).cache = tokenCache ∧
      (handleExecCredential w request cfg tokenCache fs).fs = fs ∧
      (handleExecCredential w request cfg tokenCache fs).err =
        w.encode.map (fun err => "failed to encode exec credential response: " ++ err) ∧
      (w.encode = none → (handleExecCredential w request cfg tokenCache fs).output =
        some (.response { TypeMeta := request,
                          Status := { Token := cached.AccessToken,
                                      ExpirationTimestamp := cached.Expiry } })) ∧
      runLogin w cfg tokenCache fs =
        { err := none, token := some cached, output := some .usingCachedToken, calls := [],
          sets := [], cache := tokenCache, fs := fs }) ∧
    (∀ cached, tokenCache.Get cfg.IssuerURL cfg.ClientID = some cached →
      cached.Expiry = w.now + 10 * Minute →
      (handleExecCredential w request cfg tokenCache fs).calls = [] ∧
      (handleExecCredential w request cfg tokenCache fs).token = some cached ∧
      (runLogin w cfg tokenCache fs).calls = [] ∧
      (runLogin w cfg tokenCache fs).token = some cached) ∧
    (∀ cached, tokenCache.Get cfg.IssuerURL cfg.ClientID = some cached →
      cached.Expiry = w.now + 5 * Minute →
      (handleExecCredential w request cfg tokenCache fs).calls ≠ [] ∧
      (runLogin w cfg tokenCache fs).calls ≠ []) := by
  -- what a fresh record gives
  have hfreshExec : ∀ cached, tokenCache.Get cfg.IssuerURL cfg.ClientID = some cached →
      5 * Minute < cached.Expiry - w.now →
      handleExecCredential w request cfg tokenCache fs =
        handleExecCredential.respond w request cached [] [] tokenCache fs := by
    intro cached hget hfresh
    exact handleExecCredential_of_token w request cfg tokenCache fs _ cached
      (checkCache_fresh w cfg tokenCache fs cached hget hfresh) rfl
  -- what any other cache state gives
  have hstale : (¬ ∃ cached, tokenCache.Get cfg.IssuerURL cfg.ClientID = some cached ∧
        5 * Minute < cached.Expiry - w.now) →
      (handleExecCredential w request cfg tokenCache fs).calls ≠ [] ∧
      (runLogin w cfg tokenCache fs).calls ≠ [] := by
    intro hno
    rcases hget : tokenCache.Get cfg.IssuerURL cfg.ClientID with _ | cached
    · constructor
      · exact handleExecCredential_calls_ne_nil w request cfg tokenCache fs _
          (checkCache_missing w cfg tokenCache fs hget) rfl
      · rw [runLogin_missing w cfg tokenCache fs hget]
        exact runLogin_authenticate_calls_ne_nil w cfg tokenCache fs []
    · have hst : ¬ 5 * Minute < cached.Expiry - w.now := fun h => hno ⟨cached, hget, h⟩
      by_cases hrt : cached.RefreshToken = ""
      · constructor
        · exact handleExecCredential_calls_ne_nil w request cfg tokenCache fs _
            (checkCache_no_refresh_token w cfg tokenCache fs cached hget hst hrt) rfl
        · rw [runLogin_no_refresh_token w cfg tokenCache fs cached hget hst hrt]
          exact runLogin_authenticate_calls_ne_nil w cfg tokenCache fs []
      · rcases hr : w.drivers.RefreshToken cached.RefreshToken with e | refreshed
        · constructor
          · exact handleExecCredential_calls_ne_nil w request cfg tokenCache fs _
              (checkCache_refresh_failed w cfg tokenCache fs cached e hget hst hrt hr) rfl
          · rw [runLogin_refresh_failed w cfg tokenCache fs cached e hget hst hrt hr]
            exact runLogin_authenticate_calls_ne_nil w cfg tokenCache fs _
        · constructor
          · rw [handleExecCredential_of_token w request cfg tokenCache fs _ refreshed
              (checkCache_refreshed w cfg tokenCache fs cached refreshed hget hst hrt hr) rfl,
              respond_calls]
            simp
          · rw [runLogin_refreshed w cfg tokenCache fs cached refreshed hget hst hrt hr]
            simp
  refine ⟨⟨?_, ?_⟩, ⟨?_, ?_⟩, ?_, ?_, ?_⟩
  · intro hcalls
    by_contra hno
    exact (hstale hno).1 hcalls
  · rintro ⟨cached, hget, hfresh⟩
    rw [hfreshExec cached hget hfresh, respond_calls]
  · intro hcalls
    by_contra hno
    exact (hstale hno).2 hcalls
  · rintro ⟨cached, hget, hfresh⟩
    rw [runLogin_fresh w cfg tokenCache fs cached hget hfresh]
  · intro cached hget hfresh
    rw [hfreshExec cached hget hfresh]
    refine ⟨respond_token _ _ _ _ _ _ _, respond_sets _ _ _ _ _ _ _, respond_cache _ _ _ _ _ _ _,
      respond_fs _ _ _ _ _ _ _, respond_err _ _ _ _ _ _ _,
      fun hen => respond_output _ _ _ _ _ _ _ hen,
      runLogin_fresh w cfg tokenCache fs cached hget hfresh⟩
  · intro cached hget hexp
    have hfresh : 5 * Minute < cached.Expiry - w.now := by
      rw [hexp]; simp only [Minute, Second]; omega
    rw [hfreshExec cached hget hfresh, runLogin_fresh w cfg tokenCache fs cached hget hfresh]
    exact ⟨respond_calls _ _ _ _ _ _ _, respond_token _ _ _ _ _ _ _, rfl, rfl⟩
  · intro cached hget hexp
    apply hstale
    rintro ⟨cached1, hget1, hfresh1⟩
    rw [hget] at hget1
    cases hget1
    rw [hexp] at hfresh1
    simp only [Minute, Second] at hfresh1
    omega

/-- C1 on a store that holds a record expiring 10 minutes after the clock
reading `0`: no driver is called and the record is the token of the run. -/
theorem cached_token_returned_iff_fresh_witness :
    (handleExecCredential (exampleWorld (exampleDrivers (exampleToken "new" 0)))
      { Kind := "ExecCredential", APIVersion := "client.authentication.k8s.io/v1beta1" }
      exampleConfig (exampleCache (exampleToken "cached" (0 + 10 * Minute)))
      emptyFileSystem).calls = [] ∧
    (handleExecCredential (exampleWorld (exampleDrivers (exampleToken "new" 0)))
      { Kind := "ExecCredential", APIVersion := "client.authentication.k8s.io/v1beta1" }
      exampleConfig (exampleCache (exampleToken "cached" (0 + 10 * Minute)))
      emptyFileSystem).token = some (exampleToken "cached" (0 + 10 * Minute)) ∧
    (runLogin (exampleWorld (exampleDrivers (exampleToken "new" 0))) exampleConfig
      (exampleCache (exampleToken "cached" (0 + 10 * Minute))) emptyFileSystem).calls = [] ∧
    (runLogin (exampleWorld (exampleDrivers (exampleToken "new" 0))) exampleConfig
      (exampleCache (exampleToken "cached" (0 + 10 * Minute))) emptyFileSystem).token
      = some (exampleToken "cached" (0 + 10 * Minute)) :=
  (cached_token_returned_iff_fresh (exampleWorld (exampleDrivers (exampleToken "new" 0)))
    { Kind := "ExecCredential", APIVersion := "client.authentication.k8s.io/v1beta1" }
    exampleConfig (exampleCache (exampleToken "cached" (0 + 10 * Minute)))
    emptyFileSystem).2.2.2.1 (exampleToken "cached" (0 + 10 * Minute))
    (GoMap.index_assign _ _ _) rfl

/-- C2: when the cached record is stale and carries a refresh token, and the
Refresh driver fails, the refresh error is not returned: the full flow is run
next, and when it succeeds with token `t` both entry points end with `t`,
have called `Set(issuer, client, t)` and nothing else, and hold `t` in the
store. `runLogin` returns nil; `handleExecCredential` builds its response from
`t` and returns nil unless writing the response fails. -/
theorem refresh_failure_falls_through (w : World) (request : TypeMeta) (cfg : Config)
    (tokenCache : TokenCache) (fs : FileSystem) (cached t : TokenInfo) (e : Error)
    (trace : List Call)
    (hget : tokenCache.Get cfg.IssuerURL cfg.ClientID = some cached)
    (hstale : ¬ 5 * Minute < cached.Expiry - w.now)
    (hrt : cached.RefreshToken ≠ "")
    (hrefresh : w.drivers.RefreshToken cached.RefreshToken = .error e)
    (hauth : Authenticate cfg w.drivers = (.ok t, trace)) :
    ((handleExecCredential w request cfg tokenCache fs).calls =
        Call.RefreshToken cached.RefreshToken :: Call.Authenticate :: trace ∧
      (handleExecCredential w request cfg tokenCache fs).token = some t ∧
      (handleExecCredential w request cfg tokenCache fs).sets =
        [(cfg.IssuerURL, cfg.ClientID, t)] ∧
      (handleExecCredential w request cfg tokenCache fs).cache.Get cfg.IssuerURL cfg.ClientID
        = some t ∧
      (handleExecCredential w request cfg tokenCache fs).err =
        w.encode.map (fun err => "failed to encode exec credential response: " ++ err) ∧
      (w.encode = none → (handleExecCredential w request cfg tokenCache fs).output =
        some (.response { TypeMeta := request,
                          Status := { Token := t.AccessToken,
                                      ExpirationTimestamp := t.Expiry } }))) ∧
    ((runLogin w cfg tokenCache fs).calls =
        Call.RefreshToken cached.RefreshToken :: Call.Authenticate :: trace ∧
      (runLogin w cfg tokenCache fs).token = some t ∧
      (runLogin w cfg tokenCache fs).sets = [(cfg.IssuerURL, cfg.ClientID, t)] ∧
      (runLogin w cfg tokenCache fs).cache.Get cfg.IssuerURL cfg.ClientID = some t ∧
      (runLogin w cfg tokenCache fs).err = none) := by
  constructor
  · rw [handleExecCredential_authenticated w request cfg tokenCache fs _ t trace
      (checkCache_refresh_failed w cfg tokenCache fs cached e hget hstale hrt hrefresh) rfl hauth]
    refine ⟨?_, respond_token _ _ _ _ _ _ _, ?_, ?_, respond_err _ _ _ _ _ _ _,
      fun hen => respond_output _ _ _ _ _ _ _ hen⟩
    · rw [respond_calls]; rfl
    · rw [respond_sets]; rfl
    · rw [respond_cache]
      exact (Get_Set_same w.codec w.saveOutcome tokenCache fs cfg.IssuerURL cfg.ClientID t)
  · rw [runLogin_refresh_failed w cfg tokenCache fs cached e hget hstale hrt hrefresh,
      runLogin_authenticated w cfg tokenCache fs _ t trace hauth]
    exact ⟨rfl, rfl, rfl,
      Get_Set_same w.codec w.saveOutcome tokenCache fs cfg.IssuerURL cfg.ClientID t, rfl⟩

/-- C2 on a store whose record expires in one minute and carries the refresh
token `"r1"`, with a provider that refuses the refresh and then completes the
browser flow. -/
theorem refresh_failure_falls_through_witness :
    (runLogin (exampleWorld (exampleDrivers (exampleToken "new" 3600000000000))) exampleConfig
      (exampleCache (exampleRefreshable "cached" 60000000000)) emptyFileSystem).calls =
      [Call.RefreshToken "r1", Call.Authenticate, Call.authenticateBrowser] ∧
    (runLogin (exampleWorld (exampleDrivers (exampleToken "new" 3600000000000))) exampleConfig
      (exampleCache (exampleRefreshable "cached" 60000000000)) emptyFileSystem).err = none ∧
    (runLogin (exampleWorld (exampleDrivers (exampleToken "new" 3600000000000))) exampleConfig
      (exampleCache (exampleRefreshable "cached" 60000000000)) emptyFileSystem).token =
      some (exampleToken "new" 3600000000000) :=
  have h := refresh_failure_falls_through
    (exampleWorld (exampleDrivers (exampleToken "new" 3600000000000)))
    { Kind := "ExecCredential", APIVersion := "client.authentication.k8s.io/v1beta1" }
    exampleConfig (exampleCache (exampleRefreshable "cached" 60000000000)) emptyFileSystem
    (exampleRefreshable "cached" 60000000000) (exampleToken "new" 3600000000000)
    "failed to refresh token: invalid_grant" [Call.authenticateBrowser]
    (GoMap.index_assign _ _ _) (by decide) (by decide) rfl rfl
  ⟨h.2.1, h.2.2.2.2.2, h.2.2.1⟩

/-- C4, refuted as stated: a cached record that expires one minute after the
clock reading and carries no refresh token is found, is not fresh, and both
entry points go straight to the full flow: no Refresh call is made. -/
theorem stale_record_without_refresh_token_not_refreshed :
    (exampleCache (exampleToken "cached" 60000000000)).Get exampleConfig.IssuerURL
      exampleConfig.ClientID = some (exampleToken "cached" 60000000000) ∧
    ¬ 5 * Minute < (exampleToken "cached" 60000000000).Expiry
      - (exampleWorld (exampleDrivers (exampleToken "new" 3600000000000))).now ∧
    (handleExecCredential (exampleWorld (exampleDrivers (exampleToken "new" 3600000000000)))
      { Kind := "ExecCredential", APIVersion := "client.authentication.k8s.io/v1beta1" }
      exampleConfig (exampleCache (exampleToken "cached" 60000000000)) emptyFileSystem).calls =
      [Call.Authenticate, Call.authenticateBrowser] ∧
    (runLogin (exampleWorld (exampleDrivers (exampleToken "new" 3600000000000))) exampleConfig
      (exampleCache (exampleToken "cached" 60000000000)) emptyFileSystem).calls =
      [Call.Authenticate, Call.authenticateBrowser] := by
  have hget : (exampleCache (exampleToken "cached" 60000000000)).Get exampleConfig.IssuerURL
      exampleConfig.ClientID = some (exampleToken "cached" 60000000000) :=
    GoMap.index_assign _ _ _
  have hstale : ¬ 5 * Minute < (exampleToken "cached" 60000000000).Expiry
      - (exampleWorld (exampleDrivers (exampleToken "new" 3600000000000))).now := by decide
  have hauth : Authenticate exampleConfig
      (exampleWorld (exampleDrivers (exampleToken "new" 3600000000000))).drivers =
      (.ok (exampleToken "new" 3600000000000), [Call.authenticateBrowser]) := rfl
  refine ⟨hget, hstale, ?_, ?_⟩
  · rw [handleExecCredential_authenticated _ _ _ _ _ _ (exampleToken "new" 3600000000000)
      [Call.authenticateBrowser]
      (checkCache_no_refresh_token _ _ _ _ _ hget hstale rfl) rfl hauth, respond_calls]
    rfl
  · rw [runLogin_no_refresh_token _ _ _ _ _ hget hstale rfl,
      runLogin_authenticated _ _ _ _ _ (exampleToken "new" 3600000000000)
        [Call.authenticateBrowser] hauth]
    rfl

/-- C4, amended: for every cached record found for (issuer, client) whose
expiry is not more than 5 minutes after the clock reading and whose refresh
token is not empty, the first driver call of both entry points is the Refresh
driver with that refresh token; the full flow follows it only when the refresh
failed. -/
theorem refresh_attempted_before_full_flow (w : World) (request : TypeMeta) (cfg : Config)
    (tokenCache : TokenCache) (fs : FileSystem) (cached : TokenInfo)
    (hget : tokenCache.Get cfg.IssuerURL cfg.ClientID = some cached)
    (hstale : ¬ 5 * Minute < cached.Expiry - w.now)
    (hrt : cached.RefreshToken ≠ "") :
    (handleExecCredential w request cfg tokenCache fs).calls =
      Call.RefreshToken cached.RefreshToken ::
        (match w.drivers.RefreshToken cached.RefreshToken with
          | .ok _ => []
          | .error _ => Call.Authenticate :: (Authenticate cfg w.drivers).2) ∧
    (runLogin w cfg tokenCache fs).calls =
      Call.RefreshToken cached.RefreshToken ::
        (match w.drivers.RefreshToken cached.RefreshToken with
          | .ok _ => []
          | .error _ => Call.Authenticate :: (Authenticate cfg w.drivers).2) := by
  rcases hr : w.drivers.RefreshToken cached.RefreshToken with e | refreshed
  · rcases ha : Authenticate cfg w.drivers with ⟨r, trace⟩
    have hs := checkCache_refresh_failed w cfg tokenCache fs cached e hget hstale hrt hr
    rw [runLogin_refresh_failed w cfg tokenCache fs cached e hget hstale hrt hr]
    cases r with
    | error e1 =>
      rw [handleExecCredential_authenticate_failed w request cfg tokenCache fs _ e1 trace hs rfl ha,
        runLogin_authenticate_failed w cfg tokenCache fs _ e1 trace ha]
      exact ⟨rfl, rfl⟩
    | ok token =>
      rw [handleExecCredential_authenticated w request cfg tokenCache fs _ token trace hs rfl ha,
        runLogin_authenticated w cfg tokenCache fs _ token trace ha, respond_calls]
      exact ⟨rfl, rfl⟩
  · rw [handleExecCredential_of_token w request cfg tokenCache fs _ refreshed
        (checkCache_refreshed w cfg tokenCache fs cached refreshed hget hstale hrt hr) rfl,
      runLogin_refreshed w cfg tokenCache fs cached refreshed hget hstale hrt hr, respond_calls]
    exact ⟨rfl, rfl⟩

/-- C4, amended, on a store whose record expires in one minute and carries the
refresh token `"r1"`: the Refresh driver is called first. -/
theorem refresh_attempted_before_full_flow_witness :
    (handleExecCredential (exampleWorld (exampleDrivers (exampleToken "new" 3600000000000)))
      { Kind := "ExecCredential", APIVersion := "client.authentication.k8s.io/v1beta1" }
      exampleConfig (exampleCache (exampleRefreshable "cached" 60000000000))
      emptyFileSystem).calls =
      [Call.RefreshToken "r1", Call.Authenticate, Call.authenticateBrowser] :=
  (refresh_attempted_before_full_flow
    (exampleWorld (exampleDrivers (exampleToken "new" 3600000000000)))
    { Kind := "ExecCredential", APIVersion := "client.authentication.k8s.io/v1beta1" }
    exampleConfig (exampleCache (exampleRefreshable "cached" 60000000000)) emptyFileSystem
    (exampleRefreshable "cached" 60000000000) (GoMap.index_assign _ _ _) (by decide)
    (by decide)).1

/-- C5: when the full flow is run and fails, both entry points return an error
(the flow's error, wrapped), write nothing, call `Set` never, and leave the
token store and the files as they were: `Get` returns for every key what it
returned before. -/
theorem failed_authentication_persists_nothing (w : World) (request : TypeMeta) (cfg : Config)
    (tokenCache : TokenCache) (fs : FileSystem) (e : Error) (trace : List Call)
    (hauth : Authenticate cfg w.drivers = (.error e, trace)) :
    (Call.Authenticate ∈ (handleExecCredential w request cfg tokenCache fs).calls →
      (handleExecCredential w request cfg tokenCache fs).err
        = some ("authentication failed: " ++ e) ∧
      (handleExecCredential w request cfg tokenCache fs).token = none ∧
      (handleExecCredential w request cfg tokenCache fs).output = none ∧
      (handleExecCredential w request cfg tokenCache fs).sets = [] ∧
      (handleExecCredential w request cfg tokenCache fs).cache = tokenCache ∧
      (handleExecCredential w request cfg tokenCache fs).fs = fs ∧
      ∀ issuerURL clientID,
        (handleExecCredential w request cfg tokenCache fs).cache.Get issuerURL clientID
          = tokenCache.Get issuerURL clientID) ∧
    (Call.Authenticate ∈ (runLogin w cfg tokenCache fs).calls →
      (runLogin w cfg tokenCache fs).err = some ("authentication failed: " ++ e) ∧
      (runLogin w cfg tokenCache fs).token = none ∧
      (runLogin w cfg tokenCache fs).output = none ∧
      (runLogin w cfg tokenCache fs).sets = [] ∧
      (runLogin w cfg tokenCache fs).cache = tokenCache ∧
      (runLogin w cfg tokenCache fs).fs = fs ∧
      ∀ issuerURL clientID,
        (runLogin w cfg tokenCache fs).cache.Get issuerURL clientID
          = tokenCache.Get issuerURL clientID) := by
  rcases entry_points_cases w request cfg tokenCache fs with
    ⟨cached, _, _, hexec, hlogin⟩ | ⟨cached, refreshed, _, _, _, _, hexec, hlogin⟩ |
    ⟨before, _, hs, hlogin⟩
  · constructor
    · intro hmem
      rw [hexec, respond_calls] at hmem
      simp at hmem
    · intro hmem
      rw [hlogin] at hmem
      simp at hmem
  · constructor
    · intro hmem
      rw [hexec, respond_calls] at hmem
      simp at hmem
    · intro hmem
      rw [hlogin] at hmem
      simp at hmem
  · rw [handleExecCredential_authenticate_failed w request cfg tokenCache fs _ e trace hs rfl hauth,
      hlogin, runLogin_authenticate_failed w cfg tokenCache fs _ e trace hauth]
    exact ⟨fun _ => ⟨rfl, rfl, rfl, rfl, rfl, rfl, fun _ _ => rfl⟩,
      fun _ => ⟨rfl, rfl, rfl, rfl, rfl, rfl, fun _ _ => rfl⟩⟩

/-- C5 on an empty store with a provider whose browser flow times out. -/
theorem failed_authentication_persists_nothing_witness :
    (runLogin (exampleWorld failingDrivers) exampleConfig emptyCache emptyFileSystem).err =
      some ("authentication failed: " ++ "authentication timeout") ∧
    (runLogin (exampleWorld failingDrivers) exampleConfig emptyCache emptyFileSystem).sets = [] ∧
    (runLogin (exampleWorld failingDrivers) exampleConfig emptyCache emptyFileSystem).cache
      = emptyCache :=
  have h := (failed_authentication_persists_nothing (exampleWorld failingDrivers)
    { Kind := "ExecCredential", APIVersion := "client.authentication.k8s.io/v1beta1" }
    exampleConfig emptyCache emptyFileSystem "authentication timeout"
    [Call.authenticateBrowser] rfl).2 (by decide)
  ⟨h.1, h.2.2.2.1, h.2.2.2.2.1⟩

/-! ## Flow selection -/

theorem tryDeviceEndpoints_no_clientCredentials (d : Drivers) (urls : List String) :
    Call.clientCredentialsFlow ∉ (tryDeviceEndpoints d urls).2 := by
  induction urls with
  | nil => simp [tryDeviceEndpoints]
  | cons url rest ih =>
    unfold tryDeviceEndpoints
    cases d.deviceFlow url with
    | error e => simpa using ih
    | ok token => simp

theorem tryDeviceEndpoints_first (d : Drivers) (url : String) (rest : List String) :
    ∃ later, (tryDeviceEndpoints d (url :: rest)).2 = Call.deviceFlow url :: later := by
  unfold tryDeviceEndpoints
  cases d.deviceFlow url with
  | error e => exact ⟨_, rfl⟩
  | ok token => exact ⟨_, rfl⟩

/-- C3: flow selection. With `headless == false`, `Authenticate` runs the
Browser driver and nothing else and returns its result. With
`headless == true`, `Authenticate` is the selection of lines 237-261 (entered
once `oidc.NewProvider` has succeeded; its error is returned before any flow
otherwise), in which: a non-empty secret whose Client-Credentials attempt
succeeds returns that token and no Device-Code flow is attempted; an empty
secret starts the Device-Code flow without any Client-Credentials attempt; a
non-empty secret whose Client-Credentials attempt fails is followed by the
Device-Code flow, whose result is returned. -/
theorem flow_selection (cfg : Config) (d : Drivers) :
    (cfg.Headless = false →
      Authenticate cfg d = (d.authenticateBrowser, [Call.authenticateBrowser])) ∧
    (cfg.Headless = true →
      (d.newProvider = none → Authenticate cfg d = authenticateHeadless.selectFlow cfg d) ∧
      (∀ err, d.newProvider = some err →
        Authenticate cfg d = (.error ("failed to create OIDC provider: " ++ err), []))) ∧
    (∀ t, cfg.ClientSecret ≠ "" → d.clientCredentialsFlow = .ok t →
      authenticateHeadless.selectFlow cfg d = (.ok t, [Call.clientCredentialsFlow])) ∧
    (cfg.ClientSecret = "" →
      authenticateHeadless.selectFlow cfg d = tryDeviceEndpoints d (deviceEndpoints cfg) ∧
      Call.clientCredentialsFlow ∉ (authenticateHeadless.selectFlow cfg d).2 ∧
      ∃ later, (authenticateHeadless.selectFlow cfg d).2 =
        Call.deviceFlow (cfg.IssuerURL ++ "/device") :: later) ∧
    (∀ e, cfg.ClientSecret ≠ "" → d.clientCredentialsFlow = .error e →
      (authenticateHeadless.selectFlow cfg d).1 = (tryDeviceEndpoints d (deviceEndpoints cfg)).1 ∧
      (authenticateHeadless.selectFlow cfg d).2 =
        Call.clientCredentialsFlow :: (tryDeviceEndpoints d (deviceEndpoints cfg)).2 ∧
      ∃ later, (authenticateHeadless.selectFlow cfg d).2 =
        Call.clientCredentialsFlow :: Call.deviceFlow (cfg.IssuerURL ++ "/device") :: later) := by
  refine ⟨?_, ?_, ?_, ?_, ?_⟩
  · intro hh
    unfold Authenticate
    simp only [hh]
    cases d.authenticateBrowser <;> rfl
  · intro hh
    constructor
    · intro hp
      unfold Authenticate authenticateHeadless
      simp only [hh, hp]
      rcases authenticateHeadless.selectFlow cfg d with ⟨r, trace⟩
      cases r <;> rfl
    · intro err hp
      unfold Authenticate authenticateHeadless
      simp only [hh, hp]
      rfl
  · intro t hs hcc
    unfold authenticateHeadless.selectFlow
    rw [if_pos hs, hcc]
  · intro hs
    have heq : authenticateHeadless.selectFlow cfg d
        = tryDeviceEndpoints d (deviceEndpoints cfg) := by
      unfold authenticateHeadless.selectFlow
      rw [if_neg (not_not.2 hs)]
    rw [heq]
    exact ⟨rfl, tryDeviceEndpoints_no_clientCredentials d _,
      tryDeviceEndpoints_first d _ _⟩
  · intro e hs hcc
    have heq : authenticateHeadless.selectFlow cfg d
        = ((tryDeviceEndpoints d (deviceEndpoints cfg)).1,
           Call.clientCredentialsFlow :: (tryDeviceEndpoints d (deviceEndpoints cfg)).2) := by
      unfold authenticateHeadless.selectFlow
      rw [if_pos hs, hcc]
    rw [heq]
    obtain ⟨later, hl⟩ := tryDeviceEndpoints_first d (cfg.IssuerURL ++ "/device")
      [cfg.IssuerURL ++ "/oauth2/device", cfg.IssuerURL ++ "/v1/device"]
    exact ⟨rfl, rfl, later, by rw [← hl]; rfl⟩

/-- C3 at a browser configuration, and at a headless configuration with a
secret on a provider that refuses the client-credentials grant. -/
theorem flow_selection_witness :
    Authenticate exampleConfig failingDrivers
      = (.error "authentication timeout", [Call.authenticateBrowser]) ∧
    Authenticate headlessConfig failingDrivers
      = authenticateHeadless.selectFlow headlessConfig failingDrivers ∧
    (authenticateHeadless.selectFlow headlessConfig failingDrivers).2 =
      Call.clientCredentialsFlow ::
        (tryDeviceEndpoints failingDrivers (deviceEndpoints headlessConfig)).2 ∧
    authenticateHeadless.selectFlow headlessConfig
        (exampleDrivers (exampleToken "new" 3600000000000))
      = (.ok (exampleToken "new" 3600000000000), [Call.clientCredentialsFlow]) ∧
    authenticateHeadless.selectFlow { headlessConfig with ClientSecret := "" } failingDrivers
      = tryDeviceEndpoints failingDrivers
          (deviceEndpoints { headlessConfig with ClientSecret := "" }) :=
  ⟨(flow_selection exampleConfig failingDrivers).1 rfl,
   ((flow_selection headlessConfig failingDrivers).2.1 rfl).1 rfl,
   ((flow_selection headlessConfig failingDrivers).2.2.2.2
      "client credentials flow failed with status 401" (by decide) rfl).2.1,
   (flow_selection headlessConfig (exampleDrivers (exampleToken "new" 3600000000000))).2.2.1
      (exampleToken "new" 3600000000000) (by decide) rfl,
   ((flow_selection { headlessConfig with ClientSecret := "" } failingDrivers).2.2.2.1 rfl).1⟩

/-! ## Persistence: save, then load in a fresh store -/

/-- The map built by a loop of assignments over distinct keys. -/
theorem foldl_assign_index {V W : Type} (f : V → W)
    (l : List (Sigma fun _ : String => V)) (acc : GoMap W) (k : String) (hl : l.NodupKeys) :
    (l.foldl (fun m e => m.assign e.1 (f e.2)) acc).index k =
      match l.dlookup k with
      | some v => some (f v)
      | none => acc.index k := by
  induction l generalizing acc with
  | nil => rfl
  | cons e rest ih =>
    obtain ⟨hnot, hrest⟩ := List.nodupKeys_cons.1 hl
    rw [List.foldl_cons, ih _ hrest]
    by_cases hk : k = e.1
    · subst hk
      have hnone : rest.dlookup e.1 = none := List.dlookup_eq_none.2 hnot
      have hhead : (e :: rest).dlookup e.1 = some e.2 := by
        cases e; exact List.dlookup_cons_eq _ _ _
      rw [hnone, hhead]
      exact GoMap.index_assign _ _ _
    · have htail : (e :: rest).dlookup k = rest.dlookup k := List.dlookup_cons_ne _ _ hk
      rw [htail]
      cases hrest1 : rest.dlookup k with
      | some v => rfl
      | none => exact GoMap.index_assign_ne _ _ hk

theorem saveCacheData_index (tokens : GoMap TokenInfo) (k : String) :
    (saveCacheData tokens).index k = (tokens.index k).map cacheEntry.ofToken := by
  unfold saveCacheData
  rw [foldl_assign_index cacheEntry.ofToken tokens.entries ∅ k tokens.nodupKeys]
  show _ = (AList.lookup k tokens).map cacheEntry.ofToken
  unfold AList.lookup
  cases tokens.entries.dlookup k <;> rfl

/-- The loop of `load` over a decoded map without nil entries. -/
theorem loadEntries_ok (l : List (Sigma fun _ : String => Option cacheEntry))
    (acc : GoMap TokenInfo) (hl : l.NodupKeys) (hsome : ∀ x ∈ l, x.2 ≠ none) :
    ∃ tokens, loadEntries l acc = .ok tokens ∧
      ∀ k, tokens.index k =
        match l.dlookup k with
        | some entry => entry.map cacheEntry.toToken
        | none => acc.index k := by
  induction l generalizing acc with
  | nil => exact ⟨acc, rfl, fun _ => rfl⟩
  | cons e rest ih =>
    obtain ⟨hnot, hrest⟩ := List.nodupKeys_cons.1 hl
    obtain ⟨key, v⟩ := e
    cases v with
    | none => exact absurd rfl (hsome ⟨key, none⟩ (List.mem_cons_self _ _))
    | some entry =>
      obtain ⟨tokens, hok, hidx⟩ := ih (acc.assign key entry.toToken) hrest
        (fun x hx => hsome x (List.mem_cons_of_mem _ hx))
      refine ⟨tokens, hok, ?_⟩
      intro k
      rw [hidx k]
      by_cases hk : k = key
      · subst hk
        have hnone : rest.dlookup k = none := List.dlookup_eq_none.2 hnot
        rw [hnone, List.dlookup_cons_eq]
        exact GoMap.index_assign _ _ _
      · have htail : (⟨key, some entry⟩ :: rest :
            List (Sigma fun _ : String => Option cacheEntry)).dlookup k = rest.dlookup k :=
          List.dlookup_cons_ne _ _ hk
        rw [htail]
        cases hrest1 : rest.dlookup k with
        | some v => rfl
        | none => exact GoMap.index_assign_ne _ _ hk

theorem runSets_path (codec : JSONCodec) (steps : List SetStep) (s : TokenCache × FileSystem) :
    (runSets codec steps s).1.path = s.1.path := by
  induction steps generalizing s with
  | nil => rfl
  | cons step rest ih =>
    unfold runSets
    rw [ih]
    rfl

/-- A completed `save` leaves at the store's path the marshalled form of its tokens. -/
theorem save_completes_file (codec : JSONCodec) (o : SaveOutcome) (c : TokenCache)
    (fs : FileSystem) (h : c.saveCompletes codec o = true) :
    ∃ data, codec.marshalIndent (saveCacheData c.tokens) = some data ∧
      c.save codec o fs c.path = some data := by
  unfold TokenCache.saveCompletes at h
  simp only [Bool.and_eq_true, decide_eq_true_eq] at h
  obtain ⟨⟨⟨hmk, hmarshal⟩, hwrite⟩, hrename⟩ := h
  obtain ⟨data, hdata⟩ := Option.isSome_iff_exists.1 hmarshal
  refine ⟨data, hdata, ?_⟩
  unfold TokenCache.save
  simp [hmk, hdata, hwrite, hrename, osWriteFile, osRename]

/-- After a non-empty sequence of `Set` calls whose saves complete, the file at
the store's path is the marshalled form of the tokens in memory. -/
theorem runSets_file (codec : JSONCodec) (steps : List SetStep) (s : TokenCache × FileSystem)
    (hne : steps ≠ []) (h : setsComplete codec steps s = true) :
    ∃ data, codec.marshalIndent (saveCacheData (runSets codec steps s).1.tokens) = some data ∧
      (runSets codec steps s).2 (runSets codec steps s).1.path = some data := by
  induction steps generalizing s with
  | nil => exact absurd rfl hne
  | cons step rest ih =>
    unfold setsComplete at h
    simp only [Bool.and_eq_true] at h
    unfold runSets
    by_cases hrest : rest = []
    · subst hrest
      exact save_completes_file codec step.outcome _ s.2 h.1
    · exact ih _ hrest h.2

/-- What a fresh store loads from a file holding the marshalled form of `tokens`. -/
theorem load_marshalled (codec : JSONCodec) (hcodec : codec.RoundTrips) (path : String)
    (fs : FileSystem) (tokens : GoMap TokenInfo) (data : Bytes)
    (hdata : codec.marshalIndent (saveCacheData tokens) = some data)
    (hfile : fs path = some data) :
    ∃ fresh, NewTokenCache codec path fs = .ok fresh ∧ fresh.path = path ∧
      ∀ k, fresh.tokens.index k = tokens.index k := by
  obtain ⟨m1, hdecode, hm1⟩ := hcodec _ _ hdata
  have hsome : ∀ x ∈ m1.entries, x.2 ≠ none := by
    rintro ⟨key, v⟩ hx hv
    have hlook : m1.index key = some v := AList.mem_lookup_iff.2 hx
    rw [hm1 key] at hlook
    cases hv
    cases hidx : (saveCacheData tokens).index key <;> rw [hidx] at hlook <;> cases hlook
  obtain ⟨loaded, hok, hidx⟩ := loadEntries_ok m1.entries ∅ m1.nodupKeys hsome
  refine ⟨{ tokens := loaded, path := path }, ?_, rfl, ?_⟩
  · unfold NewTokenCache TokenCache.load
    simp only [hfile, hdecode, hok]
  · intro k
    rw [hidx k]
    have hm1k := hm1 k
    unfold GoMap.index AList.lookup at hm1k
    rw [hm1k]
    have hsave := saveCacheData_index tokens k
    unfold GoMap.index at hsave
    unfold AList.lookup at hsave
    rw [hsave]
    show _ = AList.lookup k tokens
    unfold AList.lookup
    cases tokens.entries.dlookup k <;> rfl

theorem runSets_append (codec : JSONCodec) (front back : List SetStep)
    (s : TokenCache × FileSystem) :
    runSets codec (front ++ back) s = runSets codec back (runSets codec front s) := by
  induction front generalizing s with
  | nil => rfl
  | cons step rest ih =>
    exact ih (s.1.Set codec step.outcome s.2 step.issuerURL step.clientID step.token)

/-- Later `Set` calls under other keys leave the entry of a key as it is. -/
theorem runSets_index_of_not_set (codec : JSONCodec) (steps : List SetStep)
    (s : TokenCache × FileSystem) (k : String)
    (h : ∀ step ∈ steps, TokenCache.key step.issuerURL step.clientID ≠ k) :
    (runSets codec steps s).1.tokens.index k = s.1.tokens.index k := by
  induction steps generalizing s with
  | nil => rfl
  | cons step rest ih =>
    unfold runSets
    rw [ih _ (fun x hx => h x (List.mem_cons_of_mem _ hx))]
    exact GoMap.index_assign_ne _ _ (fun hk => h step (List.mem_cons_self _ _) hk.symm)

/-- C10 as stated fails on three `Set` calls on an empty store with no cache
file, every file-system step of every `save` succeeding. The third record
expires in the year 10000, the JSON library returns an error on the store that
holds it, and `save` returns without writing. The store in memory then holds
three records and returns the third; the cache file is still the document of
the first two, and a fresh store with the same path loads two records and
returns nil for the third. -/
theorem round_trip_loses_unmarshallable_record :
    (∀ step ∈ [stepA, stepB, stepFar],
      step.outcome = { mkdirAll := true, writeFile := .ok, rename := true }) ∧
    (runSets exampleCodec [stepA, stepB, stepFar] (emptyCache, emptyFileSystem)).1.tokens.len = 3 ∧
    (runSets exampleCodec [stepA, stepB, stepFar] (emptyCache, emptyFileSystem)).1.Get
      "https://issuer.example" "client-c" = some recordFar ∧
    exampleCodec.marshalIndent (saveCacheData
      (runSets exampleCodec [stepA, stepB, stepFar] (emptyCache, emptyFileSystem)).1.tokens)
      = none ∧
    (runSets exampleCodec [stepA, stepB, stepFar] (emptyCache, emptyFileSystem)).2
      "/home/user/.cache/kubectl-login/tokens.json" = some [0x41, 0x42] ∧
    ∃ fresh, NewTokenCache exampleCodec "/home/user/.cache/kubectl-login/tokens.json"
        (runSets exampleCodec [stepA, stepB, stepFar] (emptyCache, emptyFileSystem)).2
        = .ok fresh ∧
      fresh.tokens.len = 2 ∧
      fresh.Get "https://issuer.example" "client-c" = none :=
  ⟨by decide, by decide, by decide, by decide, by decide, _, rfl, by decide, by decide⟩

/-- C10, amended: persistence round trip. Take any store and any sequence of
`Set` calls on it in which every step of every `save` succeeds, the
marshalling by `json.MarshalIndent` as well as the file-system steps
(directory creation, writing the temporary file, renaming it), the sequence
being non-empty unless the store starts empty with no cache file; let the JSON
library decode what it encoded. Then a fresh store with the same path loads
without failure, holds exactly the entries of the first store (the same keys,
as many of them, each with the same record, so `Get` agrees on every issuer
and client), and for every `Set` call not overwritten by a later call with the
same key, `Get` in the fresh store returns the record that call stored,
identical in all four fields. -/
theorem persistence_round_trip (codec : JSONCodec) (steps : List SetStep) (c0 : TokenCache)
    (fs0 : FileSystem) (hcodec : codec.RoundTrips)
    (hcomplete : setsComplete codec steps (c0, fs0) = true)
    (hstart : steps ≠ [] ∨ (c0.tokens = ∅ ∧ fs0 c0.path = none)) :
    ∃ fresh, NewTokenCache codec c0.path (runSets codec steps (c0, fs0)).2 = .ok fresh ∧
      (∀ issuerURL clientID, fresh.Get issuerURL clientID
        = (runSets codec steps (c0, fs0)).1.Get issuerURL clientID) ∧
      fresh.tokens.entries.Perm (runSets codec steps (c0, fs0)).1.tokens.entries ∧
      fresh.tokens.keys.Perm (runSets codec steps (c0, fs0)).1.tokens.keys ∧
      fresh.tokens.len = (runSets codec steps (c0, fs0)).1.tokens.len ∧
      ∀ front step back, steps = front ++ step :: back →
        (∀ later ∈ back, TokenCache.key later.issuerURL later.clientID
          ≠ TokenCache.key step.issuerURL step.clientID) →
        fresh.Get step.issuerURL step.clientID = some step.token := by
  -- the fresh store agrees with the first one on every key
  have hload : ∃ fresh, NewTokenCache codec c0.path (runSets codec steps (c0, fs0)).2 = .ok fresh ∧
      ∀ k, fresh.tokens.index k = (runSets codec steps (c0, fs0)).1.tokens.index k := by
    by_cases hne : steps = []
    · subst hne
      rcases hstart with h | ⟨hempty, hfile⟩
      · exact absurd rfl h
      · refine ⟨{ tokens := ∅, path := c0.path }, ?_, ?_⟩
        · unfold NewTokenCache TokenCache.load runSets
          simp only [hfile]
        · intro k
          show (∅ : GoMap TokenInfo).index k = c0.tokens.index k
          rw [hempty]
    · obtain ⟨data, hdata, hfile⟩ := runSets_file codec steps (c0, fs0) hne hcomplete
      rw [runSets_path] at hfile
      obtain ⟨fresh, hok, _, hidx⟩ := load_marshalled codec hcodec c0.path _ _ data hdata hfile
      exact ⟨fresh, hok, hidx⟩
  obtain ⟨fresh, hok, hidx⟩ := hload
  have hperm : fresh.tokens.entries.Perm (runSets codec steps (c0, fs0)).1.tokens.entries := by
    apply List.lookup_ext fresh.tokens.nodupKeys (runSets codec steps (c0, fs0)).1.tokens.nodupKeys
    intro k v
    have hk := hidx k
    unfold GoMap.index AList.lookup at hk
    rw [hk]
  refine ⟨fresh, hok, fun issuerURL clientID => hidx _, hperm, ?_, hperm.length_eq, ?_⟩
  · exact hperm.map _
  · intro front step back hsteps hlater
    show fresh.tokens.index _ = _
    rw [hidx, hsteps, runSets_append]
    show (runSets codec back (runSets codec [step] _)).1.tokens.index _ = _
    rw [runSets_index_of_not_set codec back _ _ hlater]
    exact GoMap.index_assign _ _ _

theorem exampleCodec_roundTrips : exampleCodec.RoundTrips := by
  intro m data h
  unfold exampleCodec at h
  simp only at h
  split_ifs at h with hA hAB
  · cases h
    refine ⟨_, rfl, ?_⟩
    intro k
    show _ = (AList.lookup k m).map some
    unfold AList.lookup
    rw [hA]
    by_cases hk : k = "https://issuer.example:client-a"
    · subst hk
      rw [GoMap.index_assign, List.dlookup_cons_eq]
      rfl
    · rw [GoMap.index_assign_ne _ _ hk, List.dlookup_cons_ne _ _ hk]
      rfl
  · cases h
    refine ⟨_, rfl, ?_⟩
    intro k
    show _ = (AList.lookup k m).map some
    unfold AList.lookup
    rw [hAB]
    by_cases hk : k = "https://issuer.example:client-a"
    · subst hk
      rw [GoMap.index_assign, List.dlookup_cons_eq]
      rfl
    · rw [GoMap.index_assign_ne _ _ hk, List.dlookup_cons_ne _ _ hk]
      by_cases hk2 : k = "https://issuer.example:client-b"
      · subst hk2
        rw [GoMap.index_assign, List.dlookup_cons_eq]
        rfl
      · rw [GoMap.index_assign_ne _ _ hk2, List.dlookup_cons_ne _ _ hk2]
        rfl

/-- C10, amended, on the scenario of the specification: two records stored for
`("https://issuer.example", "client-a")` and `("https://issuer.example", "client-b")`
in an empty store; a fresh store with the same path returns both. -/
theorem persistence_round_trip_witness :
    ∃ fresh, NewTokenCache exampleCodec emptyCache.path
        (runSets exampleCodec exampleSteps (emptyCache, emptyFileSystem)).2 = .ok fresh ∧
      fresh.Get "https://issuer.example" "client-a" = some recordA ∧
      fresh.Get "https://issuer.example" "client-b" = some recordB ∧
      fresh.tokens.len = 2 := by
  obtain ⟨fresh, hok, _, _, _, hlen, hget⟩ :=
    persistence_round_trip exampleCodec exampleSteps emptyCache emptyFileSystem
      exampleCodec_roundTrips (by decide) (Or.inl (List.cons_ne_nil _ _))
  refine ⟨fresh, hok, ?_, ?_, ?_⟩
  · exact hget [] stepA [stepB] rfl (by decide)
  · exact hget [stepA] stepB [] rfl (by simp)
  · rw [hlen]
    decide

/-! ## Loading the cache file -/

/-- The loop of `load` panics as soon as the decoded map has a nil entry. -/
theorem loadEntries_nil_entry (l : List (Sigma fun _ : String => Option cacheEntry))
    (acc : GoMap TokenInfo) (h : ∃ x ∈ l, x.2 = none) :
    loadEntries l acc = .error .nilDereference := by
  induction l generalizing acc with
  | nil =>
    obtain ⟨x, hx, _⟩ := h
    cases hx
  | cons e rest ih =>
    obtain ⟨key, v⟩ := e
    cases v with
    | none => rfl
    | some entry =>
      apply ih
      obtain ⟨x, hx, hnone⟩ := h
      rcases List.mem_cons.1 hx with rfl | hmem
      · cases hnone
      · exact ⟨x, hmem, hnone⟩

/-- C11, refuted: `load` does not return normally for every file content. When
the file decodes without error to a map in which some key holds a nil pointer
(what `json.Unmarshal` produces for a JSON `null` value), the loop of `load`
reads a field of the nil entry and panics, for every store. -/
theorem load_panics_on_nil_entry (codec : JSONCodec) (c : TokenCache) (fs : FileSystem)
    (data : Bytes) (cacheData : GoMap (Option cacheEntry)) (key : String)
    (hfile : fs c.path = some data) (hdecode : codec.unmarshal data = some cacheData)
    (hnil : cacheData.index key = some none) :
    c.load codec fs = .error .nilDereference := by
  have hmem : (⟨key, none⟩ : Sigma fun _ : String => Option cacheEntry) ∈ cacheData.entries :=
    AList.mem_lookup_iff.1 hnil
  unfold TokenCache.load
  simp only [hfile, hdecode, loadEntries_nil_entry cacheData.entries c.tokens ⟨_, hmem, rfl⟩]

/-- C11 on the cache file `{"a":null}`: `load` on a fresh store panics, and so
does `NewTokenCache`. -/
theorem load_panics_on_nil_entry_witness :
    emptyCache.load nullEntryCodec (cacheFileOnly nullEntryDocument) = .error .nilDereference ∧
    NewTokenCache nullEntryCodec emptyCache.path (cacheFileOnly nullEntryDocument)
      = .error .nilDereference :=
  ⟨load_panics_on_nil_entry nullEntryCodec emptyCache (cacheFileOnly nullEntryDocument)
      nullEntryDocument ((∅ : GoMap (Option cacheEntry)).assign "a" none) "a" rfl rfl
      (GoMap.index_assign _ _ _),
   load_panics_on_nil_entry nullEntryCodec { tokens := ∅, path := emptyCache.path }
      (cacheFileOnly nullEntryDocument)
      nullEntryDocument ((∅ : GoMap (Option cacheEntry)).assign "a" none) "a" rfl rfl
      (GoMap.index_assign _ _ _)⟩

/-- C12: when there is no cache file, or its content fails to decode as JSON,
`load` on a fresh store returns normally and the store is empty: the token map
has zero entries and `Get` returns nil for every issuer and client. -/
theorem load_undecodable_leaves_store_empty (codec : JSONCodec) (path : String)
    (fs : FileSystem)
    (h : fs path = none ∨ ∃ data, fs path = some data ∧ codec.unmarshal data = none) :
    ∃ fresh, NewTokenCache codec path fs = .ok fresh ∧
      fresh.tokens.len = 0 ∧
      ∀ issuerURL clientID, fresh.Get issuerURL clientID = none := by
  refine ⟨{ tokens := ∅, path := path }, ?_, rfl, fun _ _ => rfl⟩
  unfold NewTokenCache TokenCache.load
  rcases h with hnone | ⟨data, hfile, hdecode⟩
  · simp only [hnone]
  · simp only [hfile, hdecode]

/-- C12 on the cache file `invalid json` of `TestTokenCache_InvalidFile`, and on
an absent cache file. -/
theorem load_undecodable_leaves_store_empty_witness :
    (∃ fresh, NewTokenCache nullEntryCodec emptyCache.path (cacheFileOnly invalidDocument)
        = .ok fresh ∧ fresh.tokens.len = 0 ∧
      ∀ issuerURL clientID, fresh.Get issuerURL clientID = none) ∧
    (∃ fresh, NewTokenCache nullEntryCodec emptyCache.path emptyFileSystem = .ok fresh ∧
      fresh.tokens.len = 0 ∧ ∀ issuerURL clientID, fresh.Get issuerURL clientID = none) :=
  ⟨load_undecodable_leaves_store_empty nullEntryCodec emptyCache.path
      (cacheFileOnly invalidDocument) (Or.inr ⟨invalidDocument, rfl, by decide⟩),
   load_undecodable_leaves_store_empty nullEntryCodec emptyCache.path emptyFileSystem
      (Or.inl rfl)⟩

/-! ## Persistence before return -/

theorem filterMap_toCall_map_call (l : List Call) :
    (l.map Event.call).filterMap Event.toCall = l := by
  induction l with
  | nil => rfl
  | cons c rest ih => simp [Event.toCall, List.filterMap_cons, ih]

theorem filterMap_toSet_map_call (l : List Call) :
    (l.map Event.call).filterMap Event.toSet = [] := by
  induction l with
  | nil => rfl
  | cons c rest ih => simp [Event.toSet, List.filterMap_cons, ih]

theorem filterMap_toOutput_map_call (l : List Call) :
    (l.map Event.call).filterMap Event.toOutput = [] := by
  induction l with
  | nil => rfl
  | cons c rest ih => simp [Event.toOutput, List.filterMap_cons, ih]

/-- The steps of the response are its building and, when the encoding
succeeds, the write that the run records as its output. -/
theorem respondEvents_eq (w : World) (request : TypeMeta) (token : TokenInfo)
    (calls : List Call) (sets : List SetCall) (cache : TokenCache) (fs : FileSystem) :
    handleExecCredential.respondEvents w request token =
      Event.build { TypeMeta := request,
                    Status := { Token := token.AccessToken,
                                ExpirationTimestamp := token.Expiry } } ::
        (handleExecCredential.respond w request token calls sets cache fs).output.toList.map
          Event.write := by
  unfold handleExecCredential.respondEvents handleExecCredential.respond
  cases w.encode <;> rfl

/-- The response written is the one built from the token. -/
theorem respond_output_eq (w : World) (request : TypeMeta) (token : TokenInfo)
    (calls : List Call) (sets : List SetCall) (cache : TokenCache) (fs : FileSystem)
    (r : ExecCredential)
    (h : (handleExecCredential.respond w request token calls sets cache fs).output
      = some (.response r)) :
    r = { TypeMeta := request,
          Status := { Token := token.AccessToken, ExpirationTimestamp := token.Expiry } } := by
  unfold handleExecCredential.respond at h
  cases hen : w.encode with
  | some err => rw [hen] at h; cases h
  | none =>
    rw [hen] at h
    cases h
    rfl

/-- The steps of the cache check are its driver calls followed by its `Set`
calls, each `Set` leaving the state the cache check ends in. -/
theorem checkCacheEvents_eq (w : World) (cfg : Config) (tokenCache : TokenCache)
    (fs : FileSystem) :
    handleExecCredential.checkCacheEvents w cfg tokenCache fs =
      (handleExecCredential.checkCache w cfg tokenCache fs).calls.map Event.call ++
        (handleExecCredential.checkCache w cfg tokenCache fs).sets.map (fun s =>
          Event.set s.1 s.2.1 s.2.2 (handleExecCredential.checkCache w cfg tokenCache fs).cache
            (handleExecCredential.checkCache w cfg tokenCache fs).fs) := by
  unfold handleExecCredential.checkCacheEvents handleExecCredential.checkCache
  cases tokenCache.Get cfg.IssuerURL cfg.ClientID with
  | none => rfl
  | some cached =>
    simp only []
    by_cases h1 : timeUntil w.now cached.Expiry > 5 * Minute
    · simp only [if_pos h1]
      rfl
    · simp only [if_neg h1]
      by_cases h2 : cached.RefreshToken ≠ ""
      · simp only [if_pos h2]
        cases w.drivers.RefreshToken cached.RefreshToken <;> rfl
      · simp only [if_neg h2]
        rfl

theorem handleExecCredential_events_of_token (w : World) (request : TypeMeta) (cfg : Config)
    (tokenCache : TokenCache) (fs : FileSystem) (s : CacheCheck) (token : TokenInfo)
    (hs : handleExecCredential.checkCache w cfg tokenCache fs = s) (ht : s.token = some token) :
    handleExecCredential.events w request cfg tokenCache fs =
      s.calls.map Event.call ++ s.sets.map (fun c => Event.set c.1 c.2.1 c.2.2 s.cache s.fs) ++
        handleExecCredential.respondEvents w request token := by
  unfold handleExecCredential.events
  rw [checkCacheEvents_eq]
  simp only [hs, ht]

theorem handleExecCredential_events_authenticate_failed (w : World) (request : TypeMeta)
    (cfg : Config) (tokenCache : TokenCache) (fs : FileSystem) (s : CacheCheck) (e : Error)
    (trace : List Call)
    (hs : handleExecCredential.checkCache w cfg tokenCache fs = s) (ht : s.token = none)
    (ha : Authenticate cfg w.drivers = (.error e, trace)) :
    handleExecCredential.events w request cfg tokenCache fs =
      s.calls.map Event.call ++ s.sets.map (fun c => Event.set c.1 c.2.1 c.2.2 s.cache s.fs) ++
        (Call.Authenticate :: trace).map Event.call := by
  unfold handleExecCredential.events
  rw [checkCacheEvents_eq]
  simp only [hs, ht, ha]

theorem handleExecCredential_events_authenticated (w : World) (request : TypeMeta)
    (cfg : Config) (tokenCache : TokenCache) (fs : FileSystem) (s : CacheCheck)
    (token : TokenInfo) (trace : List Call)
    (hs : handleExecCredential.checkCache w cfg tokenCache fs = s) (ht : s.token = none)
    (ha : Authenticate cfg w.drivers = (.ok token, trace)) :
    handleExecCredential.events w request cfg tokenCache fs =
      s.calls.map Event.call ++ s.sets.map (fun c => Event.set c.1 c.2.1 c.2.2 s.cache s.fs) ++
        (Call.Authenticate :: trace).map Event.call ++
        Event.set cfg.IssuerURL cfg.ClientID token
            (s.cache.Set w.codec w.saveOutcome s.fs cfg.IssuerURL cfg.ClientID token).1
            (s.cache.Set w.codec w.saveOutcome s.fs cfg.IssuerURL cfg.ClientID token).2 ::
          handleExecCredential.respondEvents w request token := by
  unfold handleExecCredential.events
  rw [checkCacheEvents_eq]
  simp only [hs, ht, ha]

theorem runLogin_events_fresh (w : World) (cfg : Config) (cache : TokenCache) (fs : FileSystem)
    (cached : TokenInfo) (hget : cache.Get cfg.IssuerURL cfg.ClientID = some cached)
    (hfresh : 5 * Minute < cached.Expiry - w.now) :
    runLogin.events w cfg cache fs = [Event.write .usingCachedToken] := by
  have h := (timeUntil_gt_five_minutes w.now cached.Expiry).2 hfresh
  simp only [runLogin.events, hget]
  rw [if_pos h]

theorem runLogin_events_refreshed (w : World) (cfg : Config) (cache : TokenCache)
    (fs : FileSystem) (cached refreshed : TokenInfo)
    (hget : cache.Get cfg.IssuerURL cfg.ClientID = some cached)
    (hstale : ¬ 5 * Minute < cached.Expiry - w.now) (hrt : cached.RefreshToken ≠ "")
    (hok : w.drivers.RefreshToken cached.RefreshToken = .ok refreshed) :
    runLogin.events w cfg cache fs =
      [Event.call (.RefreshToken cached.RefreshToken),
        Event.set cfg.IssuerURL cfg.ClientID refreshed
          (cache.Set w.codec w.saveOutcome fs cfg.IssuerURL cfg.ClientID refreshed).1
          (cache.Set w.codec w.saveOutcome fs cfg.IssuerURL cfg.ClientID refreshed).2,
        Event.write .tokenRefreshed] := by
  have h : ¬ timeUntil w.now cached.Expiry > 5 * Minute :=
    fun h => hstale ((timeUntil_gt_five_minutes w.now cached.Expiry).1 h)
  simp only [runLogin.events, hget]
  rw [if_neg h, if_pos hrt, hok]

/-- The steps of `runLogin` when its cache check ends without a token: the
driver calls of the cache check, then the steps of the full flow. -/
theorem runLogin_events_of_no_token (w : World) (cfg : Config) (cache : TokenCache)
    (fs : FileSystem) (h : (handleExecCredential.checkCache w cfg cache fs).token = none) :
    runLogin.events w cfg cache fs =
      (handleExecCredential.checkCache w cfg cache fs).calls.map Event.call ++
        runLogin.authenticateEvents w cfg cache fs := by
  unfold runLogin.events
  unfold handleExecCredential.checkCache at h ⊢
  cases hget : cache.Get cfg.IssuerURL cfg.ClientID with
  | none => rfl
  | some cached =>
    rw [hget] at h
    simp only [] at h ⊢
    by_cases h1 : timeUntil w.now cached.Expiry > 5 * Minute
    · rw [if_pos h1] at h
      cases h
    · rw [if_neg h1] at h
      simp only [if_neg h1]
      by_cases h2 : cached.RefreshToken ≠ ""
      · rw [if_pos h2] at h
        simp only [if_pos h2]
        cases hr : w.drivers.RefreshToken cached.RefreshToken with
        | error e => rfl
        | ok refreshed =>
          rw [hr] at h
          cases h
      · simp only [if_neg h2]
        rfl

theorem authenticateEvents_authenticated (w : World) (cfg : Config) (cache : TokenCache)
    (fs : FileSystem) (token : TokenInfo) (trace : List Call)
    (ha : Authenticate cfg w.drivers = (.ok token, trace)) :
    runLogin.authenticateEvents w cfg cache fs =
      (Call.Authenticate :: trace).map Event.call ++
        [Event.set cfg.IssuerURL cfg.ClientID token
            (cache.Set w.codec w.saveOutcome fs cfg.IssuerURL cfg.ClientID token).1
            (cache.Set w.codec w.saveOutcome fs cfg.IssuerURL cfg.ClientID token).2,
          Event.write .successfullyAuthenticated] := by
  simp only [runLogin.authenticateEvents, ha]

theorem authenticateEvents_failed (w : World) (cfg : Config) (cache : TokenCache)
    (fs : FileSystem) (e : Error) (trace : List Call)
    (ha : Authenticate cfg w.drivers = (.error e, trace)) :
    runLogin.authenticateEvents w cfg cache fs = (Call.Authenticate :: trace).map Event.call := by
  simp only [runLogin.authenticateEvents, ha]

/-- What the file system holds after a `Set` whose `save` completes: the cache
file is the marshalled form of the store that holds the record, and a fresh
store that loads it returns the record when the JSON library decodes what it
encoded. -/
theorem Set_persists (codec : JSONCodec) (o : SaveOutcome) (c : TokenCache) (fs : FileSystem)
    (issuerURL clientID : String) (token : TokenInfo)
    (h : (c.Set codec o fs issuerURL clientID token).1.saveCompletes codec o = true) :
    ∃ data,
      codec.marshalIndent (saveCacheData (c.Set codec o fs issuerURL clientID token).1.tokens)
        = some data ∧
      (c.Set codec o fs issuerURL clientID token).2
        (c.Set codec o fs issuerURL clientID token).1.path = some data ∧
      (codec.RoundTrips →
        ∃ fresh, NewTokenCache codec (c.Set codec o fs issuerURL clientID token).1.path
            (c.Set codec o fs issuerURL clientID token).2 = .ok fresh ∧
          fresh.Get issuerURL clientID = some token) := by
  obtain ⟨data, hdata, hfile⟩ := save_completes_file codec o _ fs h
  refine ⟨data, hdata, hfile, fun hcodec => ?_⟩
  obtain ⟨fresh, hok, _, hidx⟩ := load_marshalled codec hcodec _ _ _ data hdata hfile
  refine ⟨fresh, hok, ?_⟩
  show fresh.tokens.index _ = _
  rw [hidx]
  exact Get_Set_same codec o c fs issuerURL clientID token

theorem respondEvents_project (w : World) (request : TypeMeta) (token : TokenInfo)
    (calls : List Call) (sets : List SetCall) (cache : TokenCache) (fs : FileSystem) :
    (handleExecCredential.respondEvents w request token).filterMap Event.toCall = [] ∧
    (handleExecCredential.respondEvents w request token).filterMap Event.toSet = [] ∧
    (handleExecCredential.respondEvents w request token).filterMap Event.toOutput =
      (handleExecCredential.respond w request token calls sets cache fs).output.toList := by
  unfold handleExecCredential.respondEvents handleExecCredential.respond
  cases w.encode <;> exact ⟨rfl, rfl, rfl⟩

/-- A run of `handleExecCredential` that calls `Set(issuer, client, t)` once,
after its driver calls, and then responds. -/
theorem handleExecCredential_set_then_respond (w : World) (request : TypeMeta) (cfg : Config)
    (tokenCache : TokenCache) (fs : FileSystem) (t : TokenInfo) (calls : List Call)
    (hrun : handleExecCredential w request cfg tokenCache fs =
      handleExecCredential.respond w request t calls [(cfg.IssuerURL, cfg.ClientID, t)]
        (tokenCache.Set w.codec w.saveOutcome fs cfg.IssuerURL cfg.ClientID t).1
        (tokenCache.Set w.codec w.saveOutcome fs cfg.IssuerURL cfg.ClientID t).2)
    (hev : handleExecCredential.events w request cfg tokenCache fs =
      calls.map Event.call ++
        Event.set cfg.IssuerURL cfg.ClientID t
            (tokenCache.Set w.codec w.saveOutcome fs cfg.IssuerURL cfg.ClientID t).1
            (tokenCache.Set w.codec w.saveOutcome fs cfg.IssuerURL cfg.ClientID t).2 ::
          handleExecCredential.respondEvents w request t) :
    (handleExecCredential w request cfg tokenCache fs).sets
      = [(cfg.IssuerURL, cfg.ClientID, t)] ∧
    ((handleExecCredential w request cfg tokenCache fs).cache,
      (handleExecCredential w request cfg tokenCache fs).fs)
      = tokenCache.Set w.codec w.saveOutcome fs cfg.IssuerURL cfg.ClientID t ∧
    handleExecCredential.events w request cfg tokenCache fs =
      (handleExecCredential w request cfg tokenCache fs).calls.map Event.call ++
        Event.set cfg.IssuerURL cfg.ClientID t
            (handleExecCredential w request cfg tokenCache fs).cache
            (handleExecCredential w request cfg tokenCache fs).fs ::
          Event.build { TypeMeta := request,
                        Status := { Token := t.AccessToken, ExpirationTimestamp := t.Expiry } } ::
            (handleExecCredential w request cfg tokenCache fs).output.toList.map Event.write := by
  rw [hev, hrun, respond_sets, respond_cache, respond_fs, respond_calls]
  exact ⟨rfl, rfl, by rw [respondEvents_eq]⟩

/-- A run of `runLogin` that calls `Set(issuer, client, t)` once, after its
driver calls, and then prints a message. -/
theorem runLogin_set_then_report (w : World) (cfg : Config) (cache : TokenCache)
    (fs : FileSystem) (t : TokenInfo) (calls : List Call) (o : Output)
    (hrun : runLogin w cfg cache fs =
      { err := none, token := some t, output := some o, calls := calls,
        sets := [(cfg.IssuerURL, cfg.ClientID, t)],
        cache := (cache.Set w.codec w.saveOutcome fs cfg.IssuerURL cfg.ClientID t).1,
        fs := (cache.Set w.codec w.saveOutcome fs cfg.IssuerURL cfg.ClientID t).2 })
    (hev : runLogin.events w cfg cache fs =
      calls.map Event.call ++
        [Event.set cfg.IssuerURL cfg.ClientID t
            (cache.Set w.codec w.saveOutcome fs cfg.IssuerURL cfg.ClientID t).1
            (cache.Set w.codec w.saveOutcome fs cfg.IssuerURL cfg.ClientID t).2,
          Event.write o]) :
    (runLogin w cfg cache fs).sets = [(cfg.IssuerURL, cfg.ClientID, t)] ∧
    ((runLogin w cfg cache fs).cache, (runLogin w cfg cache fs).fs)
      = cache.Set w.codec w.saveOutcome fs cfg.IssuerURL cfg.ClientID t ∧
    runLogin.events w cfg cache fs =
      (runLogin w cfg cache fs).calls.map Event.call ++
        Event.set cfg.IssuerURL cfg.ClientID t (runLogin w cfg cache fs).cache
            (runLogin w cfg cache fs).fs ::
          (runLogin w cfg cache fs).output.toList.map Event.write := by
  rw [hev, hrun]
  exact ⟨rfl, rfl, rfl⟩

/-- The steps of both entry points, case by case, next to their runs. -/
theorem entry_points_events_cases (w : World) (request : TypeMeta) (cfg : Config)
    (tokenCache : TokenCache) (fs : FileSystem) :
    (∃ cached, tokenCache.Get cfg.IssuerURL cfg.ClientID = some cached ∧
      handleExecCredential w request cfg tokenCache fs =
        handleExecCredential.respond w request cached [] [] tokenCache fs ∧
      handleExecCredential.events w request cfg tokenCache fs =
        handleExecCredential.respondEvents w request cached ∧
      runLogin w cfg tokenCache fs =
        { err := none, token := some cached, output := some .usingCachedToken, calls := [],
          sets := [], cache := tokenCache, fs := fs } ∧
      runLogin.events w cfg tokenCache fs = [Event.write .usingCachedToken]) ∨
    (∃ (t : TokenInfo) (calls : List Call) (o : Output), calls ≠ [] ∧
      handleExecCredential w request cfg tokenCache fs =
        handleExecCredential.respond w request t calls [(cfg.IssuerURL, cfg.ClientID, t)]
          (tokenCache.Set w.codec w.saveOutcome fs cfg.IssuerURL cfg.ClientID t).1
          (tokenCache.Set w.codec w.saveOutcome fs cfg.IssuerURL cfg.ClientID t).2 ∧
      handleExecCredential.events w request cfg tokenCache fs =
        calls.map Event.call ++
          Event.set cfg.IssuerURL cfg.ClientID t
              (tokenCache.Set w.codec w.saveOutcome fs cfg.IssuerURL cfg.ClientID t).1
              (tokenCache.Set w.codec w.saveOutcome fs cfg.IssuerURL cfg.ClientID t).2 ::
            handleExecCredential.respondEvents w request t ∧
      runLogin w cfg tokenCache fs =
        { err := none, token := some t, output := some o, calls := calls,
          sets := [(cfg.IssuerURL, cfg.ClientID, t)],
          cache := (tokenCache.Set w.codec w.saveOutcome fs cfg.IssuerURL cfg.ClientID t).1,
          fs := (tokenCache.Set w.codec w.saveOutcome fs cfg.IssuerURL cfg.ClientID t).2 } ∧
      runLogin.events w cfg tokenCache fs =
        calls.map Event.call ++
          [Event.set cfg.IssuerURL cfg.ClientID t
              (tokenCache.Set w.codec w.saveOutcome fs cfg.IssuerURL cfg.ClientID t).1
              (tokenCache.Set w.codec w.saveOutcome fs cfg.IssuerURL cfg.ClientID t).2,
            Event.write o]) ∨
    (∃ (e : Error) (calls : List Call),
      handleExecCredential w request cfg tokenCache fs =
        { err := some ("authentication failed: " ++ e), token := none, output := none,
          calls := calls, sets := [], cache := tokenCache, fs := fs } ∧
      handleExecCredential.events w request cfg tokenCache fs = calls.map Event.call ∧
      runLogin w cfg tokenCache fs =
        { err := some ("authentication failed: " ++ e), token := none, output := none,
          calls := calls, sets := [], cache := tokenCache, fs := fs } ∧
      runLogin.events w cfg tokenCache fs = calls.map Event.call) := by
  rcases entry_points_cases w request cfg tokenCache fs with
    ⟨cached, hget, hfresh, hexec, hlogin⟩ |
    ⟨cached, refreshed, hget, hstale, hrt, hok, hexec, hlogin⟩ |
    ⟨before, _, hs, hlogin⟩
  · refine Or.inl ⟨cached, hget, hexec, ?_, hlogin,
      runLogin_events_fresh w cfg tokenCache fs cached hget hfresh⟩
    rw [handleExecCredential_events_of_token w request cfg tokenCache fs _ cached
      (checkCache_fresh w cfg tokenCache fs cached hget hfresh) rfl]
    rfl
  · refine Or.inr (Or.inl ⟨refreshed, [.RefreshToken cached.RefreshToken], .tokenRefreshed,
      List.cons_ne_nil _ _, hexec, ?_, hlogin,
      runLogin_events_refreshed w cfg tokenCache fs cached refreshed hget hstale hrt hok⟩)
    rw [handleExecCredential_events_of_token w request cfg tokenCache fs _ refreshed
      (checkCache_refreshed w cfg tokenCache fs cached refreshed hget hstale hrt hok) rfl]
    rfl
  · have htoken : (handleExecCredential.checkCache w cfg tokenCache fs).token = none := by
      rw [hs]
    have hcalls : (handleExecCredential.checkCache w cfg tokenCache fs).calls = before := by
      rw [hs]
    have hevl := runLogin_events_of_no_token w cfg tokenCache fs htoken
    rw [hcalls] at hevl
    rcases ha : Authenticate cfg w.drivers with ⟨res, trace⟩
    cases res with
    | error e =>
      refine Or.inr (Or.inr ⟨e, before ++ Call.Authenticate :: trace, ?_, ?_, ?_, ?_⟩)
      · exact handleExecCredential_authenticate_failed w request cfg tokenCache fs _ e trace
          hs rfl ha
      · rw [handleExecCredential_events_authenticate_failed w request cfg tokenCache fs _ e trace
          hs rfl ha]
        simp only [List.map_nil, List.append_nil, List.map_append]
      · rw [hlogin]
        exact runLogin_authenticate_failed w cfg tokenCache fs _ e trace ha
      · rw [hevl, authenticateEvents_failed w cfg tokenCache fs e trace ha]
        simp only [List.map_append]
    | ok token =>
      refine Or.inr (Or.inl ⟨token, before ++ Call.Authenticate :: trace,
        .successfullyAuthenticated, by simp, ?_, ?_, ?_, ?_⟩)
      · exact handleExecCredential_authenticated w request cfg tokenCache fs _ token trace
          hs rfl ha
      · rw [handleExecCredential_events_authenticated w request cfg tokenCache fs _ token trace
          hs rfl ha]
        simp only [List.map_nil, List.append_nil, List.map_append]
      · rw [hlogin]
        exact runLogin_authenticated w cfg tokenCache fs _ token trace ha
      · rw [hevl, authenticateEvents_authenticated w cfg tokenCache fs token trace ha]
        simp only [List.map_append, List.append_assoc]

/-- The steps of each entry point are those its run records: the same driver
calls, the same `Set` calls and the same output, in the same order. -/
theorem entry_points_events_project (w : World) (request : TypeMeta) (cfg : Config)
    (tokenCache : TokenCache) (fs : FileSystem) :
    ((handleExecCredential.events w request cfg tokenCache fs).filterMap Event.toCall
        = (handleExecCredential w request cfg tokenCache fs).calls ∧
      (handleExecCredential.events w request cfg tokenCache fs).filterMap Event.toSet
        = (handleExecCredential w request cfg tokenCache fs).sets ∧
      (handleExecCredential.events w request cfg tokenCache fs).filterMap Event.toOutput
        = (handleExecCredential w request cfg tokenCache fs).output.toList) ∧
    ((runLogin.events w cfg tokenCache fs).filterMap Event.toCall
        = (runLogin w cfg tokenCache fs).calls ∧
      (runLogin.events w cfg tokenCache fs).filterMap Event.toSet
        = (runLogin w cfg tokenCache fs).sets ∧
      (runLogin.events w cfg tokenCache fs).filterMap Event.toOutput
        = (runLogin w cfg tokenCache fs).output.toList) := by
  rcases entry_points_events_cases w request cfg tokenCache fs with
    ⟨cached, _, hexec, hev, hlogin, hevl⟩ | ⟨t, calls, o, _, hexec, hev, hlogin, hevl⟩ |
    ⟨e, calls, hexec, hev, hlogin, hevl⟩
  · rw [hexec, hev, hlogin, hevl, respond_calls, respond_sets]
    exact ⟨respondEvents_project w request cached [] [] tokenCache fs, rfl, rfl, rfl⟩
  · rw [hexec, hev, hlogin, hevl, respond_calls, respond_sets]
    obtain ⟨h1, h2, h3⟩ := respondEvents_project w request t calls
      [(cfg.IssuerURL, cfg.ClientID, t)]
      (tokenCache.Set w.codec w.saveOutcome fs cfg.IssuerURL cfg.ClientID t).1
      (tokenCache.Set w.codec w.saveOutcome fs cfg.IssuerURL cfg.ClientID t).2
    refine ⟨⟨?_, ?_, ?_⟩, ?_, ?_, ?_⟩
    · rw [List.filterMap_append, filterMap_toCall_map_call, List.filterMap_cons]
      simp only [Event.toCall, h1, List.append_nil]
    · rw [List.filterMap_append, filterMap_toSet_map_call, List.filterMap_cons]
      simp only [Event.toSet, h2, List.nil_append]
    · rw [List.filterMap_append, filterMap_toOutput_map_call, List.filterMap_cons]
      simp only [Event.toOutput, h3, List.nil_append]
    · rw [List.filterMap_append, filterMap_toCall_map_call]
      exact List.append_nil _
    · rw [List.filterMap_append, filterMap_toSet_map_call]
      rfl
    · rw [List.filterMap_append, filterMap_toOutput_map_call]
      rfl
  · rw [hexec, hev, hlogin, hevl]
    exact ⟨⟨filterMap_toCall_map_call _, filterMap_toSet_map_call _,
      filterMap_toOutput_map_call _⟩, filterMap_toCall_map_call _, filterMap_toSet_map_call _,
      filterMap_toOutput_map_call _⟩

/-- C17, amended. Whenever an entry point ends with a token `t`, the store it
leaves returns `t` for `Get(issuer, client)`, and the response that
`handleExecCredential` writes is the one built from `t`. When `t` came from a
driver (a refresh or a full flow), the steps of the run, in order, are its
driver calls, then the one call `Set(issuer, client, t)`, then the building of
the response and the write to standard output: `Set` has returned before `t`
is used, and the store and file system it left are the ones the run ends
with. The cache file holds `t` at that moment when every step of the `save`
of that `Set` succeeded (directory creation, marshalling, the temporary write,
the rename): the file is then the marshalled store, and a fresh store loading
it returns `t` when the JSON library decodes what it encoded. The steps agree
with what the run records as calls, `Set` calls and output. -/
theorem returned_token_set_before_response (w : World) (request : TypeMeta) (cfg : Config)
    (tokenCache : TokenCache) (fs : FileSystem) (t : TokenInfo) :
    ((handleExecCredential w request cfg tokenCache fs).token = some t →
      (handleExecCredential w request cfg tokenCache fs).cache.Get cfg.IssuerURL cfg.ClientID
        = some t ∧
      (∀ r, (handleExecCredential w request cfg tokenCache fs).output = some (.response r) →
        r = { TypeMeta := request,
              Status := { Token := t.AccessToken, ExpirationTimestamp := t.Expiry } }) ∧
      ((handleExecCredential w request cfg tokenCache fs).calls ≠ [] →
        (handleExecCredential w request cfg tokenCache fs).sets
          = [(cfg.IssuerURL, cfg.ClientID, t)] ∧
        ((handleExecCredential w request cfg tokenCache fs).cache,
          (handleExecCredential w request cfg tokenCache fs).fs)
          = tokenCache.Set w.codec w.saveOutcome fs cfg.IssuerURL cfg.ClientID t ∧
        handleExecCredential.events w request cfg tokenCache fs =
          (handleExecCredential w request cfg tokenCache fs).calls.map Event.call ++
            Event.set cfg.IssuerURL cfg.ClientID t
                (handleExecCredential w request cfg tokenCache fs).cache
                (handleExecCredential w request cfg tokenCache fs).fs ::
              Event.build { TypeMeta := request,
                            Status := { Token := t.AccessToken,
                                        ExpirationTimestamp := t.Expiry } } ::
                (handleExecCredential w request cfg tokenCache fs).output.toList.map
                  Event.write ∧
        ((handleExecCredential w request cfg tokenCache fs).cache.saveCompletes w.codec
            w.saveOutcome = true →
          ∃ data,
            w.codec.marshalIndent
              (saveCacheData (handleExecCredential w request cfg tokenCache fs).cache.tokens)
              = some data ∧
            (handleExecCredential w request cfg tokenCache fs).fs
              (handleExecCredential w request cfg tokenCache fs).cache.path = some data ∧
            (w.codec.RoundTrips →
              ∃ fresh, NewTokenCache w.codec
                  (handleExecCredential w request cfg tokenCache fs).cache.path
                  (handleExecCredential w request cfg tokenCache fs).fs = .ok fresh ∧
                fresh.Get cfg.IssuerURL cfg.ClientID = some t)))) ∧
    ((runLogin w cfg tokenCache fs).token = some t →
      (runLogin w cfg tokenCache fs).cache.Get cfg.IssuerURL cfg.ClientID = some t ∧
      ((runLogin w cfg tokenCache fs).calls ≠ [] →
        (runLogin w cfg tokenCache fs).sets = [(cfg.IssuerURL, cfg.ClientID, t)] ∧
        ((runLogin w cfg tokenCache fs).cache, (runLogin w cfg tokenCache fs).fs)
          = tokenCache.Set w.codec w.saveOutcome fs cfg.IssuerURL cfg.ClientID t ∧
        runLogin.events w cfg tokenCache fs =
          (runLogin w cfg tokenCache fs).calls.map Event.call ++
            Event.set cfg.IssuerURL cfg.ClientID t (runLogin w cfg tokenCache fs).cache
                (runLogin w cfg tokenCache fs).fs ::
              (runLogin w cfg tokenCache fs).output.toList.map Event.write ∧
        ((runLogin w cfg tokenCache fs).cache.saveCompletes w.codec w.saveOutcome = true →
          ∃ data,
            w.codec.marshalIndent (saveCacheData (runLogin w cfg tokenCache fs).cache.tokens)
              = some data ∧
            (runLogin w cfg tokenCache fs).fs (runLogin w cfg tokenCache fs).cache.path
              = some data ∧
            (w.codec.RoundTrips →
              ∃ fresh, NewTokenCache w.codec (runLogin w cfg tokenCache fs).cache.path
                  (runLogin w cfg tokenCache fs).fs = .ok fresh ∧
                fresh.Get cfg.IssuerURL cfg.ClientID = some t)))) ∧
    ((handleExecCredential.events w request cfg tokenCache fs).filterMap Event.toCall
        = (handleExecCredential w request cfg tokenCache fs).calls ∧
      (handleExecCredential.events w request cfg tokenCache fs).filterMap Event.toSet
        = (handleExecCredential w request cfg tokenCache fs).sets ∧
      (handleExecCredential.events w request cfg tokenCache fs).filterMap Event.toOutput
        = (handleExecCredential w request cfg tokenCache fs).output.toList) ∧
    ((runLogin.events w cfg tokenCache fs).filterMap Event.toCall
        = (runLogin w cfg tokenCache fs).calls ∧
      (runLogin.events w cfg tokenCache fs).filterMap Event.toSet
        = (runLogin w cfg tokenCache fs).sets ∧
      (runLogin.events w cfg tokenCache fs).filterMap Event.toOutput
        = (runLogin w cfg tokenCache fs).output.toList) := by
  refine ⟨?_, ?_, (entry_points_events_project w request cfg tokenCache fs).1,
    (entry_points_events_project w request cfg tokenCache fs).2⟩
  · intro ht
    rcases entry_points_events_cases w request cfg tokenCache fs with
      ⟨cached, hget, hexec, _, _, _⟩ | ⟨t1, calls, o, hne, hexec, hev, _, _⟩ |
      ⟨e, calls, hexec, _, _, _⟩
    · have ht1 := ht
      rw [hexec, respond_token] at ht1
      cases ht1
      refine ⟨?_, ?_, ?_⟩
      · rw [hexec, respond_cache]
        exact hget
      · intro r hr
        rw [hexec] at hr
        exact respond_output_eq w request _ _ _ _ _ r hr
      · intro hcalls
        rw [hexec, respond_calls] at hcalls
        exact absurd rfl hcalls
    · have ht1 := ht
      rw [hexec, respond_token] at ht1
      cases ht1
      obtain ⟨hsets, hstate, hevents⟩ :=
        handleExecCredential_set_then_respond w request cfg tokenCache fs _ calls hexec hev
      have hcache := congrArg Prod.fst hstate
      have hfs := congrArg Prod.snd hstate
      simp only at hcache hfs
      refine ⟨?_, ?_, fun _ => ⟨hsets, hstate, hevents, ?_⟩⟩
      · rw [hcache]
        exact Get_Set_same w.codec w.saveOutcome tokenCache fs cfg.IssuerURL cfg.ClientID _
      · intro r hr
        rw [hexec] at hr
        exact respond_output_eq w request _ _ _ _ _ r hr
      · rw [hcache, hfs]
        exact Set_persists w.codec w.saveOutcome tokenCache fs cfg.IssuerURL cfg.ClientID _
    · rw [hexec] at ht
      cases ht
  · intro ht
    rcases entry_points_events_cases w request cfg tokenCache fs with
      ⟨cached, hget, _, _, hlogin, _⟩ | ⟨t1, calls, o, hne, _, _, hlogin, hevl⟩ |
      ⟨e, calls, _, _, hlogin, _⟩
    · have ht1 := ht
      rw [hlogin] at ht1
      cases ht1
      refine ⟨?_, ?_⟩
      · rw [hlogin]
        exact hget
      · intro hcalls
        rw [hlogin] at hcalls
        exact absurd rfl hcalls
    · have ht1 := ht
      rw [hlogin] at ht1
      cases ht1
      obtain ⟨hsets, hstate, hevents⟩ :=
        runLogin_set_then_report w cfg tokenCache fs _ calls o hlogin hevl
      have hcache := congrArg Prod.fst hstate
      have hfs := congrArg Prod.snd hstate
      simp only at hcache hfs
      refine ⟨?_, fun _ => ⟨hsets, hstate, hevents, ?_⟩⟩
      · rw [hcache]
        exact Get_Set_same w.codec w.saveOutcome tokenCache fs cfg.IssuerURL cfg.ClientID _
      · rw [hcache, hfs]
        exact Set_persists w.codec w.saveOutcome tokenCache fs cfg.IssuerURL cfg.ClientID _
    · rw [hlogin] at ht
      cases ht

/-- C17, amended, on an empty store with no cache file and a provider that
completes the browser flow with `recordA`, every step of the `save`
succeeding: when `handleExecCredential` returns, a fresh store with the same
path returns `recordA`. -/
theorem returned_token_set_before_response_witness :
    (handleExecCredential (persistingWorld (exampleDrivers recordA))
      { Kind := "ExecCredential", APIVersion := "client.authentication.k8s.io/v1beta1" }
      exampleConfig emptyCache emptyFileSystem).token = some recordA ∧
    (handleExecCredential (persistingWorld (exampleDrivers recordA))
      { Kind := "ExecCredential", APIVersion := "client.authentication.k8s.io/v1beta1" }
      exampleConfig emptyCache emptyFileSystem).calls ≠ [] ∧
    (handleExecCredential (persistingWorld (exampleDrivers recordA))
      { Kind := "ExecCredential", APIVersion := "client.authentication.k8s.io/v1beta1" }
      exampleConfig emptyCache emptyFileSystem).cache.saveCompletes exampleCodec
        { mkdirAll := true, writeFile := .ok, rename := true } = true ∧
    ∃ fresh, NewTokenCache exampleCodec
        (handleExecCredential (persistingWorld (exampleDrivers recordA))
          { Kind := "ExecCredential", APIVersion := "client.authentication.k8s.io/v1beta1" }
          exampleConfig emptyCache emptyFileSystem).cache.path
        (handleExecCredential (persistingWorld (exampleDrivers recordA))
          { Kind := "ExecCredential", APIVersion := "client.authentication.k8s.io/v1beta1" }
          exampleConfig emptyCache emptyFileSystem).fs = .ok fresh ∧
      fresh.Get "https://issuer.example" "client-a" = some recordA := by
  have ht : (handleExecCredential (persistingWorld (exampleDrivers recordA))
      { Kind := "ExecCredential", APIVersion := "client.authentication.k8s.io/v1beta1" }
      exampleConfig emptyCache emptyFileSystem).token = some recordA := by decide
  have hc : (handleExecCredential (persistingWorld (exampleDrivers recordA))
      { Kind := "ExecCredential", APIVersion := "client.authentication.k8s.io/v1beta1" }
      exampleConfig emptyCache emptyFileSystem).calls ≠ [] := by decide
  have hs : (handleExecCredential (persistingWorld (exampleDrivers recordA))
      { Kind := "ExecCredential", APIVersion := "client.authentication.k8s.io/v1beta1" }
      exampleConfig emptyCache emptyFileSystem).cache.saveCompletes exampleCodec
        { mkdirAll := true, writeFile := .ok, rename := true } = true := by decide
  obtain ⟨_, _, _, hfresh⟩ :=
    (((returned_token_set_before_response (persistingWorld (exampleDrivers recordA))
      { Kind := "ExecCredential", APIVersion := "client.authentication.k8s.io/v1beta1" }
      exampleConfig emptyCache emptyFileSystem recordA).1 ht).2.2 hc).2.2.2 hs
  exact ⟨ht, hc, hs, hfresh exampleCodec_roundTrips⟩

/-- C17 as stated fails where the cache directory cannot be created, on an
empty store with no cache file and a provider that completes the browser
flow with `recordA`. `handleExecCredential` returns nil and writes the
response built from `recordA`; its one `Set` call has returned, but its `save`
stopped at `os.MkdirAll`: there is no cache file, and a fresh store with the
same path returns nil for (issuer, client). -/
theorem returned_token_not_persisted_when_save_skipped :
    (handleExecCredential (readOnlyWorld (exampleDrivers recordA))
      { Kind := "ExecCredential", APIVersion := "client.authentication.k8s.io/v1beta1" }
      exampleConfig emptyCache emptyFileSystem).err = none ∧
    (handleExecCredential (readOnlyWorld (exampleDrivers recordA))
      { Kind := "ExecCredential", APIVersion := "client.authentication.k8s.io/v1beta1" }
      exampleConfig emptyCache emptyFileSystem).token = some recordA ∧
    (handleExecCredential (readOnlyWorld (exampleDrivers recordA))
      { Kind := "ExecCredential", APIVersion := "client.authentication.k8s.io/v1beta1" }
      exampleConfig emptyCache emptyFileSystem).output =
      some (.response
        { TypeMeta := { Kind := "ExecCredential",
                        APIVersion := "client.authentication.k8s.io/v1beta1" },
          Status := { Token := "access-a", ExpirationTimestamp := 3600000000000 } }) ∧
    (handleExecCredential (readOnlyWorld (exampleDrivers recordA))
      { Kind := "ExecCredential", APIVersion := "client.authentication.k8s.io/v1beta1" }
      exampleConfig emptyCache emptyFileSystem).sets =
      [("https://issuer.example", "client-a", recordA)] ∧
    (handleExecCredential (readOnlyWorld (exampleDrivers recordA))
      { Kind := "ExecCredential", APIVersion := "client.authentication.k8s.io/v1beta1" }
      exampleConfig emptyCache emptyFileSystem).fs
      "/home/user/.cache/kubectl-login/tokens.json" = none ∧
    ∃ fresh, NewTokenCache exampleCodec "/home/user/.cache/kubectl-login/tokens.json"
        (handleExecCredential (readOnlyWorld (exampleDrivers recordA))
          { Kind := "ExecCredential", APIVersion := "client.authentication.k8s.io/v1beta1" }
          exampleConfig emptyCache emptyFileSystem).fs = .ok fresh ∧
      fresh.Get "https://issuer.example" "client-a" = none :=
  ⟨by decide, by decide, by decide, by decide, by decide, _, rfl, by decide⟩

/-! ## Atomic replacement of the cache file -/

theorem getLast?_cons_append_singleton {α : Type} (a : α) (l : List α) (x : α) :
    (a :: (l ++ [x])).getLast? = some x := by
  rw [← List.cons_append]
  exact List.getLast?_concat _

theorem getLast?_cons_append_pair {α : Type} (a : α) (l : List α) (y x : α) :
    (a :: (l ++ [y, x])).getLast? = some x := by
  have h : a :: (l ++ [y, x]) = (a :: l ++ [y]) ++ [x] := by simp
  rw [h]
  exact List.getLast?_concat _

theorem path_ne_tmpPath (path : String) : path ≠ path ++ ".tmp" := by
  intro h
  have hlen := congrArg String.length h
  rw [String.length_append] at hlen
  have h4 : (".tmp" : String).length = 4 := by decide
  omega

/-- The write of the temporary file never touches another path. -/
theorem osWriteFileStates_other (o : WriteFileOutcome) (fs : FileSystem) (name : String)
    (data : Bytes) (p : String) (hp : p ≠ name) :
    ∀ fs1 ∈ osWriteFileStates o fs name data, fs1 p = fs p := by
  intro fs1 hmem
  unfold osWriteFileStates at hmem
  cases o with
  | ok =>
    obtain ⟨k, _, rfl⟩ := List.mem_map.1 hmem
    simp only [if_neg hp]
  | openFailed => cases hmem
  | truncated n =>
    obtain ⟨k, _, rfl⟩ := List.mem_map.1 hmem
    simp only [if_neg hp]

theorem osWriteFile_other (o : WriteFileOutcome) (fs : FileSystem) (name : String)
    (data : Bytes) (p : String) (hp : p ≠ name) :
    (osWriteFile o fs name data).1 p = fs p := by
  unfold osWriteFile
  cases o <;> simp only [if_neg hp]

theorem osWriteFile_ok (o : WriteFileOutcome) (fs : FileSystem) (name : String) (data : Bytes)
    (h : (osWriteFile o fs name data).2 = true) :
    (osWriteFile o fs name data).1 name = some data := by
  unfold osWriteFile at h ⊢
  cases o with
  | ok => simp
  | openFailed => cases h
  | truncated n => cases h

/-- C18: during one `save`, in every state the file system goes through (the
start, each stage of the write of the temporary file `path + ".tmp"`, the
state after the rename) and so wherever `save` stops, the destination file
holds either exactly what it held before `save` or exactly the complete
marshalled data; the last of these states is the one `save` leaves. -/
theorem save_never_leaves_partial_file (codec : JSONCodec) (o : SaveOutcome) (c : TokenCache)
    (fs : FileSystem) :
    (∀ fs1 ∈ c.saveStates codec o fs,
      fs1 c.path = fs c.path ∨
      ∃ data, codec.marshalIndent (saveCacheData c.tokens) = some data ∧
        fs1 c.path = some data) ∧
    (c.saveStates codec o fs).getLast? = some (c.save codec o fs) := by
  unfold TokenCache.saveStates TokenCache.save
  cases hmk : o.mkdirAll with
  | false =>
    simp only [Bool.not_false, if_true]
    exact ⟨fun fs1 h => Or.inl (by rw [List.mem_singleton.1 h]), rfl⟩
  | true =>
    simp only [Bool.not_true, Bool.false_eq_true, if_false]
    cases hdata : codec.marshalIndent (saveCacheData c.tokens) with
    | none => exact ⟨fun fs1 h => Or.inl (by rw [List.mem_singleton.1 h]), rfl⟩
    | some data =>
      have hne := path_ne_tmpPath c.path
      have hother := osWriteFileStates_other o.writeFile fs (c.path ++ ".tmp") data c.path hne
      have hfs1 := osWriteFile_other o.writeFile fs (c.path ++ ".tmp") data c.path hne
      rcases hw : osWriteFile o.writeFile fs (c.path ++ ".tmp") data with ⟨fs1, ok⟩
      rw [hw] at hfs1
      cases ok with
      | false =>
        simp only [hw]
        refine ⟨?_, getLast?_cons_append_singleton _ _ _⟩
        intro fs2 h
        rcases List.mem_cons.1 h with rfl | h
        · exact Or.inl rfl
        · rcases List.mem_append.1 h with h | h
          · exact Or.inl (hother fs2 h)
          · rw [List.mem_singleton.1 h]
            exact Or.inl hfs1
      | true =>
        have hok := osWriteFile_ok o.writeFile fs (c.path ++ ".tmp") data (by rw [hw])
        rw [hw] at hok
        have hok1 : fs1 (c.path ++ ".tmp") = some data := hok
        simp only [hw]
        refine ⟨?_, getLast?_cons_append_pair _ _ _ _⟩
        intro fs2 h
        rcases List.mem_cons.1 h with rfl | h
        · exact Or.inl rfl
        · rcases List.mem_append.1 h with h | h
          · exact Or.inl (hother fs2 h)
          · rcases List.mem_cons.1 h with rfl | h
            · exact Or.inl hfs1
            · rw [List.mem_singleton.1 h]
              unfold osRename
              cases o.rename with
              | false => exact Or.inl hfs1
              | true => exact Or.inr ⟨data, rfl, by simp [hok1]⟩

/-- C18 on a `save` whose write of the temporary file fails after 0 bytes:
the cache file still holds its previous content. -/
theorem save_never_leaves_partial_file_witness :
    (exampleCache recordA).save exampleCodec
        { mkdirAll := true, writeFile := .truncated 0, rename := true }
        (cacheFileOnly invalidDocument) (exampleCache recordA).path
      = cacheFileOnly invalidDocument (exampleCache recordA).path ∨
    ∃ data, exampleCodec.marshalIndent (saveCacheData (exampleCache recordA).tokens) = some data ∧
      (exampleCache recordA).save exampleCodec
        { mkdirAll := true, writeFile := .truncated 0, rename := true }
        (cacheFileOnly invalidDocument) (exampleCache recordA).path = some data :=
  (save_never_leaves_partial_file exampleCodec
    { mkdirAll := true, writeFile := .truncated 0, rename := true } (exampleCache recordA)
    (cacheFileOnly invalidDocument)).1 _
    (List.mem_of_mem_getLast? (save_never_leaves_partial_file exampleCodec
      { mkdirAll := true, writeFile := .truncated 0, rename := true } (exampleCache recordA)
      (cacheFileOnly invalidDocument)).2)

/-! ## Random strings and the PKCE code verifier -/

theorem base64Encode_length_padded (b : List UInt8) :
    (base64Encode (some '=') b).length = 4 * ((b.length + 2) / 3) := by
  induction b using base64Encode.induct (some '=') with
  | case1 a b c rest ih =>
    simp only [base64Encode, List.length_cons, ih]
    omega
  | case2 a b => simp [base64Encode]
  | case3 a => simp [base64Encode]
  | case4 => simp [base64Encode]

theorem base64Encode_length_raw (b : List UInt8) :
    (base64Encode none b).length = (4 * b.length + 2) / 3 := by
  induction b using base64Encode.induct none with
  | case1 a b c rest ih =>
    simp only [base64Encode, List.length_cons, ih]
    omega
  | case2 a b => simp [base64Encode]
  | case3 a => simp [base64Encode]
  | case4 => simp [base64Encode]

theorem base64Char_in_alphabet :
    ∀ i < 64, base64Char i ∈ encodeURL ∧ base64Char i ≠ '=' ∧
      (('A' ≤ base64Char i ∧ base64Char i ≤ 'Z') ∨ ('a' ≤ base64Char i ∧ base64Char i ≤ 'z') ∨
        ('0' ≤ base64Char i ∧ base64Char i ≤ '9') ∨ base64Char i = '-' ∨ base64Char i = '_') := by
  decide

theorem base64Encode_raw_chars (b : List UInt8) :
    ∀ ch ∈ base64Encode none b, ∃ i, i < 64 ∧ ch = base64Char i := by
  induction b using base64Encode.induct none with
  | case1 a b c rest ih =>
    intro ch hch
    simp only [base64Encode, List.mem_cons] at hch
    rcases hch with h | h | h | h | h
    · exact ⟨_, Nat.mod_lt _ (by decide), h⟩
    · exact ⟨_, Nat.mod_lt _ (by decide), h⟩
    · exact ⟨_, Nat.mod_lt _ (by decide), h⟩
    · exact ⟨_, Nat.mod_lt _ (by decide), h⟩
    · exact ih ch h
  | case2 a b =>
    intro ch hch
    simp only [base64Encode, List.append_nil, List.mem_cons, List.mem_singleton,
      List.not_mem_nil, or_false] at hch
    rcases hch with h | h | h
    · exact ⟨_, Nat.mod_lt _ (by decide), h⟩
    · exact ⟨_, Nat.mod_lt _ (by decide), h⟩
    · exact ⟨_, Nat.mod_lt _ (by decide), h⟩
  | case3 a =>
    intro ch hch
    simp only [base64Encode, List.append_nil, List.mem_cons, List.mem_singleton,
      List.not_mem_nil, or_false] at hch
    rcases hch with h | h
    · exact ⟨_, Nat.mod_lt _ (by decide), h⟩
    · exact ⟨_, Nat.mod_lt _ (by decide), h⟩
  | case4 =>
    intro ch hch
    simp [base64Encode] at hch

/-- C19: for every length `n ≥ 0`, `generateRandomString(n)` does not panic:
the padded URL-safe base64 encoding of `n` bytes has `4 * ⌈n / 3⌉ ≥ n`
characters, so the slice `[:n]` is in range. Whatever bytes the random source
yields, the result is a string of exactly `n` characters and a nil error; when
`rand.Read` fails, its error is returned. -/
theorem generateRandomString_length (src : RandSource) (n : Int) (hn : 0 ≤ n) :
    (∀ p, generateRandomString src n ≠ .error p) ∧
    (∀ byte, src = .bytes byte →
      n.toNat ≤ (urlEncodeToString ((List.range n.toNat).map byte)).length ∧
      ∃ s, generateRandomString src n = .ok (.ok s) ∧ (s.length : Int) = n) ∧
    (∀ err, src = .failed err → generateRandomString src n = .ok (.error err)) := by
  have hneg : ¬ n < 0 := by omega
  have hlen : ∀ byte : Nat → UInt8,
      n.toNat ≤ (urlEncodeToString ((List.range n.toNat).map byte)).length := by
    intro byte
    unfold urlEncodeToString
    rw [String.length_mk, base64Encode_length_padded, List.length_map, List.length_range]
    omega
  have hbytes : ∀ byte : Nat → UInt8, generateRandomString (.bytes byte) n =
      .ok (.ok (String.mk
        ((urlEncodeToString ((List.range n.toNat).map byte)).data.take n.toNat))) := by
    intro byte
    unfold generateRandomString randRead
    simp only [if_neg hneg, if_pos (hlen byte)]
  have hfailed : ∀ err, generateRandomString (.failed err) n = .ok (.error err) := by
    intro err
    unfold generateRandomString randRead
    simp only [if_neg hneg]
  refine ⟨?_, ?_, ?_⟩
  · intro p hp
    cases src with
    | failed err => rw [hfailed err] at hp; cases hp
    | bytes byte => rw [hbytes byte] at hp; cases hp
  · rintro byte rfl
    refine ⟨hlen byte, _, hbytes byte, ?_⟩
    have h : n.toNat ≤ (urlEncodeToString ((List.range n.toNat).map byte)).data.length :=
      hlen byte
    rw [String.length_mk, List.length_take]
    omega
  · rintro err rfl
    exact hfailed err

/-- C19 at the length 32 of the PKCE state, on a random source that yields
zero bytes: the state is the string of 32 characters `A`. -/
theorem generateRandomString_length_witness :
    generateRandomString (.bytes fun _ => 0) 32
      = .ok (.ok "AAAAAAAAAAAAAAAAAAAAAAAAAAAAAAAA") ∧
    ∃ s, generateRandomString (.bytes fun _ => 0) 32 = .ok (.ok s) ∧ (s.length : Int) = 32 :=
  ⟨rfl,
   ((generateRandomString_length (.bytes fun _ => 0) 32 (by decide)).2.1 (fun _ => 0) rfl).2⟩

/-- C20: the unpadded URL-safe base64 encoding of any 32 bytes, which is what
`authenticateBrowser` takes as PKCE code verifier, has exactly 43 characters,
within the range 43 to 128, each of them one of `A`-`Z`, `a`-`z`, `0`-`9`,
`-`, `_`, and none of them the padding character `=`. -/
theorem codeVerifier_shape (b : Bytes) (hb : b.length = 32) :
    (rawURLEncodeToString b).length = 43 ∧
    43 ≤ (rawURLEncodeToString b).length ∧ (rawURLEncodeToString b).length ≤ 128 ∧
    (∀ ch ∈ (rawURLEncodeToString b).data,
      ch ∈ encodeURL ∧ ch ≠ '=' ∧
      (('A' ≤ ch ∧ ch ≤ 'Z') ∨ ('a' ≤ ch ∧ ch ≤ 'z') ∨ ('0' ≤ ch ∧ ch ≤ '9') ∨
        ch = '-' ∨ ch = '_')) ∧
    ∀ byte : Nat → UInt8, b = (List.range 32).map byte →
      codeVerifier (.bytes byte) = .ok (rawURLEncodeToString b) := by
  have hlen : (rawURLEncodeToString b).length = 43 := by
    unfold rawURLEncodeToString
    rw [String.length_mk, base64Encode_length_raw, hb]
  refine ⟨hlen, by omega, by omega, ?_, ?_⟩
  · intro ch hch
    obtain ⟨i, hi, rfl⟩ := base64Encode_raw_chars b ch hch
    exact base64Char_in_alphabet i hi
  · rintro byte rfl
    rfl

/-- C20 on 32 zero bytes: the code verifier is the string of 43 characters `A`. -/
theorem codeVerifier_shape_witness :
    rawURLEncodeToString (List.replicate 32 0) = "AAAAAAAAAAAAAAAAAAAAAAAAAAAAAAAAAAAAAAAAAAA" ∧
    (rawURLEncodeToString (List.replicate 32 0)).length = 43 :=
  ⟨by decide, (codeVerifier_shape (List.replicate 32 0) (by decide)).1⟩

/-! ## The redirect listener -/

theorem Values_Get_absent (query : Values) (key : String) (h : query.index key = none) :
    query.Get key = "" := by
  unfold Values.Get
  rw [h]

/-- The handler on a request with a non-empty `error` parameter. -/
theorem callbackHandler_error (state : String) (query : Values) (he : query.Get "error" ≠ "") :
    callbackHandler state query =
      { codeChan := []
        errChan := [Sprintf (if query.Get "error_description" ≠ "" then
          "OAuth error: " ++ query.Get "error" ++ (" - " ++ query.Get "error_description")
          else "OAuth error: " ++ query.Get "error")]
        status := 400
        body := "Authentication failed: " ++ (if query.Get "error_description" ≠ "" then
          "OAuth error: " ++ query.Get "error" ++ (" - " ++ query.Get "error_description")
          else "OAuth error: " ++ query.Get "error") } := by
  unfold callbackHandler
  simp only [if_pos he]

/-- The handler on a request without `error` whose `state` is not the expected one. -/
theorem callbackHandler_state_mismatch (state : String) (query : Values)
    (he : query.Get "error" = "") (hs : query.Get "state" ≠ state) :
    callbackHandler state query =
      { codeChan := []
        errChan := ["invalid state parameter: expected " ++ state ++ ", got "
          ++ query.Get "state"]
        status := 400
        body := "Invalid state parameter" } := by
  unfold callbackHandler
  simp only [he, ne_eq, not_true_eq_false, if_false, hs, not_false_eq_true, if_true]

/-- C13: the `/callback` handler classifies a request by its query with this
precedence. A non-empty `error` parameter: the error rendered from
`"OAuth error: <error>"`, followed by `" - <error_description>"` when that is
non-empty, is sent on `errChan`, nothing on `codeChan`, status 400, whatever
`state` and `code` are. Otherwise a `state` different from the expected one (an
absent `state` reads as `""`, which differs from every non-empty expected
state): the state-mismatch error, status 400. Otherwise an empty or absent
`code`: the missing-code error, status 400. Otherwise the code is sent on
`codeChan` and the status is 200. In every case exactly one value is sent, on
exactly one of the two channels. -/
theorem callback_classification (state : String) (query : Values) :
    (query.Get "error" ≠ "" →
      callbackHandler state query =
        { codeChan := []
          errChan := [Sprintf (if query.Get "error_description" ≠ "" then
            "OAuth error: " ++ query.Get "error" ++ (" - " ++ query.Get "error_description")
            else "OAuth error: " ++ query.Get "error")]
          status := 400
          body := "Authentication failed: " ++ (if query.Get "error_description" ≠ "" then
            "OAuth error: " ++ query.Get "error" ++ (" - " ++ query.Get "error_description")
            else "OAuth error: " ++ query.Get "error") }) ∧
    (query.Get "error" = "" → query.Get "state" ≠ state →
      callbackHandler state query =
        { codeChan := []
          errChan := ["invalid state parameter: expected " ++ state ++ ", got "
            ++ query.Get "state"]
          status := 400
          body := "Invalid state parameter" }) ∧
    (query.Get "error" = "" → query.Get "state" = state → query.Get "code" = "" →
      callbackHandler state query =
        { codeChan := []
          errChan := ["no authorization code received in callback"]
          status := 400
          body := "No authorization code received. Please try again." }) ∧
    (query.Get "error" = "" → query.Get "state" = state → query.Get "code" ≠ "" →
      callbackHandler state query =
        { codeChan := [query.Get "code"]
          errChan := []
          status := 200
          body := "Authentication successful! You can close this window." }) ∧
    (callbackHandler state query).codeChan.length
      + (callbackHandler state query).errChan.length = 1 ∧
    (query.index "state" = none → state ≠ "" → query.Get "state" ≠ state) ∧
    (query.index "code" = none → query.Get "code" = "") := by
  refine ⟨?_, ?_, ?_, ?_, ?_, ?_, ?_⟩
  · exact callbackHandler_error state query
  · exact callbackHandler_state_mismatch state query
  · intro he hs hc
    unfold callbackHandler
    simp only [he, ne_eq, not_true_eq_false, if_false, hs, hc, if_true]
  · intro he hs hc
    unfold callbackHandler
    simp only [he, ne_eq, not_true_eq_false, if_false, hs, hc]
  · unfold callbackHandler
    simp only []
    split_ifs <;> rfl
  · intro habsent hne
    rw [Values_Get_absent query "state" habsent]
    exact fun h => hne h.symm
  · exact Values_Get_absent query "code"

/-- C13 on four requests for the expected state `"s"`: with `error`, with a
forged `state`, without `code`, and a well-formed one. -/
theorem callback_classification_witness :
    (callbackHandler "s" (queryOf [("error", "access_denied"), ("state", "s"), ("code", "c")])).status
      = 400 ∧
    (callbackHandler "s" (queryOf [("state", "forged"), ("code", "c")])).errChan
      = ["invalid state parameter: expected s, got forged"] ∧
    (callbackHandler "s" (queryOf [("state", "s")])).errChan
      = ["no authorization code received in callback"] ∧
    callbackHandler "s" (queryOf [("state", "s"), ("code", "c")])
      = { codeChan := ["c"], errChan := [], status := 200,
          body := "Authentication successful! You can close this window." } :=
  ⟨congrArg CallbackResult.status
      ((callback_classification "s"
        (queryOf [("error", "access_denied"), ("state", "s"), ("code", "c")])).1 (by decide)),
   congrArg CallbackResult.errChan
      ((callback_classification "s" (queryOf [("state", "forged"), ("code", "c")])).2.1
        (by decide) (by decide)),
   congrArg CallbackResult.errChan
      ((callback_classification "s" (queryOf [("state", "s")])).2.2.1
        (by decide) (by decide) (by decide)),
   (callback_classification "s" (queryOf [("state", "s"), ("code", "c")])).2.2.2.1
      (by decide) (by decide) (by decide)⟩

/-! ## The browser flow after the callback -/

/-- C14, refuted as stated: a callback whose `state` differs from the generated
one and which carries `error=access_denied` makes the browser flow fail with
the provider error, not with the state-mismatch error. -/
theorem state_mismatch_reported_as_provider_error :
    (queryOf [("error", "access_denied"), ("state", "forged")]).Get "state" ≠ "expected" ∧
    (authenticateBrowser.wait exampleProvider "expected" "verifier"
      (.request (queryOf [("error", "access_denied"), ("state", "forged")]))).result
      = .error "OAuth error: access_denied" :=
  ⟨by decide, rfl⟩

/-- C14, amended: for every callback request whose `state` parameter is absent
or differs from the generated state, whatever its `code` parameter, the
handler sends nothing on `codeChan` and answers 400, the browser flow fails and
no token exchange is performed; the failure is the state-mismatch error when
the request has no non-empty `error` parameter, and the provider error
otherwise. -/
theorem state_mismatch_fails_flow (p : Provider) (state codeVerifier : String) (query : Values)
    (hstate : query.Get "state" ≠ state) :
    (authenticateBrowser.wait p state codeVerifier (.request query)).exchanges = [] ∧
    (authenticateBrowser.wait p state codeVerifier (.request query)).callback
      = some (callbackHandler state query) ∧
    (callbackHandler state query).codeChan = [] ∧
    (callbackHandler state query).status = 400 ∧
    (query.Get "error" = "" →
      (authenticateBrowser.wait p state codeVerifier (.request query)).result =
        .error ("invalid state parameter: expected " ++ state ++ ", got " ++ query.Get "state")) ∧
    (query.Get "error" ≠ "" →
      (authenticateBrowser.wait p state codeVerifier (.request query)).result =
        .error (Sprintf (if query.Get "error_description" ≠ "" then
          "OAuth error: " ++ query.Get "error" ++ (" - " ++ query.Get "error_description")
          else "OAuth error: " ++ query.Get "error"))) := by
  by_cases he : query.Get "error" = ""
  · have h := callbackHandler_state_mismatch state query he hstate
    unfold authenticateBrowser.wait
    simp [h, he]
  · have h := callbackHandler_error state query he
    unfold authenticateBrowser.wait
    simp [h, he]

/-- C14, amended, on a callback with a forged state and a code, and on one
without any state: the flow fails with the state-mismatch error and exchanges
nothing. -/
theorem state_mismatch_fails_flow_witness :
    (authenticateBrowser.wait exampleProvider "expected" "verifier"
      (.request (queryOf [("state", "forged"), ("code", "c")]))).result
      = .error "invalid state parameter: expected expected, got forged" ∧
    (authenticateBrowser.wait exampleProvider "expected" "verifier"
      (.request (queryOf [("state", "forged"), ("code", "c")]))).exchanges = [] ∧
    (authenticateBrowser.wait exampleProvider "expected" "verifier"
      (.request (queryOf [("code", "c")]))).exchanges = [] :=
  ⟨(state_mismatch_fails_flow exampleProvider "expected" "verifier"
      (queryOf [("state", "forged"), ("code", "c")]) (by decide)).2.2.2.2.1 (by decide),
   (state_mismatch_fails_flow exampleProvider "expected" "verifier"
      (queryOf [("state", "forged"), ("code", "c")]) (by decide)).1,
   (state_mismatch_fails_flow exampleProvider "expected" "verifier"
      (queryOf [("code", "c")]) (by decide)).1⟩

/-- C15, refuted: for the callback `?error=%25d` (the `error` parameter is
`%d`), with a valid state and a code, the error the handler reports is
`OAuth error: %!d(MISSING)`: `fmt.Errorf` took the message as a format. The
parameter `%d` does not occur in it, while it does occur in the body of the
response, which is formatted with `%s`. No code is delivered. -/
theorem provider_error_mangled_by_format :
    (queryOf [("error", "%d"), ("state", "s"), ("code", "c")]).Get "error" = "%d" ∧
    (callbackHandler "s" (queryOf [("error", "%d"), ("state", "s"), ("code", "c")])).errChan
      = ["OAuth error: %!d(MISSING)"] ∧
    ¬ ("%d".data <:+: "OAuth error: %!d(MISSING)".data) ∧
    (callbackHandler "s" (queryOf [("error", "%d"), ("state", "s"), ("code", "c")])).body
      = "Authentication failed: OAuth error: %d" ∧
    (callbackHandler "s" (queryOf [("error", "%d"), ("state", "s"), ("code", "c")])).codeChan
      = [] ∧
    (callbackHandler "s" (queryOf [("error", "access_denied"), ("error_description", "50% exceeded"),
      ("state", "s"), ("code", "c")])).errChan
      = ["OAuth error: access_denied - 50%!e(MISSING)xceeded"] := by
  refine ⟨by decide, by decide, by decide, by decide, by decide, by decide⟩

/-- C16, refuted: for every port, the address the listener binds is `:<port>`,
without a host, which is every interface of the machine and not
`localhost:<port>`; the only registered pattern is `/callback`, and the
redirect URL sent to the provider is `http://localhost:<port>/callback`. -/
theorem listener_binds_every_interface (cfg : Config) :
    serverAddr cfg = ":" ++ toString cfg.Port ∧
    serverAddr cfg ≠ "localhost:" ++ toString cfg.Port ∧
    serverAddr cfg ≠ "127.0.0.1:" ++ toString cfg.Port ∧
    registeredPatterns = ["/callback"] ∧
    redirectURL cfg = "http://localhost:" ++ toString cfg.Port ++ "/callback" ∧
    serverAddr exampleConfig = ":8000" := by
  refine ⟨rfl, ?_, ?_, rfl, rfl, by decide⟩
  · intro h
    have hlen := congrArg String.length h
    unfold serverAddr at hlen
    rw [String.length_append, String.length_append] at hlen
    have h1 : (":" : String).length = 1 := by decide
    have h2 : ("localhost:" : String).length = 10 := by decide
    omega
  · intro h
    have hlen := congrArg String.length h
    unfold serverAddr at hlen
    rw [String.length_append, String.length_append] at hlen
    have h1 : (":" : String).length = 1 := by decide
    have h2 : ("127.0.0.1:" : String).length = 10 := by decide
    omega

/-! ## The rendering of a format without operands -/

theorem parsenum_rest_length (num : Nat) (isnum : Bool) (cs rest : List Char)
    (h : (parsenum num isnum cs).2 = some rest) : rest.length ≤ cs.length := by
  induction cs generalizing num isnum with
  | nil =>
    unfold parsenum at h
    cases h
    exact Nat.le_refl _
  | cons c cs ih =>
    rw [parsenum] at h
    by_cases hd : c.isDigit = true
    · rw [if_pos hd] at h
      by_cases hl : tooLarge num = true
      · rw [if_pos hl] at h
        cases h
      · rw [if_neg hl] at h
        exact Nat.le_succ_of_le (ih _ _ h)
    · rw [if_neg hd] at h
      cases h
      exact Nat.le_refl _

theorem argNumber_rest_length (goodArgNum : Bool) (format : List Char) :
    (argNumber goodArgNum format).1.length ≤ format.length := by
  unfold argNumber
  split
  · simp only [List.length_drop]
    omega
  · exact Nat.le_refl _

theorem verbWidth_rest_length (afterIndex goodArgNum : Bool) (format : List Char) :
    (verbWidth afterIndex goodArgNum format).2.1.length ≤ format.length := by
  unfold verbWidth
  split
  · simp
  · split
    · next widPresent rest h =>
      exact parsenum_rest_length 0 false _ rest (by rw [h])
    · simp

theorem verbPrecision_rest_length (afterIndex goodArgNum : Bool) (format : List Char) :
    (verbPrecision afterIndex goodArgNum format).2.1.length ≤ format.length := by
  unfold verbPrecision
  split
  · next c rest =>
    have harg := argNumber_rest_length (goodArgNum && !afterIndex) (c :: rest)
    simp only []
    split
    · next rest1 h =>
      rw [h] at harg
      simp only [List.length_cons] at harg ⊢
      omega
    · split
      · next x rest1 h =>
        have hp := parsenum_rest_length 0 false _ rest1 (by rw [h])
        simp only [List.length_cons] at harg ⊢
        omega
      · simp
  · exact Nat.le_refl _

/-- One verb never gives back more format than it was given. -/
theorem verbSpec_rest_length (format : List Char) :
    (verbSpec format).2.length ≤ format.length := by
  have h1 : (format.dropWhile isFlag).length ≤ format.length :=
    (List.dropWhile_sublist _).length_le
  have h2 := argNumber_rest_length true (format.dropWhile isFlag)
  have h3 := verbWidth_rest_length (argNumber true (format.dropWhile isFlag)).2.1
    (argNumber true (format.dropWhile isFlag)).2.2 (argNumber true (format.dropWhile isFlag)).1
  have h4 := verbPrecision_rest_length
    (verbWidth (argNumber true (format.dropWhile isFlag)).2.1
      (argNumber true (format.dropWhile isFlag)).2.2
      (argNumber true (format.dropWhile isFlag)).1).2.2.1
    (verbWidth (argNumber true (format.dropWhile isFlag)).2.1
      (argNumber true (format.dropWhile isFlag)).2.2
      (argNumber true (format.dropWhile isFlag)).1).2.2.2
    (verbWidth (argNumber true (format.dropWhile isFlag)).2.1
      (argNumber true (format.dropWhile isFlag)).2.2
      (argNumber true (format.dropWhile isFlag)).1).2.1
  unfold verbSpec
  simp only []
  split
  · simp
  · next verb rest hlast =>
    have hrest : rest.length + 1 ≤ format.length := by
      split_ifs at hlast with hafter
      · simp only [] at hlast
        rw [hlast] at h4
        simp only [List.length_cons] at h4
        omega
      · have h5 := argNumber_rest_length
          (verbPrecision
            (verbWidth (argNumber true (format.dropWhile isFlag)).2.1
              (argNumber true (format.dropWhile isFlag)).2.2
              (argNumber true (format.dropWhile isFlag)).1).2.2.1
            (verbWidth (argNumber true (format.dropWhile isFlag)).2.1
              (argNumber true (format.dropWhile isFlag)).2.2
              (argNumber true (format.dropWhile isFlag)).1).2.2.2
            (verbWidth (argNumber true (format.dropWhile isFlag)).2.1
              (argNumber true (format.dropWhile isFlag)).2.2
              (argNumber true (format.dropWhile isFlag)).1).2.1).2.2.2
          (verbPrecision
            (verbWidth (argNumber true (format.dropWhile isFlag)).2.1
              (argNumber true (format.dropWhile isFlag)).2.2
              (argNumber true (format.dropWhile isFlag)).1).2.2.1
            (verbWidth (argNumber true (format.dropWhile isFlag)).2.1
              (argNumber true (format.dropWhile isFlag)).2.2
              (argNumber true (format.dropWhile isFlag)).1).2.2.2
            (verbWidth (argNumber true (format.dropWhile isFlag)).2.1
              (argNumber true (format.dropWhile isFlag)).2.2
              (argNumber true (format.dropWhile isFlag)).1).2.1).2.1
        simp only [] at hlast
        rw [hlast] at h5
        simp only [List.length_cons] at h5
        omega
    split_ifs <;> simp only [] <;> omega

/-- The fuel of `doPrintf` is never used up: any two amounts of fuel that
cover the length of the format give the same text. -/
theorem doPrintf_fuel (fuel1 fuel2 : Nat) (format : List Char)
    (h1 : format.length ≤ fuel1) (h2 : format.length ≤ fuel2) :
    doPrintf fuel1 format = doPrintf fuel2 format := by
  induction fuel1 generalizing fuel2 format with
  | zero =>
    have hnil : format = [] := List.length_eq_zero.1 (Nat.le_zero.1 h1)
    subst hnil
    cases fuel2 <;> rfl
  | succ k ih =>
    cases format with
    | nil => cases fuel2 <;> rfl
    | cons c rest =>
      cases fuel2 with
      | zero => simp at h2
      | succ m =>
        simp only [List.length_cons, Nat.add_le_add_iff_right] at h1 h2
        have hv := verbSpec_rest_length rest
        unfold doPrintf
        split_ifs
        · rw [ih m _ (by omega) (by omega)]
        · rw [ih m _ h1 h2]

/-- Text without `%` is copied as it is, and what follows it is rendered on its own. -/
theorem doPrintf_text (text rest : List Char) (fuel : Nat) (htext : '%' ∉ text)
    (hfuel : text.length + rest.length ≤ fuel) :
    doPrintf fuel (text ++ rest) = text ++ doPrintf rest.length rest := by
  induction text generalizing fuel with
  | nil => exact doPrintf_fuel _ _ _ (by simpa using hfuel) (Nat.le_refl _)
  | cons c text ih =>
    cases fuel with
    | zero => simp at hfuel
    | succ k =>
      have hc : c ≠ '%' := fun h => htext (by rw [h]; exact List.mem_cons_self _ _)
      have ht : '%' ∉ text := fun h => htext (List.mem_cons_of_mem _ h)
      rw [List.cons_append, doPrintf, if_neg hc,
        ih k ht (by simp only [List.length_cons] at hfuel; omega), List.cons_append]

/-- A format without `%` is rendered as itself. -/
theorem Sprintf_percent_free (format : String) (h : '%' ∉ format.data) :
    Sprintf format = format := by
  unfold Sprintf
  have h1 := doPrintf_text format.data [] format.length h (Nat.le_refl _)
  rw [List.append_nil] at h1
  rw [h1]
  show String.mk (format.data ++ []) = format
  rw [List.append_nil]

/-- A `.` that ends the format is read as the verb; one followed by more of the
format starts a precision. -/
theorem Sprintf_final_dot :
    Sprintf "OAuth error: %." = "OAuth error: %!.(MISSING)" ∧
    Sprintf "%5." = "%!.(MISSING)" ∧
    Sprintf "%.5" = "%!(NOVERB)" ∧
    Sprintf "%.2f" = "%!f(MISSING)" := by
  decide

/-- The provider error of a callback whose `error` parameter has no `%`
contains that parameter; when `error_description` has no `%` either, the error
is exactly `OAuth error: <error>` followed by ` - <error_description>` if the
description is not empty. -/
theorem provider_error_percent_free (state : String) (query : Values)
    (he : query.Get "error" ≠ "") (hpe : '%' ∉ (query.Get "error").data) :
    (∃ msg, (callbackHandler state query).errChan = [msg] ∧
      (query.Get "error").data <:+: msg.data) ∧
    ('%' ∉ (query.Get "error_description").data →
      (callbackHandler state query).errChan =
        [if query.Get "error_description" ≠ "" then
          "OAuth error: " ++ query.Get "error" ++ (" - " ++ query.Get "error_description")
          else "OAuth error: " ++ query.Get "error"]) := by
  have hclass := callbackHandler_error state query he
  have hprefix : '%' ∉ ("OAuth error: " ++ query.Get "error").data := by
    rw [String.data_append, List.mem_append]
    rintro (h | h)
    · revert h; decide
    · exact hpe h
  constructor
  · refine ⟨_, congrArg CallbackResult.errChan hclass, ?_⟩
    by_cases hd : query.Get "error_description" = ""
    · simp only [hd, ne_eq, not_true_eq_false, if_false]
      rw [Sprintf_percent_free _ hprefix, String.data_append]
      exact ⟨"OAuth error: ".data, [], List.append_nil _⟩
    · simp only [ne_eq, hd, not_false_eq_true, if_true]
      unfold Sprintf
      have hsplit : ("OAuth error: " ++ query.Get "error" ++
          (" - " ++ query.Get "error_description")).data =
          ("OAuth error: " ++ query.Get "error").data ++
            (" - " ++ query.Get "error_description").data := String.data_append _ _
      have hlen : ("OAuth error: " ++ query.Get "error").data.length +
          (" - " ++ query.Get "error_description").data.length ≤
          ("OAuth error: " ++ query.Get "error" ++
            (" - " ++ query.Get "error_description")).length := by
        show _ ≤ ("OAuth error: " ++ query.Get "error" ++
            (" - " ++ query.Get "error_description")).data.length
        rw [hsplit, List.length_append]
      rw [hsplit, doPrintf_text _ _ _ hprefix hlen, String.data_append]
      exact ⟨"OAuth error: ".data, doPrintf _ _, rfl⟩
  · intro hpd
    rw [congrArg CallbackResult.errChan hclass]
    have hall : '%' ∉ (if query.Get "error_description" ≠ "" then
        "OAuth error: " ++ query.Get "error" ++ (" - " ++ query.Get "error_description")
        else "OAuth error: " ++ query.Get "error").data := by
      split_ifs
      · rw [String.data_append, List.mem_append]
        rintro (h | h)
        · exact hprefix h
        · rw [String.data_append, List.mem_append] at h
          rcases h with h | h
          · revert h; decide
          · exact hpd h
      · exact hprefix
    rw [Sprintf_percent_free _ hall]

/-! ## The browser flow up to the select -/

/-- With bytes from the random source, `generateRandomString` returns the first
`n` characters of their padded encoding. -/
theorem generateRandomString_bytes (byte : Nat → UInt8) (n : Int) (hn : 0 ≤ n) :
    generateRandomString (.bytes byte) n =
      .ok (.ok (String.mk
        ((urlEncodeToString ((List.range n.toNat).map byte)).data.take n.toNat))) ∧
    (String.mk
      ((urlEncodeToString ((List.range n.toNat).map byte)).data.take n.toNat)).length
      = n.toNat := by
  have hneg : ¬ n < 0 := by omega
  have hlen : n.toNat ≤ (urlEncodeToString ((List.range n.toNat).map byte)).data.length := by
    unfold urlEncodeToString
    rw [base64Encode_length_padded, List.length_map, List.length_range]
    omega
  constructor
  · unfold generateRandomString randRead
    have hlen1 : n.toNat ≤ (urlEncodeToString ((List.range n.toNat).map byte)).length := hlen
    simp only [if_neg hneg, if_pos hlen1]
  · rw [String.length_mk, List.length_take]
    omega

/-- When discovery succeeds, the random source yields bytes and the browser
opens, `authenticateBrowser` reaches its `select` with a state of 32 characters
and a code verifier of 43 characters. -/
theorem authenticateBrowser_waits (p : Provider) (stateByte verifierByte : Nat → UInt8)
    (event : BrowserEvent) (hp : p.newProvider = none) (hb : p.openBrowser = none) :
    ∃ state verifier, state.length = 32 ∧ verifier.length = 43 ∧
      authenticateBrowser p (.bytes stateByte) (.bytes verifierByte) event
        = .ok (authenticateBrowser.wait p state verifier event) := by
  obtain ⟨hgen, hlen⟩ := generateRandomString_bytes stateByte 32 (by decide)
  refine ⟨_, rawURLEncodeToString ((List.range 32).map verifierByte), hlen, ?_, ?_⟩
  · unfold rawURLEncodeToString
    rw [String.length_mk, base64Encode_length_raw, List.length_map, List.length_range]
  · unfold authenticateBrowser
    simp only [hp, hgen, hb, codeVerifier, randRead]

/-! ## The device-authorization endpoint candidates -/

/-- The loop over the candidates stops at the first one whose device flow succeeds. -/
theorem tryDeviceEndpoints_first_success (d : Drivers) (front : List String) (u : String)
    (back : List String) (t : TokenInfo)
    (hfront : ∀ x ∈ front, ∃ e, d.deviceFlow x = .error e) (hu : d.deviceFlow u = .ok t) :
    tryDeviceEndpoints d (front ++ u :: back) = (.ok t, (front ++ [u]).map Call.deviceFlow) := by
  induction front with
  | nil =>
    rw [List.nil_append, tryDeviceEndpoints, hu]
    rfl
  | cons x front ih =>
    obtain ⟨e, he⟩ := hfront x (List.mem_cons_self _ _)
    rw [List.cons_append, tryDeviceEndpoints, he]
    simp only [ih (fun y hy => hfront y (List.mem_cons_of_mem _ hy))]
    rfl

/-- When every candidate fails the loop has tried them all and the result is the
one error of `authenticateHeadless`. -/
theorem tryDeviceEndpoints_all_fail (d : Drivers) (urls : List String)
    (h : ∀ x ∈ urls, ∃ e, d.deviceFlow x = .error e) :
    tryDeviceEndpoints d urls = (.error headlessFailed, urls.map Call.deviceFlow) := by
  induction urls with
  | nil => rfl
  | cons x urls ih =>
    obtain ⟨e, he⟩ := h x (List.mem_cons_self _ _)
    rw [tryDeviceEndpoints, he]
    simp only [ih (fun y hy => h y (List.mem_cons_of_mem _ hy))]
    rfl

/-- C21: the device-authorization candidates are `issuer + "/device"`,
`issuer + "/oauth2/device"`, `issuer + "/v1/device"`, tried in this order. The
token of the first candidate whose device flow succeeds is returned and no
later candidate is tried; the errors of the candidates before it are dropped.
When all three fail the result is the one fixed error of
`authenticateHeadless`, whatever the three errors were. In headless mode with
an empty secret this loop is the whole selection. -/
theorem device_endpoints_first_success_wins (cfg : Config) (d : Drivers) :
    deviceEndpoints cfg =
      [cfg.IssuerURL ++ "/device", cfg.IssuerURL ++ "/oauth2/device",
        cfg.IssuerURL ++ "/v1/device"] ∧
    (∀ t, d.deviceFlow (cfg.IssuerURL ++ "/device") = .ok t →
      tryDeviceEndpoints d (deviceEndpoints cfg) =
        (.ok t, [Call.deviceFlow (cfg.IssuerURL ++ "/device")])) ∧
    (∀ e1 t, d.deviceFlow (cfg.IssuerURL ++ "/device") = .error e1 →
      d.deviceFlow (cfg.IssuerURL ++ "/oauth2/device") = .ok t →
      tryDeviceEndpoints d (deviceEndpoints cfg) =
        (.ok t, [Call.deviceFlow (cfg.IssuerURL ++ "/device"),
          Call.deviceFlow (cfg.IssuerURL ++ "/oauth2/device")])) ∧
    (∀ e1 e2 t, d.deviceFlow (cfg.IssuerURL ++ "/device") = .error e1 →
      d.deviceFlow (cfg.IssuerURL ++ "/oauth2/device") = .error e2 →
      d.deviceFlow (cfg.IssuerURL ++ "/v1/device") = .ok t →
      tryDeviceEndpoints d (deviceEndpoints cfg) =
        (.ok t, [Call.deviceFlow (cfg.IssuerURL ++ "/device"),
          Call.deviceFlow (cfg.IssuerURL ++ "/oauth2/device"),
          Call.deviceFlow (cfg.IssuerURL ++ "/v1/device")])) ∧
    (∀ e1 e2 e3, d.deviceFlow (cfg.IssuerURL ++ "/device") = .error e1 →
      d.deviceFlow (cfg.IssuerURL ++ "/oauth2/device") = .error e2 →
      d.deviceFlow (cfg.IssuerURL ++ "/v1/device") = .error e3 →
      tryDeviceEndpoints d (deviceEndpoints cfg) =
        (.error headlessFailed, [Call.deviceFlow (cfg.IssuerURL ++ "/device"),
          Call.deviceFlow (cfg.IssuerURL ++ "/oauth2/device"),
          Call.deviceFlow (cfg.IssuerURL ++ "/v1/device")])) ∧
    (cfg.ClientSecret = "" →
      authenticateHeadless.selectFlow cfg d = tryDeviceEndpoints d (deviceEndpoints cfg)) := by
  refine ⟨rfl, ?_, ?_, ?_, ?_, ?_⟩
  · intro t h1
    exact tryDeviceEndpoints_first_success d [] _ _ t (fun x hx => nomatch hx) h1
  · intro e1 t h1 h2
    exact tryDeviceEndpoints_first_success d [cfg.IssuerURL ++ "/device"] _ _ t
      (fun x hx => by rw [List.mem_singleton.1 hx]; exact ⟨e1, h1⟩) h2
  · intro e1 e2 t h1 h2 h3
    refine tryDeviceEndpoints_first_success d
      [cfg.IssuerURL ++ "/device", cfg.IssuerURL ++ "/oauth2/device"] _ [] t ?_ h3
    intro x hx
    rcases List.mem_cons.1 hx with rfl | hx
    · exact ⟨e1, h1⟩
    · rw [List.mem_singleton.1 hx]
      exact ⟨e2, h2⟩
  · intro e1 e2 e3 h1 h2 h3
    refine tryDeviceEndpoints_all_fail d (deviceEndpoints cfg) ?_
    intro x hx
    rcases List.mem_cons.1 hx with rfl | hx
    · exact ⟨e1, h1⟩
    · rcases List.mem_cons.1 hx with rfl | hx
      · exact ⟨e2, h2⟩
      · rw [List.mem_singleton.1 hx]
        exact ⟨e3, h3⟩
  · intro hs
    unfold authenticateHeadless.selectFlow
    rw [if_neg (not_not.2 hs)]

/-- C21 on a provider whose device flow exists only at `/oauth2/device`: the
first candidate is tried and fails, the second gives the token, the third is
not tried; and on a provider where all three fail. -/
theorem device_endpoints_first_success_wins_witness :
    tryDeviceEndpoints
        (deviceDriversAt "https://issuer.example/oauth2/device" (exampleToken "device" 0))
        (deviceEndpoints headlessConfig) =
      (.ok (exampleToken "device" 0),
        [Call.deviceFlow "https://issuer.example/device",
          Call.deviceFlow "https://issuer.example/oauth2/device"]) ∧
    tryDeviceEndpoints failingDrivers (deviceEndpoints headlessConfig) =
      (.error headlessFailed,
        [Call.deviceFlow "https://issuer.example/device",
          Call.deviceFlow "https://issuer.example/oauth2/device",
          Call.deviceFlow "https://issuer.example/v1/device"]) :=
  ⟨(device_endpoints_first_success_wins headlessConfig
      (deviceDriversAt "https://issuer.example/oauth2/device" (exampleToken "device" 0))).2.2.1
      "device code request failed with status 404" (exampleToken "device" 0) rfl rfl,
   (device_endpoints_first_success_wins headlessConfig failingDrivers).2.2.2.2.1
      "device code request failed with status 404" "device code request failed with status 404"
      "device code request failed with status 404" rfl rfl rfl⟩

/-! ## Frame of Set and Clear -/

theorem GoMap.index_delete_ne {V : Type} (m : GoMap V) {k k1 : String} (h : k1 ≠ k) :
    (m.delete k).index k1 = m.index k1 := by
  unfold GoMap.index GoMap.delete
  exact AList.lookup_erase_ne h

/-- `Set` and `Clear` under one key leave `Get` under every other key as it was. -/
theorem Get_frame_other_key (codec : JSONCodec) (o : SaveOutcome) (c : TokenCache)
    (fs : FileSystem) (i1 c1 i2 c2 : String) (record : TokenInfo)
    (hkey : TokenCache.key i1 c1 ≠ TokenCache.key i2 c2) :
    (c.Set codec o fs i2 c2 record).1.Get i1 c1 = c.Get i1 c1 ∧
    (c.Clear codec o fs i2 c2).1.Get i1 c1 = c.Get i1 c1 :=
  ⟨GoMap.index_assign_ne _ _ hkey, GoMap.index_delete_ne _ hkey⟩

/-- C23, refuted: the pairs `("https://idp", "8443:kubectl")` and
`("https://idp:8443", "kubectl")` are distinct, yet in a store that holds
`recordA` for the first, `Set` of `recordB` for the second makes `Get` of the
first return `recordB`, and `Clear` of the second makes `Get` of the first
return nil; this holds for every prior store. -/
theorem set_and_clear_reach_colliding_pair :
    ("https://idp", "8443:kubectl") ≠ ("https://idp:8443", "kubectl") ∧
    collidingCache.Get "https://idp" "8443:kubectl" = some recordA ∧
    recordB ≠ recordA ∧
    (∀ (codec : JSONCodec) (o : SaveOutcome) (fs : FileSystem),
      (collidingCache.Set codec o fs "https://idp:8443" "kubectl" recordB).1.Get
        "https://idp" "8443:kubectl" = some recordB ∧
      (collidingCache.Clear codec o fs "https://idp:8443" "kubectl").1.Get
        "https://idp" "8443:kubectl" = none) ∧
    (∀ (codec : JSONCodec) (o : SaveOutcome) (c : TokenCache) (fs : FileSystem)
      (record : TokenInfo),
      (c.Set codec o fs "https://idp:8443" "kubectl" record).1.Get "https://idp" "8443:kubectl"
        = some record ∧
      (c.Clear codec o fs "https://idp:8443" "kubectl").1.Get "https://idp" "8443:kubectl"
        = none) := by
  have hkey : TokenCache.key "https://idp" "8443:kubectl"
      = TokenCache.key "https://idp:8443" "kubectl" := by decide
  have hgeneral : ∀ (codec : JSONCodec) (o : SaveOutcome) (c : TokenCache) (fs : FileSystem)
      (record : TokenInfo),
      (c.Set codec o fs "https://idp:8443" "kubectl" record).1.Get "https://idp" "8443:kubectl"
        = some record ∧
      (c.Clear codec o fs "https://idp:8443" "kubectl").1.Get "https://idp" "8443:kubectl"
        = none := by
    intro codec o c fs record
    constructor
    · show GoMap.index _ (TokenCache.key "https://idp" "8443:kubectl") = some record
      rw [hkey]
      exact GoMap.index_assign _ _ _
    · show GoMap.index _ (TokenCache.key "https://idp" "8443:kubectl") = none
      rw [hkey]
      exact GoMap.index_delete _ _
  exact ⟨by decide, GoMap.index_assign _ _ _, by decide,
    fun codec o fs => hgeneral codec o collidingCache fs recordB, hgeneral⟩

/-! ## The two entry points follow one policy -/

/-- C24: for every configuration, clock reading, store, file system and driver
outcomes, `runLogin` and `handleExecCredential` make the same driver calls in
the same order (none, Refresh only, Refresh then Authenticate, or Authenticate
only), the same `Set` calls with the same arguments, end with the same token,
and leave the same store and files. They fail in the same cases of the policy,
with the same error: whenever `runLogin` returns an error (the full flow
failed) `handleExecCredential` returns that error, and whenever `runLogin`
returns nil `handleExecCredential` returns nil too, unless the writing of its
response to standard output fails. -/
theorem entry_points_same_policy (w : World) (request : TypeMeta) (cfg : Config)
    (tokenCache : TokenCache) (fs : FileSystem) :
    (handleExecCredential w request cfg tokenCache fs).calls
      = (runLogin w cfg tokenCache fs).calls ∧
    (handleExecCredential w request cfg tokenCache fs).sets
      = (runLogin w cfg tokenCache fs).sets ∧
    (handleExecCredential w request cfg tokenCache fs).token
      = (runLogin w cfg tokenCache fs).token ∧
    (handleExecCredential w request cfg tokenCache fs).cache
      = (runLogin w cfg tokenCache fs).cache ∧
    (handleExecCredential w request cfg tokenCache fs).fs
      = (runLogin w cfg tokenCache fs).fs ∧
    (∀ e, (runLogin w cfg tokenCache fs).err = some e ↔
      (handleExecCredential w request cfg tokenCache fs).err = some e ∧
        (handleExecCredential w request cfg tokenCache fs).token = none) ∧
    ((runLogin w cfg tokenCache fs).err = none →
      (handleExecCredential w request cfg tokenCache fs).err =
        w.encode.map (fun err => "failed to encode exec credential response: " ++ err)) ∧
    (w.encode = none →
      (handleExecCredential w request cfg tokenCache fs).err
        = (runLogin w cfg tokenCache fs).err) ∧
    ((runLogin w cfg tokenCache fs).calls = [] ∨
      (∃ refreshToken, (runLogin w cfg tokenCache fs).calls = [Call.RefreshToken refreshToken]) ∨
      (∃ refreshToken trace, (runLogin w cfg tokenCache fs).calls =
        Call.RefreshToken refreshToken :: Call.Authenticate :: trace) ∨
      (∃ trace, (runLogin w cfg tokenCache fs).calls = Call.Authenticate :: trace)) := by
  have hsome : ∀ (token : TokenInfo) (calls : List Call) (sets : List SetCall)
      (cache : TokenCache) (fs1 : FileSystem) (e : Error),
      ¬ ((handleExecCredential.respond w request token calls sets cache fs1).err = some e ∧
        (handleExecCredential.respond w request token calls sets cache fs1).token = none) := by
    intro token calls sets cache fs1 e h
    rw [respond_token] at h
    exact nomatch h.2
  have hmap : w.encode = none →
      w.encode.map (fun err => "failed to encode exec credential response: " ++ err) = none := by
    intro h
    rw [h]
    rfl
  rcases entry_points_cases w request cfg tokenCache fs with
    ⟨cached, _, _, hexec, hlogin⟩ | ⟨cached, refreshed, _, _, _, _, hexec, hlogin⟩ |
    ⟨before, hbefore, hs, hlogin⟩
  · rw [hexec, hlogin]
    refine ⟨respond_calls _ _ _ _ _ _ _, respond_sets _ _ _ _ _ _ _, respond_token _ _ _ _ _ _ _,
      respond_cache _ _ _ _ _ _ _, respond_fs _ _ _ _ _ _ _, ?_, fun _ => respond_err _ _ _ _ _ _ _,
      ?_, Or.inl rfl⟩
    · intro e
      exact ⟨fun h => (nomatch h), fun h => absurd h (hsome _ _ _ _ _ e)⟩
    · intro hen
      rw [respond_err, hmap hen]
  · rw [hexec, hlogin]
    refine ⟨respond_calls _ _ _ _ _ _ _, respond_sets _ _ _ _ _ _ _, respond_token _ _ _ _ _ _ _,
      respond_cache _ _ _ _ _ _ _, respond_fs _ _ _ _ _ _ _, ?_, fun _ => respond_err _ _ _ _ _ _ _,
      ?_, Or.inr (Or.inl ⟨_, rfl⟩)⟩
    · intro e
      exact ⟨fun h => (nomatch h), fun h => absurd h (hsome _ _ _ _ _ e)⟩
    · intro hen
      rw [respond_err, hmap hen]
  · rw [hlogin]
    have hshape : ∀ trace : List Call,
        before ++ Call.Authenticate :: trace = [] ∨
        (∃ refreshToken, before ++ Call.Authenticate :: trace = [Call.RefreshToken refreshToken]) ∨
        (∃ refreshToken trace1, before ++ Call.Authenticate :: trace =
          Call.RefreshToken refreshToken :: Call.Authenticate :: trace1) ∨
        (∃ trace1, before ++ Call.Authenticate :: trace = Call.Authenticate :: trace1) := by
      intro trace
      rcases hbefore with rfl | ⟨refreshToken, rfl⟩
      · exact Or.inr (Or.inr (Or.inr ⟨trace, rfl⟩))
      · exact Or.inr (Or.inr (Or.inl ⟨refreshToken, trace, rfl⟩))
    rcases ha : Authenticate cfg w.drivers with ⟨res, trace⟩
    cases res with
    | error e0 =>
      rw [handleExecCredential_authenticate_failed w request cfg tokenCache fs _ e0 trace hs rfl ha,
        runLogin_authenticate_failed w cfg tokenCache fs _ e0 trace ha]
      refine ⟨rfl, rfl, rfl, rfl, rfl, ?_, fun h => (nomatch h), fun _ => rfl, hshape trace⟩
      intro e
      exact ⟨fun h => ⟨h, rfl⟩, fun h => h.1⟩
    | ok token =>
      rw [handleExecCredential_authenticated w request cfg tokenCache fs _ token trace hs rfl ha,
        runLogin_authenticated w cfg tokenCache fs _ token trace ha]
      refine ⟨respond_calls _ _ _ _ _ _ _, respond_sets _ _ _ _ _ _ _,
        respond_token _ _ _ _ _ _ _, respond_cache _ _ _ _ _ _ _, respond_fs _ _ _ _ _ _ _, ?_,
        fun _ => respond_err _ _ _ _ _ _ _, ?_, hshape trace⟩
      · intro e
        exact ⟨fun h => (nomatch h), fun h => absurd h (hsome _ _ _ _ _ e)⟩
      · intro hen
        rw [respond_err, hmap hen]

/-- An instance of C24: the cached token is stale and refreshable, the
provider refuses the refresh and completes the browser flow, and the response
is written; both entry points return nil. -/
theorem entry_points_same_policy_witness :
    (exampleWorld (exampleDrivers (exampleToken "new" 3600000000000))).encode = none ∧
    (handleExecCredential (exampleWorld (exampleDrivers (exampleToken "new" 3600000000000)))
      { Kind := "ExecCredential", APIVersion := "client.authentication.k8s.io/v1beta1" }
      exampleConfig (exampleCache (exampleRefreshable "cached" 60000000000)) emptyFileSystem).err
      = (runLogin (exampleWorld (exampleDrivers (exampleToken "new" 3600000000000)))
          exampleConfig (exampleCache (exampleRefreshable "cached" 60000000000))
          emptyFileSystem).err :=
  ⟨rfl, (entry_points_same_policy (exampleWorld (exampleDrivers (exampleToken "new" 3600000000000)))
    { Kind := "ExecCredential", APIVersion := "client.authentication.k8s.io/v1beta1" }
    exampleConfig (exampleCache (exampleRefreshable "cached" 60000000000))
    emptyFileSystem).2.2.2.2.2.2.2.1 rfl⟩

/-! ## The poll loop of the device flow -/

theorem deviceFlow_poll_expired (p : DeviceProvider) (tokenURL deviceCode : String)
    (interval expiresAt : Int) (fuel i : Nat) (now : Int) (polls : List Int)
    (h : expiresAt ≤ now) :
    deviceFlow.poll p tokenURL deviceCode interval expiresAt (fuel + 1) i now polls =
      some { result := .error "device flow authentication timeout", polls := polls } := by
  rw [deviceFlow.poll, if_neg (not_lt.mpr h)]

/-- With `expires_in` 0 the loop condition is false at its first evaluation:
the flow times out and no poll is sent. -/
theorem deviceFlow_expires_in_zero (p : DeviceProvider) (cfg : Config) (deviceAuthURL : String)
    (fuel : Nat) (deviceResp : DeviceResponse)
    (hauth : p.authorize deviceAuthURL = .response 200 (.ok deviceResp))
    (hzero : deviceResp.ExpiresIn = 0) :
    deviceFlow p cfg deviceAuthURL (fuel + 1) =
      some { result := .error "device flow authentication timeout", polls := [] } := by
  have hwrap : wrap64 (0 * Second) = 0 := by decide
  unfold deviceFlow
  rw [hauth]
  simp only [ne_eq, not_true_eq_false, if_false, hzero, hwrap]
  apply deviceFlow_poll_expired
  have h := Int.ofNat_nonneg p.entered
  omega

/-- What the loop does guarantee, for a positive interval and a token endpoint
that never answers with a decodable status 200: with fuel above the
nanoseconds left until `expiresAt` the loop ends with the timeout error, and
each poll it sends follows an evaluation of the loop condition that was made
before `expiresAt`, by the sleep. -/
theorem deviceFlow_poll_timeout (p : DeviceProvider) (tokenURL deviceCode : String)
    (interval expiresAt : Int) (hinterval : 0 < interval)
    (hnever : ∀ i sent tokenResp,
      p.token tokenURL deviceCode i sent ≠ .response 200 (.ok tokenResp)) :
    ∀ (fuel i : Nat) (now : Int) (polls : List Int), (expiresAt - now).toNat < fuel →
      ∃ later, deviceFlow.poll p tokenURL deviceCode interval expiresAt fuel i now polls =
          some { result := .error "device flow authentication timeout",
                 polls := polls ++ later } ∧
        ∀ s ∈ later, ∃ j : Nat, now ≤ s - interval - p.oversleep j ∧
          s - interval - p.oversleep j < expiresAt := by
  intro fuel
  induction fuel with
  | zero => intro i now polls h; exact absurd h (Nat.not_lt_zero _)
  | succ fuel ih =>
    intro i now polls hfuel
    by_cases hnow : now < expiresAt
    · have hmax : max interval 0 = interval := max_eq_left (le_of_lt hinterval)
      have ho := Int.ofNat_nonneg (p.oversleep i)
      have he := Int.ofNat_nonneg (p.elapsed i)
      have hnext : (expiresAt - (now + interval + p.oversleep i + p.elapsed i)).toNat < fuel := by
        omega
      obtain ⟨later, hrun, hlater⟩ := ih (i + 1) (now + interval + p.oversleep i + p.elapsed i)
        (polls ++ [now + interval + p.oversleep i]) hnext
      have hres : deviceFlow.poll p tokenURL deviceCode interval expiresAt (fuel + 1) i now polls
          = deviceFlow.poll p tokenURL deviceCode interval expiresAt fuel (i + 1)
              (now + interval + p.oversleep i + p.elapsed i)
              (polls ++ [now + interval + p.oversleep i]) := by
        rw [deviceFlow.poll, if_pos hnow]
        simp only [hmax]
        rcases htoken : p.token tokenURL deviceCode i (now + interval + p.oversleep i) with
          err | ⟨statusCode, body⟩
        · rfl
        · by_cases hstatus : statusCode = 200
          · cases body with
            | error err => simp only [if_pos hstatus]
            | ok tokenResp =>
              rw [hstatus] at htoken
              exact absurd htoken (hnever _ _ _)
          · simp only [if_neg hstatus]
      refine ⟨(now + interval + p.oversleep i) :: later, ?_, ?_⟩
      · rw [hres, hrun, List.append_assoc, List.singleton_append]
      · intro s hs
        rcases List.mem_cons.mp hs with rfl | hs
        · exact ⟨i, by omega, by omega⟩
        · obtain ⟨j, h1, h2⟩ := hlater s hs
          exact ⟨j, by omega, h2⟩
    · refine ⟨[], ?_, fun s hs => absurd hs (List.not_mem_nil s)⟩
      rw [deviceFlow_poll_expired p tokenURL deviceCode interval expiresAt fuel i now polls
        (not_lt.mp hnow), List.append_nil]

/-- C22, refuted at a device code with `interval` 5 and `expires_in` 3, issued
at instant 0 by a provider whose clock is advanced by the sleeps alone. The
code expires at 3 s. When the provider never approves, `deviceFlow` sends a
poll to the token endpoint at 5 s, after the expiry, and only then fails with
the timeout error. When the provider approves at 4 s, after the expiry, that
late poll succeeds and `deviceFlow` returns a token, not the timeout error.
With `expires_in` 0 the flow does time out with zero polls. -/
theorem deviceFlow_polls_after_expiry :
    (∀ fuel : Nat,
      deviceFlow (deviceProviderApprovingAt 5 3 none) headlessConfig
          "https://issuer.example/device" (fuel + 2) =
        some { result := .error "device flow authentication timeout",
               polls := [5000000000] }) ∧
    (3 : Int) * Second < 5000000000 ∧
    (∀ fuel : Nat,
      deviceFlow (deviceProviderApprovingAt 5 3 (some 4000000000)) headlessConfig
          "https://issuer.example/device" (fuel + 1) =
        some { result := .ok { AccessToken := "access-1", RefreshToken := "refresh-1",
                               IDToken := "id-1", Expiry := 3605000000000 },
               polls := [5000000000] }) ∧
    (∀ fuel : Nat,
      deviceFlow (deviceProviderApprovingAt 5 0 none) headlessConfig
          "https://issuer.example/device" (fuel + 1) =
        some { result := .error "device flow authentication timeout", polls := [] }) :=
  ⟨fun _ => rfl, by decide, fun _ => rfl, fun _ => rfl⟩

end KubectlLogin
